import Mathlib

/-!
# volrend: the CUDA / OpenGL interop renderer (src/src/cuda_renderer.cpp)

A shallow embedding of `VolumeRenderer::Impl`.  Every OpenGL, CUDA and
collaborator call of the source is one constructor of `Op`; each method of
`Impl` is a function that returns the new renderer state together with the
list of calls it issued, in program order.  What the driver hands back (object
names, stream and resource handles) comes from `Gpu`, a deterministic stand-in
for the driver that numbers what it hands out and remembers renderbuffer
storage.

Conventions:
* `std::array<T, N>` is `Fin N → T`; an access with a run-time index goes
  through `at?`, and an out-of-bounds access makes the method return `none`.
* Pointers are `Option`: `none` is `nullptr`.
* `GLfloat` values are only passed along, never computed with; they are
  rationals (`1e9` and `1.f` are exact).
* The `cuda(...)` wrapper (declared in `volrend/cuda/common.cuh`, outside the
  given sources) stops the process when a call fails; the methods below are
  the path on which every call succeeds, and `issued` cuts a method's calls at
  the first fail-fast call that fails.
-/

namespace volrend

/-! ## Handles and plain data -/

abbrev GLuint := Nat

abbrev GLfloat := ℚ

abbrev cudaStream_t := Nat

/-- The OpenGL enumerants that occur in the renderer. -/
inductive GLenum where
  | GL_COLOR_ATTACHMENT0
  | GL_COLOR_ATTACHMENT1
  | GL_DEPTH_ATTACHMENT
  | GL_RENDERBUFFER
  | GL_FRAMEBUFFER
  | GL_COLOR
  | GL_DEPTH
  | GL_RGBA8
  | GL_R32F
  | GL_DEPTH_COMPONENT32F
  | GL_COLOR_BUFFER_BIT
  | GL_NEAREST
deriving DecidableEq, Repr

/-- Storage of a renderbuffer as given to `glNamedRenderbufferStorage`. -/
structure Storage where
  internalformat : GLenum
  width : Int
  height : Int
deriving DecidableEq, Repr

/-- What a non-null `cudaGraphicsResource_t` denotes: the handle number the
driver gave it, the GL image it was registered for, and the storage that image
had at registration. -/
structure GraphicsResource where
  id : Nat
  image : GLuint
  storage : Option Storage
deriving DecidableEq, Repr

abbrev cudaGraphicsResource_t := Option GraphicsResource

/-- What a non-null `cudaArray_t` denotes: the array behind a resource. -/
structure CudaArray where
  resource : GraphicsResource
deriving DecidableEq, Repr

abbrev cudaArray_t := Option CudaArray

/-- An octree is only referred to, by address. -/
abbrev N3Tree := Nat

/-- A mesh is only drawn, never inspected. -/
abbrev Mesh := Nat

/-- The two fields of `Camera` the renderer reads and writes. -/
structure Camera where
  width : Int
  height : Int
deriving DecidableEq, Repr

/-- Modelled from the spec: `Camera::_update` is declared outside the given
sources; it refreshes the camera-derived view and projection matrices and
leaves the image size alone. -/
def Camera._update (c : Camera) : Camera := c

/-- The one field of `RenderOptions` the renderer reads itself. -/
structure RenderOptions where
  background_brightness : GLfloat
deriving DecidableEq

/-! ## The calls the renderer issues -/

/-- One call to OpenGL, CUDA or a collaborator, with its arguments; a call
that returns a handle carries the handle it returned. -/
inductive Op where
  | cudaGraphicsUnregisterResource (resource : cudaGraphicsResource_t)
  | glDeleteRenderbuffers (n : Nat) (renderbuffers : List GLuint)
  | glDeleteFramebuffers (n : Nat) (framebuffers : List GLuint)
  | cudaStreamDestroy (stream : cudaStream_t)
  | cudaStreamCreateWithFlags (stream : cudaStream_t)
  | glCreateRenderbuffers (n : Nat) (renderbuffers : List GLuint)
  | glCreateFramebuffers (n : Nat) (framebuffers : List GLuint)
  | glNamedFramebufferRenderbuffer (framebuffer : GLuint) (attachment : GLenum)
      (renderbuffertarget : GLenum) (renderbuffer : GLuint)
  | glNamedFramebufferDrawBuffers (framebuffer : GLuint) (n : Nat) (bufs : List GLenum)
  | glClearDepth (depth : GLfloat)
  | glClearNamedFramebufferfv (framebuffer : GLuint) (buffer : GLenum) (drawbuffer : Int)
      (value : List GLfloat)
  | camera_update
  | glDepthMask (flag : Bool)
  | glBindFramebuffer (target : GLenum) (framebuffer : GLuint)
  | mesh_draw (mesh : Mesh)
  | cudaGraphicsMapResources (count : Nat) (resources : List cudaGraphicsResource_t)
      (stream : cudaStream_t)
  | launch_renderer (tree : N3Tree) (camera : Camera) (options : RenderOptions)
      (image_arr : cudaArray_t) (depth_arr : cudaArray_t) (stream : cudaStream_t)
  | cudaGraphicsUnmapResources (count : Nat) (resources : List cudaGraphicsResource_t)
      (stream : cudaStream_t)
  | glNamedFramebufferReadBuffer (framebuffer : GLuint) (src : GLenum)
  | glBlitNamedFramebuffer (readFramebuffer : GLuint) (drawFramebuffer : GLuint)
      (srcX0 srcY0 srcX1 srcY1 : Int) (dstX0 dstY0 dstX1 dstY1 : Int)
      (mask : GLenum) (filter : GLenum)
  | glNamedRenderbufferStorage (renderbuffer : GLuint) (internalformat : GLenum)
      (width : Int) (height : Int)
  | cudaGraphicsGLRegisterImage (resource : cudaGraphicsResource_t) (image : GLuint)
      (target : GLenum)
  | cudaGraphicsSubResourceGetMappedArray (array : cudaArray_t)
      (resource : cudaGraphicsResource_t)
deriving DecidableEq

/-! ## The driver stand-in -/

/-- The driver side: the next unused GL object name, the next unused CUDA
handle number, and the storage of each renderbuffer. -/
structure Gpu where
  nextName : GLuint
  nextHandle : Nat
  storage : GLuint → Option Storage

/-- Two fresh object names, as `glCreateRenderbuffers(2, ..)` and
`glCreateFramebuffers(2, ..)` write them. -/
def Gpu.create2 (g : Gpu) : (Fin 2 → GLuint) × Gpu :=
  (fun i => g.nextName + i.val, { g with nextName := g.nextName + 2 })

/-- A fresh stream handle. -/
def Gpu.streamCreate (g : Gpu) : cudaStream_t × Gpu :=
  (g.nextHandle, { g with nextHandle := g.nextHandle + 1 })

/-- The driver side of `glNamedRenderbufferStorage`. -/
def Gpu.renderbufferStorage (g : Gpu) (renderbuffer : GLuint) (st : Storage) : Gpu :=
  { g with storage := Function.update g.storage renderbuffer (some st) }

/-- The driver side of `cudaGraphicsGLRegisterImage`: a fresh handle for the
image, tied to the storage the image has now. -/
def Gpu.registerImage (g : Gpu) (image : GLuint) : GraphicsResource × Gpu :=
  ({ id := g.nextHandle, image := image, storage := g.storage image },
   { g with nextHandle := g.nextHandle + 1 })

/-- The driver side of `cudaGraphicsSubResourceGetMappedArray`. -/
def getMappedArray (resource : cudaGraphicsResource_t) : cudaArray_t :=
  resource.map CudaArray.mk

/-! ## The renderer state -/

/-- The members of `VolumeRenderer::Impl`.  `camera`, `options` and `meshes`
are references to objects of the owner; they are carried as fields. -/
structure Impl where
  tree : Option N3Tree
  camera : Camera
  options : RenderOptions
  buf_index : Nat
  fb : Fin 2 → GLuint
  rb : Fin 2 → GLuint
  depth_rb : Fin 2 → GLuint
  depth_buf_rb : Fin 2 → GLuint
  cgr : Fin 4 → cudaGraphicsResource_t
  ca : Fin 4 → cudaArray_t
  meshes : List Mesh
  stream : cudaStream_t
  started_ : Bool

/-- The members the constructor leaves uninitialised. -/
structure Indeterminate where
  fb : Fin 2 → GLuint
  rb : Fin 2 → GLuint
  depth_rb : Fin 2 → GLuint
  depth_buf_rb : Fin 2 → GLuint
  ca : Fin 4 → cudaArray_t
  stream : cudaStream_t

/-- Constructor `Impl(camera, options, meshes)`: `buf_index(0)`, and the
member initialisers `tree = nullptr`, `cgr = {{0}}`, `started_ = false`. -/
def Impl.new (camera : Camera) (options : RenderOptions) (meshes : List Mesh)
    (u : Indeterminate) : Impl :=
  { tree := none
    camera := camera
    options := options
    buf_index := 0
    fb := u.fb
    rb := u.rb
    depth_rb := u.depth_rb
    depth_buf_rb := u.depth_buf_rb
    cgr := fun _ => none
    ca := u.ca
    meshes := meshes
    stream := u.stream
    started_ := false }

/-- Access `a[i]` with a run-time index: `none` when out of bounds. -/
def at? {n : Nat} {α : Type} (a : Fin n → α) (i : Nat) : Option α :=
  if h : i < n then some (a ⟨i, h⟩) else none

/-- Slot `index * 2` of the four-entry tables. -/
def slot0 (index : Fin 2) : Fin 4 := ⟨index.val * 2, by omega⟩

/-- Slot `index * 2 + 1` of the four-entry tables. -/
def slot1 (index : Fin 2) : Fin 4 := ⟨index.val * 2 + 1, by omega⟩

/-- The loop `for (index = 0; index < cgr.size(); index++) if (cgr[index] !=
nullptr) cuda(GraphicsUnregisterResource(cgr[index]));` of the destructor and
of `resize`. -/
def unregisterAll (cgr : Fin 4 → cudaGraphicsResource_t) : List Op :=
  (List.finRange 4).filterMap fun index =>
    match cgr index with
    | none => none
    | some r => some (Op.cudaGraphicsUnregisterResource (some r))

/-- Destructor `~Impl()`. -/
def Impl.dtor (s : Impl) : List Op :=
  unregisterAll s.cgr ++
  [ Op.glDeleteRenderbuffers 2 (List.ofFn s.rb),
    Op.glDeleteRenderbuffers 2 (List.ofFn s.depth_rb),
    Op.glDeleteRenderbuffers 2 (List.ofFn s.depth_buf_rb),
    Op.glDeleteFramebuffers 2 (List.ofFn s.fb),
    Op.cudaStreamDestroy s.stream ]

/-- Body of the attach loop of `start()` for one `index`. -/
def attachOps (fb rb depth_rb depth_buf_rb : Fin 2 → GLuint) (index : Fin 2) : List Op :=
  [ Op.glNamedFramebufferRenderbuffer (fb index) GLenum.GL_COLOR_ATTACHMENT0
      GLenum.GL_RENDERBUFFER (rb index),
    Op.glNamedFramebufferRenderbuffer (fb index) GLenum.GL_COLOR_ATTACHMENT1
      GLenum.GL_RENDERBUFFER (depth_rb index),
    Op.glNamedFramebufferRenderbuffer (fb index) GLenum.GL_DEPTH_ATTACHMENT
      GLenum.GL_RENDERBUFFER (depth_buf_rb index),
    Op.glNamedFramebufferDrawBuffers (fb index) 2
      [GLenum.GL_COLOR_ATTACHMENT0, GLenum.GL_COLOR_ATTACHMENT1] ]

/-- Method `start()`. -/
def Impl.start (s : Impl) (g : Gpu) : Impl × Gpu × List Op :=
  if s.started_ then (s, g, [])
  else
    let (stream, g1) := g.streamCreate
    let (rb, g2) := g1.create2
    let (depth_rb, g3) := g2.create2
    let (depth_buf_rb, g4) := g3.create2
    let (fb, g5) := g4.create2
    ({ s with stream := stream, rb := rb, depth_rb := depth_rb,
              depth_buf_rb := depth_buf_rb, fb := fb, started_ := true },
     g5,
     [ Op.cudaStreamCreateWithFlags stream,
       Op.glCreateRenderbuffers 2 (List.ofFn rb),
       Op.glCreateRenderbuffers 2 (List.ofFn depth_rb),
       Op.glCreateRenderbuffers 2 (List.ofFn depth_buf_rb),
       Op.glCreateFramebuffers 2 (List.ofFn fb) ] ++
     attachOps fb rb depth_rb depth_buf_rb 0 ++
     attachOps fb rb depth_rb depth_buf_rb 1)

/-- The calls `render()` opens with: `glClearDepth(1.f)` and the three
`glClearNamedFramebufferfv` calls on framebuffer `fbi`. -/
def clearOps (fbi : GLuint) (brightness : GLfloat) : List Op :=
  [ Op.glClearDepth 1,
    Op.glClearNamedFramebufferfv fbi GLenum.GL_COLOR 0
      [brightness, brightness, brightness, 1],
    Op.glClearNamedFramebufferfv fbi GLenum.GL_COLOR 1 [1000000000],
    Op.glClearNamedFramebufferfv fbi GLenum.GL_DEPTH 0 [1000000000] ]

/-- Method `render()`. -/
def Impl.render (s : Impl) : Option (Impl × List Op) := do
  let fbi ← at? s.fb s.buf_index
  let clears := clearOps fbi s.options.background_brightness
  match s.tree with
  | none => pure (s, clears)
  | some tree =>
    if !s.started_ then pure (s, clears)
    else
      let camera := s.camera._update
      let draws := s.meshes.map Op.mesh_draw
      let c0 ← at? s.cgr (s.buf_index * 2)
      let c1 ← at? s.cgr (s.buf_index * 2 + 1)
      let a0 ← at? s.ca (s.buf_index * 2)
      let a1 ← at? s.ca (s.buf_index * 2 + 1)
      pure ({ s with camera := camera, buf_index := s.buf_index ^^^ 1 },
        clears ++
        [ Op.camera_update,
          Op.glDepthMask true,
          Op.glBindFramebuffer GLenum.GL_FRAMEBUFFER fbi ] ++
        draws ++
        [ Op.glBindFramebuffer GLenum.GL_FRAMEBUFFER 0,
          Op.cudaGraphicsMapResources 2 [c0, c1] s.stream,
          Op.launch_renderer tree camera s.options a0 a1 s.stream,
          Op.cudaGraphicsUnmapResources 2 [c0, c1] s.stream,
          Op.glNamedFramebufferReadBuffer fbi GLenum.GL_COLOR_ATTACHMENT0,
          Op.glBlitNamedFramebuffer fbi 0 0 0 camera.width camera.height
            0 camera.height camera.width 0
            GLenum.GL_COLOR_BUFFER_BIT GLenum.GL_NEAREST ])

/-- Body of the reallocate-and-register loop of `resize` for one `index`. -/
def resizeBody (width height : Int) (acc : Impl × Gpu × List Op) (index : Fin 2) :
    Impl × Gpu × List Op :=
  let s := acc.1
  let g := acc.2.1
  let g1 := g.renderbufferStorage (s.rb index) ⟨GLenum.GL_RGBA8, width, height⟩
  let g2 := g1.renderbufferStorage (s.depth_rb index) ⟨GLenum.GL_R32F, width, height⟩
  let g3 := g2.renderbufferStorage (s.depth_buf_rb index)
    ⟨GLenum.GL_DEPTH_COMPONENT32F, width, height⟩
  let (r0, g4) := g3.registerImage (s.rb index)
  let s1 := { s with cgr := Function.update s.cgr (slot0 index) (some r0) }
  let (r1, g5) := g4.registerImage (s1.depth_rb index)
  let s2 := { s1 with cgr := Function.update s1.cgr (slot1 index) (some r1) }
  (s2, g5, acc.2.2 ++
    [ Op.glNamedRenderbufferStorage (s.rb index) GLenum.GL_RGBA8 width height,
      Op.glNamedRenderbufferStorage (s.depth_rb index) GLenum.GL_R32F width height,
      Op.glNamedRenderbufferStorage (s.depth_buf_rb index)
        GLenum.GL_DEPTH_COMPONENT32F width height,
      Op.glNamedFramebufferDrawBuffers (s.fb index) 2
        [GLenum.GL_COLOR_ATTACHMENT0, GLenum.GL_COLOR_ATTACHMENT1],
      Op.cudaGraphicsGLRegisterImage (some r0) (s.rb index) GLenum.GL_RENDERBUFFER,
      Op.cudaGraphicsGLRegisterImage (some r1) (s.depth_rb index) GLenum.GL_RENDERBUFFER ])

/-- The loop `for (index = 0; index < cgr.size(); index++)
cuda(GraphicsSubResourceGetMappedArray(&ca[index], cgr[index], 0, 0));`. -/
def getArrays (s : Impl) : Impl × List Op :=
  ({ s with ca := fun index => getMappedArray (s.cgr index) },
   (List.finRange 4).map fun index =>
     Op.cudaGraphicsSubResourceGetMappedArray (getMappedArray (s.cgr index)) (s.cgr index))

/-- Method `resize(width, height)`. -/
def Impl.resize (s : Impl) (g : Gpu) (width height : Int) : Impl × Gpu × List Op :=
  if s.camera.width = width ∧ s.camera.height = height then (s, g, [])
  else
    let s1 := { s with camera := { s.camera with width := width, height := height } }
    let unreg := unregisterAll s1.cgr
    let (s2, g2, ops2) := (List.finRange 2).foldl (resizeBody width height) (s1, g, unreg)
    let (s3, ops3) := getArrays s2
    (s3, g2, ops2 ++
      [ Op.cudaGraphicsMapResources 4 (List.ofFn s2.cgr) 0 ] ++
      ops3 ++
      [ Op.cudaGraphicsUnmapResources 4 (List.ofFn s2.cgr) 0 ])

/-! ## The public interface, with the driver and the call log alongside -/

/-- A renderer together with the driver state and every call issued so far. -/
structure World where
  impl_ : Impl
  gpu : Gpu
  log : List Op

/-- Constructor `VolumeRenderer()`: builds the `Impl`; nothing is issued. -/
def VolumeRenderer.new (camera : Camera) (options : RenderOptions) (meshes : List Mesh)
    (u : Indeterminate) (g : Gpu) : World :=
  { impl_ := Impl.new camera options meshes u, gpu := g, log := [] }

/-- Method `impl_->start()`, on a world. -/
def World.start (W : World) : World :=
  { impl_ := (W.impl_.start W.gpu).1
    gpu := (W.impl_.start W.gpu).2.1
    log := W.log ++ (W.impl_.start W.gpu).2.2 }

/-- Method `VolumeRenderer::render()`. -/
def VolumeRenderer.render (W : World) : Option World :=
  W.impl_.render.map fun r => { W with impl_ := r.1, log := W.log ++ r.2 }

/-- Method `VolumeRenderer::set(tree)`: `impl_->start(); impl_->tree = &tree;`. -/
def VolumeRenderer.set (W : World) (tree : N3Tree) : World :=
  { W.start with impl_ := { W.start.impl_ with tree := some tree } }

/-- Method `VolumeRenderer::clear()`: `impl_->tree = nullptr;`. -/
def VolumeRenderer.clear (W : World) : World :=
  { W with impl_ := { W.impl_ with tree := none } }

/-- Method `VolumeRenderer::resize(width, height)`. -/
def VolumeRenderer.resize (W : World) (width height : Int) : World :=
  { impl_ := (W.impl_.resize W.gpu width height).1
    gpu := (W.impl_.resize W.gpu width height).2.1
    log := W.log ++ (W.impl_.resize W.gpu width height).2.2 }

/-- One call on the renderer. -/
inductive Call where
  | start
  | set (tree : N3Tree)
  | clear
  | resize (width height : Int)
  | render
deriving DecidableEq

/-- Perform one call. -/
def World.call (W : World) : Call → Option World
  | Call.start => some W.start
  | Call.set tree => some (VolumeRenderer.set W tree)
  | Call.clear => some (VolumeRenderer.clear W)
  | Call.resize width height => some (VolumeRenderer.resize W width height)
  | Call.render => VolumeRenderer.render W

/-- Perform a sequence of calls, first to last. -/
def World.run : List Call → World → Option World
  | [], W => some W
  | c :: cs, W => (W.call c).bind (World.run cs)

/-- The results of `n` successive `render()` calls: the final state and, per
call, the calls it issued. -/
def renders : Nat → Impl → Option (Impl × List (List Op))
  | 0, s => some (s, [])
  | n + 1, s =>
    match s.render with
    | none => none
    | some (s1, ops) =>
      match renders n s1 with
      | none => none
      | some (s2, rest) => some (s2, ops :: rest)

/-! ## Reading a call log -/

/-- Is the call a registration of image `x`? -/
def Op.registers (x : GLuint) : Op → Bool
  | Op.cudaGraphicsGLRegisterImage _ image _ => decide (image = x)
  | _ => false

/-- Is the call the unregistration of a binding of image `x`? -/
def Op.unregisters (x : GLuint) : Op → Bool
  | Op.cudaGraphicsUnregisterResource (some r) => decide (r.image = x)
  | _ => false

/-- Register calls minus unregister calls for image `x` in a log. -/
def liveBindings (log : List Op) (x : GLuint) : Int :=
  (log.countP (Op.registers x) : Int) - (log.countP (Op.unregisters x) : Int)

/-- The framebuffers that exist after a log, from those existing before. -/
def framebuffersAfter : List Op → List GLuint → List GLuint
  | [], fbs => fbs
  | Op.glCreateFramebuffers _ names :: ops, fbs => framebuffersAfter ops (fbs ++ names)
  | Op.glDeleteFramebuffers _ names :: ops, fbs => framebuffersAfter ops (fbs.diff names)
  | _ :: ops, fbs => framebuffersAfter ops fbs

/-- The renderbuffers that exist after a log, from those existing before. -/
def renderbuffersAfter : List Op → List GLuint → List GLuint
  | [], rbs => rbs
  | Op.glCreateRenderbuffers _ names :: ops, rbs => renderbuffersAfter ops (rbs ++ names)
  | Op.glDeleteRenderbuffers _ names :: ops, rbs => renderbuffersAfter ops (rbs.diff names)
  | _ :: ops, rbs => renderbuffersAfter ops rbs

/-- The bindings that are live after a log, from those live before. -/
def liveAfter : List Op → List cudaGraphicsResource_t → List cudaGraphicsResource_t
  | [], live => live
  | Op.cudaGraphicsGLRegisterImage r _ _ :: ops, live => liveAfter ops (live ++ [r])
  | Op.cudaGraphicsUnregisterResource r :: ops, live => liveAfter ops (live.erase r)
  | _ :: ops, live => liveAfter ops live

/-- The bindings that are mapped after a log, from those mapped before. -/
def mappedAfter : List Op → List cudaGraphicsResource_t → List cudaGraphicsResource_t
  | [], mapped => mapped
  | Op.cudaGraphicsMapResources _ rs _ :: ops, mapped => mappedAfter ops (mapped ++ rs)
  | Op.cudaGraphicsUnmapResources _ rs _ :: ops, mapped => mappedAfter ops (mapped.diff rs)
  | _ :: ops, mapped => mappedAfter ops mapped

/-- The non-null entries of the binding table, in index order. -/
def bindings (cgr : Fin 4 → cudaGraphicsResource_t) : List cudaGraphicsResource_t :=
  (List.ofFn cgr).filter Option.isSome

/-- The predicate `before p q ops`: no `q` call is followed by a `p` call, that is, every
`p` call of `ops` comes before every `q` call. -/
def before (p q : Op → Bool) (ops : List Op) : Prop :=
  ops.Pairwise fun a b => ¬ (q a = true ∧ p b = true)

def Op.isUnregister : Op → Bool
  | Op.cudaGraphicsUnregisterResource _ => true
  | _ => false

def Op.isRegister : Op → Bool
  | Op.cudaGraphicsGLRegisterImage _ _ _ => true
  | _ => false

def Op.isStorage : Op → Bool
  | Op.glNamedRenderbufferStorage _ _ _ _ => true
  | _ => false

def Op.isDelete : Op → Bool
  | Op.glDeleteRenderbuffers _ _ => true
  | Op.glDeleteFramebuffers _ _ => true
  | _ => false

def Op.isStreamDestroy : Op → Bool
  | Op.cudaStreamDestroy _ => true
  | _ => false

def Op.isMap : Op → Bool
  | Op.cudaGraphicsMapResources _ _ _ => true
  | _ => false

def Op.isUnmap : Op → Bool
  | Op.cudaGraphicsUnmapResources _ _ _ => true
  | _ => false

def Op.isGetMappedArray : Op → Bool
  | Op.cudaGraphicsSubResourceGetMappedArray _ _ => true
  | _ => false

def Op.isLaunch : Op → Bool
  | Op.launch_renderer _ _ _ _ _ _ => true
  | _ => false

def Op.isMeshDraw : Op → Bool
  | Op.mesh_draw _ => true
  | _ => false

/-- The calls of one full frame on Surface Set `i`: what `render()` issues when
an octree is bound, the renderer is started and `buf_index` is `i`. -/
def frameOps (s : Impl) (tree : N3Tree) (i : Fin 2) : List Op :=
  clearOps (s.fb i) s.options.background_brightness ++
  [ Op.camera_update,
    Op.glDepthMask true,
    Op.glBindFramebuffer GLenum.GL_FRAMEBUFFER (s.fb i) ] ++
  s.meshes.map Op.mesh_draw ++
  [ Op.glBindFramebuffer GLenum.GL_FRAMEBUFFER 0,
    Op.cudaGraphicsMapResources 2 [s.cgr (slot0 i), s.cgr (slot1 i)] s.stream,
    Op.launch_renderer tree s.camera._update s.options (s.ca (slot0 i)) (s.ca (slot1 i))
      s.stream,
    Op.cudaGraphicsUnmapResources 2 [s.cgr (slot0 i), s.cgr (slot1 i)] s.stream,
    Op.glNamedFramebufferReadBuffer (s.fb i) GLenum.GL_COLOR_ATTACHMENT0,
    Op.glBlitNamedFramebuffer (s.fb i) 0 0 0 s.camera._update.width s.camera._update.height
      0 s.camera._update.height s.camera._update.width 0
      GLenum.GL_COLOR_BUFFER_BIT GLenum.GL_NEAREST ]

/-- Surface Set index `k mod 2`. -/
def setOf (k : Nat) : Fin 2 := ⟨k % 2, Nat.mod_lt k (by decide)⟩

/-- Calls of `resize` for Surface Set `index`, given the binding table after
the call: three storage reallocations, the draw-buffer selection, two
registrations. -/
def setOps (s : Impl) (cgr : Fin 4 → cudaGraphicsResource_t) (width height : Int)
    (index : Fin 2) : List Op :=
  [ Op.glNamedRenderbufferStorage (s.rb index) GLenum.GL_RGBA8 width height,
    Op.glNamedRenderbufferStorage (s.depth_rb index) GLenum.GL_R32F width height,
    Op.glNamedRenderbufferStorage (s.depth_buf_rb index)
      GLenum.GL_DEPTH_COMPONENT32F width height,
    Op.glNamedFramebufferDrawBuffers (s.fb index) 2
      [GLenum.GL_COLOR_ATTACHMENT0, GLenum.GL_COLOR_ATTACHMENT1],
    Op.cudaGraphicsGLRegisterImage (cgr (slot0 index)) (s.rb index) GLenum.GL_RENDERBUFFER,
    Op.cudaGraphicsGLRegisterImage (cgr (slot1 index)) (s.depth_rb index)
      GLenum.GL_RENDERBUFFER ]

/-- Rank of a call of the destructor: unregister, delete, stream destruction. -/
def dtorRank : Op → Nat
  | Op.cudaGraphicsUnregisterResource _ => 0
  | Op.glDeleteRenderbuffers _ _ => 1
  | Op.glDeleteFramebuffers _ _ => 1
  | _ => 2

/-- Rank of a call of a size-changing `resize`: unregister; reallocation,
draw-buffer selection and registration; map; get-mapped-array; unmap. -/
def resizeRank : Op → Nat
  | Op.cudaGraphicsUnregisterResource _ => 0
  | Op.cudaGraphicsMapResources _ _ _ => 2
  | Op.cudaGraphicsSubResourceGetMappedArray _ _ => 3
  | Op.cudaGraphicsUnmapResources _ _ _ => 4
  | _ => 1

/-- The number of entries of the binding table that are bindings of image `x`. -/
def tableCount (cgr : Fin 4 → cudaGraphicsResource_t) (x : GLuint) : Nat :=
  (List.finRange 4).countP fun j =>
    match cgr j with
    | some r => decide (r.image = x)
    | none => false

def Op.isObjectLifecycle : Op → Bool
  | Op.glCreateRenderbuffers _ _ => true
  | Op.glCreateFramebuffers _ _ => true
  | Op.glDeleteRenderbuffers _ _ => true
  | Op.glDeleteFramebuffers _ _ => true
  | _ => false

/-- What holds of a renderer, with its call log, after any sequence of calls
on a freshly constructed one: the live bindings of each image are the entries
of the binding table for it; before `start()` no framebuffer or renderbuffer
exists; after `start()` exactly the two framebuffers and six renderbuffers of
the tables exist, with consecutive names; and `buf_index` is 0 or 1. -/
def Inv (W : World) : Prop :=
  (∀ x, liveBindings W.log x = (tableCount W.impl_.cgr x : Int)) ∧
  (W.impl_.started_ = false →
    framebuffersAfter W.log [] = [] ∧ renderbuffersAfter W.log [] = []) ∧
  (W.impl_.started_ = true →
    ∃ n : Nat,
      (∀ i : Fin 2, W.impl_.rb i = n + i.val) ∧
      (∀ i : Fin 2, W.impl_.depth_rb i = n + 2 + i.val) ∧
      (∀ i : Fin 2, W.impl_.depth_buf_rb i = n + 4 + i.val) ∧
      (∀ i : Fin 2, W.impl_.fb i = n + 6 + i.val) ∧
      framebuffersAfter W.log [] = [W.impl_.fb 0, W.impl_.fb 1] ∧
      renderbuffersAfter W.log [] =
        [W.impl_.rb 0, W.impl_.rb 1, W.impl_.depth_rb 0, W.impl_.depth_rb 1,
         W.impl_.depth_buf_rb 0, W.impl_.depth_buf_rb 1]) ∧
  W.impl_.buf_index < 2

/-! ## What a blit copies -/

/-- The OpenGL rule for `glBlitFramebuffer` with `GL_NEAREST`, along one axis:
the centre `d + 1/2` of destination pixel `d` is carried linearly from the
destination interval `dst0 .. dst1` to the source interval `src0 .. src1`
(bounds in reverse order mirror the image), and the source pixel is the one
that contains the resulting point. -/
def blitSourceCoord (src0 src1 dst0 dst1 d : Int) : Int :=
  ⌊(src0 : ℚ) + ((d : ℚ) + 1 / 2 - (dst0 : ℚ)) * ((src1 : ℚ) - (src0 : ℚ)) /
      ((dst1 : ℚ) - (dst0 : ℚ))⌋

/-- Does pixel coordinate `d` lie in the interval with bounds `dst0`, `dst1`? -/
def inBlitRange (dst0 dst1 d : Int) : Bool :=
  decide (min dst0 dst1 ≤ d ∧ d < max dst0 dst1)

/-- The source pixel a blit call copies to destination pixel `p`, if `p` lies
in the destination rectangle. -/
def Op.blitSource : Op → Int × Int → Option (Int × Int)
  | Op.glBlitNamedFramebuffer _ _ srcX0 srcY0 srcX1 srcY1 dstX0 dstY0 dstX1 dstY1 _ _, p =>
    if inBlitRange dstX0 dstX1 p.1 && inBlitRange dstY0 dstY1 p.2 then
      some (blitSourceCoord srcX0 srcX1 dstX0 dstX1 p.1,
            blitSourceCoord srcY0 srcY1 dstY0 dstY1 p.2)
    else none
  | _, _ => none

def Op.isBlit : Op → Bool
  | Op.glBlitNamedFramebuffer _ _ _ _ _ _ _ _ _ _ _ _ => true
  | _ => false

/-- The scenario of the spec, for any sizes: construct with no mesh, `start()`,
`resize(width, height)`, bind octree `tree`. -/
def scenario (camera : Camera) (options : RenderOptions) (u : Indeterminate) (g : Gpu)
    (width height : Int) (tree : N3Tree) : World :=
  VolumeRenderer.set
    (VolumeRenderer.resize (VolumeRenderer.new camera options [] u g).start width height) tree

/-! ## Concrete states for the worked examples -/

/-- Some values for the uninitialised members. -/
def exampleIndeterminate : Indeterminate :=
  { fb := fun _ => 0, rb := fun _ => 0, depth_rb := fun _ => 0, depth_buf_rb := fun _ => 0
    ca := fun _ => none, stream := 0 }

/-- A driver that has handed out nothing yet (name and handle 0 are reserved). -/
def exampleGpu : Gpu := { nextName := 1, nextHandle := 1, storage := fun _ => none }

/-- A freshly constructed renderer: camera 256 x 256, brightness 1/2, no mesh. -/
def exampleFresh : Impl :=
  Impl.new { width := 256, height := 256 } { background_brightness := 1 / 2 } []
    exampleIndeterminate

/-- The renderer `exampleFresh` after `start()`. -/
def exampleStarted : Impl := (exampleFresh.start exampleGpu).1

/-- The renderer `exampleStarted` with octree 7 bound. -/
def exampleBound : Impl := { exampleStarted with tree := some 7 }

/-- The scenario of the spec with its numbers: camera 256 x 256 at first,
`resize(800, 600)`, octree 7. -/
def exampleWorld : World :=
  scenario { width := 256, height := 256 } { background_brightness := 1 / 2 }
    exampleIndeterminate exampleGpu 800 600 7

/-- The renderer at the end of that scenario. -/
def exampleReady : Impl := exampleWorld.impl_

/-- Construct, then bind octree 7 (which runs `start()`). -/
def exampleSet : World :=
  VolumeRenderer.set
    (VolumeRenderer.new { width := 256, height := 256 } { background_brightness := 1 / 2 } []
      exampleIndeterminate exampleGpu)
    7

/-- The world `exampleSet` after a `resize` with the camera size it already has. -/
def exampleSameSize : World := VolumeRenderer.resize exampleSet 256 256

/-- The driver after that `start()`. -/
def exampleStartedGpu : Gpu := (exampleFresh.start exampleGpu).2.1

/-- The world `exampleWorld` after one more call, a `render()`: the frame is
issued on Surface Set 0 and the index becomes 1. -/
def exampleRendered : World :=
  { exampleWorld with
    impl_ := { exampleWorld.impl_ with camera := exampleWorld.impl_.camera._update
                                       buf_index := 1 }
    log := exampleWorld.log ++ frameOps exampleWorld.impl_ 7 0 }

/-- A freshly constructed renderer on which `clear()` is called first. -/
def exampleCleared : World :=
  VolumeRenderer.clear
    (VolumeRenderer.new { width := 256, height := 256 } { background_brightness := 1 / 2 } []
      exampleIndeterminate exampleGpu)

/-- Width and height of a renderbuffer as the driver knows them: (0, 0) as
long as no storage was given to it. -/
def Gpu.dims (g : Gpu) (renderbuffer : GLuint) : Int × Int :=
  match g.storage renderbuffer with
  | none => (0, 0)
  | some st => (st.width, st.height)

/-- The state of the tables after a size-changing `resize` on a started
renderer: each slot of the binding table holds the binding of the colour or
depth-surrogate renderbuffer of its set, registered with the storage the
renderbuffer still has, which has the camera's size; each slot of the array
table holds the array of that binding; and the four most recent registrations
and get-mapped-array calls of the log are the ones that filled the tables. -/
def Sized (W : World) : Prop :=
  (∀ i : Fin 2, ∃ r0 r1 : GraphicsResource,
    W.impl_.cgr (slot0 i) = some r0 ∧ W.impl_.cgr (slot1 i) = some r1 ∧
    W.impl_.ca (slot0 i) = some ⟨r0⟩ ∧ W.impl_.ca (slot1 i) = some ⟨r1⟩ ∧
    r0.image = W.impl_.rb i ∧ r1.image = W.impl_.depth_rb i ∧
    r0.storage = W.gpu.storage (W.impl_.rb i) ∧
    r1.storage = W.gpu.storage (W.impl_.depth_rb i) ∧
    W.gpu.storage (W.impl_.rb i) =
      some ⟨GLenum.GL_RGBA8, W.impl_.camera.width, W.impl_.camera.height⟩ ∧
    W.gpu.storage (W.impl_.depth_rb i) =
      some ⟨GLenum.GL_R32F, W.impl_.camera.width, W.impl_.camera.height⟩ ∧
    W.gpu.storage (W.impl_.depth_buf_rb i) =
      some ⟨GLenum.GL_DEPTH_COMPONENT32F, W.impl_.camera.width, W.impl_.camera.height⟩) ∧
  (∃ earlier : List Op, W.log.filter Op.isRegister = earlier ++
    [ Op.cudaGraphicsGLRegisterImage (W.impl_.cgr 0) (W.impl_.rb 0) GLenum.GL_RENDERBUFFER,
      Op.cudaGraphicsGLRegisterImage (W.impl_.cgr 1) (W.impl_.depth_rb 0)
        GLenum.GL_RENDERBUFFER,
      Op.cudaGraphicsGLRegisterImage (W.impl_.cgr 2) (W.impl_.rb 1) GLenum.GL_RENDERBUFFER,
      Op.cudaGraphicsGLRegisterImage (W.impl_.cgr 3) (W.impl_.depth_rb 1)
        GLenum.GL_RENDERBUFFER ]) ∧
  (∃ earlier : List Op, W.log.filter Op.isGetMappedArray = earlier ++
    [ Op.cudaGraphicsSubResourceGetMappedArray (W.impl_.ca 0) (W.impl_.cgr 0),
      Op.cudaGraphicsSubResourceGetMappedArray (W.impl_.ca 1) (W.impl_.cgr 1),
      Op.cudaGraphicsSubResourceGetMappedArray (W.impl_.ca 2) (W.impl_.cgr 2),
      Op.cudaGraphicsSubResourceGetMappedArray (W.impl_.ca 3) (W.impl_.cgr 3) ])

/-- What holds of a renderer, with the driver and the log, in every state
reached by calls after `start()`: it is started, `buf_index` is 0 or 1, the
object names are the consecutive ones `start()` received, the log holds the
attachment calls of both framebuffers, the live bindings are the non-null
entries of the binding table, and either no size-changing `resize` has run
yet (the binding table is all null) or the tables are as `Sized` says. -/
def Ready (W : World) : Prop :=
  W.impl_.started_ = true ∧
  W.impl_.buf_index < 2 ∧
  (∃ n : Nat,
    (∀ i : Fin 2, W.impl_.rb i = n + i.val) ∧
    (∀ i : Fin 2, W.impl_.depth_rb i = n + 2 + i.val) ∧
    (∀ i : Fin 2, W.impl_.depth_buf_rb i = n + 4 + i.val) ∧
    (∀ i : Fin 2, W.impl_.fb i = n + 6 + i.val)) ∧
  (∀ i : Fin 2, ∀ op ∈ attachOps W.impl_.fb W.impl_.rb W.impl_.depth_rb W.impl_.depth_buf_rb i,
    op ∈ W.log) ∧
  liveAfter W.log [] = bindings W.impl_.cgr ∧
  ((∀ j : Fin 4, W.impl_.cgr j = none) ∨ Sized W)

/-- The world of the freshly constructed example renderer after `start()`. -/
def exampleStartedWorld : World :=
  (VolumeRenderer.new { width := 256, height := 256 } { background_brightness := 1 / 2 } []
    exampleIndeterminate exampleGpu).start

/-! ## Failing device calls -/

/-- Modelled from the spec: the `cuda(...)` wrapper is declared in
`volrend/cuda/common.cuh`, outside the given sources; the spec describes it as
"macro-wrapped device-API error checking that aborts on first failure".  Which
calls are wrapped is read from the source: every CUDA runtime call of
`cuda_renderer.cpp` is written `cuda(Name(...))`; the OpenGL calls,
`camera._update()`, `mesh.draw(..)` and `launch_renderer(..)` are called bare. -/
def Op.isChecked : Op → Bool
  | Op.cudaGraphicsUnregisterResource _ => true
  | Op.cudaStreamDestroy _ => true
  | Op.cudaStreamCreateWithFlags _ => true
  | Op.cudaGraphicsMapResources _ _ _ => true
  | Op.cudaGraphicsUnmapResources _ _ _ => true
  | Op.cudaGraphicsGLRegisterImage _ _ _ => true
  | Op.cudaGraphicsSubResourceGetMappedArray _ _ => true
  | _ => false

/-- Modelled from the spec: `launch_renderer` is declared in
`volrend/cuda/renderer_kernel.hpp` and its body is outside the given sources.
The spec lists a failure "during registration, mapping, or kernel launch" as
"fatal, fail-fast, process aborts with diagnostic", so a launch that reports a
failure stops the process inside `launch_renderer`, like a failing call inside
the `cuda(...)` wrapper.  The calls that stop the process when they fail are
the wrapped calls and the kernel launch; the OpenGL calls, `camera._update()`
and `mesh.draw(..)` are not checked ("rasterization-layer errors are not
individually checked per call"). -/
def Op.failsFast (op : Op) : Bool := op.isChecked || op.isLaunch

/-- The calls really issued when the calls `ops` are attempted in order,
numbered from `k`, and `fails j` tells whether call number `j` reports a
failure.  A fail-fast call that fails is the last call issued: the process
stops there.  The flag tells whether the whole list was issued. -/
def issued (fails : Nat → Bool) : Nat → List Op → List Op × Bool
  | _, [] => ([], true)
  | k, op :: ops =>
    if op.failsFast && fails k then ([op], false)
    else (op :: (issued fails (k + 1) ops).1, (issued fails (k + 1) ops).2)

/-- Method `render()` with failing calls: the calls issued, and the state
after the call, absent when the process was stopped. -/
def Impl.renderChecked (s : Impl) (fails : Nat → Bool) : Option (List Op × Option Impl) :=
  s.render.map fun r =>
    ((issued fails 0 r.2).1, if (issued fails 0 r.2).2 then some r.1 else none)

/-- Method `resize(width, height)` with failing calls: the calls issued, and
the state after the call, absent when the process was stopped. -/
def Impl.resizeChecked (s : Impl) (g : Gpu) (width height : Int) (fails : Nat → Bool) :
    List Op × Option (Impl × Gpu) :=
  ((issued fails 0 (s.resize g width height).2.2).1,
   if (issued fails 0 (s.resize g width height).2.2).2 then
     some ((s.resize g width height).1, (s.resize g width height).2.1)
   else none)

/-! ## The headless driver's name helpers (src/main_headless.cpp) -/

/-- Operation `--i` on a `size_t`: decrement modulo 2^64. -/
def size_dec (i : Nat) : Nat := (i + 2 ^ 64 - 1) % 2 ^ 64

/-- Operation `~i` on a `size_t`: all 64 bits flipped. -/
def size_not (i : Nat) : Nat := 2 ^ 64 - 1 - i % 2 ^ 64

/-- Is the character a path separator, `'/'` or `'\\'`? -/
def isSeparator (c : Char) : Bool := c == '/' || c == '\\'

/-- The loop of `path_basename` from index `i` on:
`for (...; ~i; --i) { c = str[i]; if (c == '/' || c == '\\') return str.substr(i); } return str;`.
The result is `none` when `str[i]` is read at an index that is not below `str.size()`. -/
def path_basename_loop (str : List Char) (i : Nat) : Option (List Char) :=
  if _hexit : size_not i = 0 then some str
  else
    match str[i]? with
    | none => none
    | some c =>
      if isSeparator c then some (str.drop i)
      else path_basename_loop str (size_dec i)
termination_by (i % 2 ^ 64 + 1) % 2 ^ 64
decreasing_by
  simp only [size_not, size_dec] at *
  omega

/-- Function `path_basename(str)`: the loop starts at `str.size() - 1`. -/
def path_basename (str : List Char) : Option (List Char) :=
  path_basename_loop str (size_dec str.length)

/-- The loop of `remove_ext` from index `i` on:
`for (...; ~i; --i) { c = str[i]; if (c == '.') return str.substr(0, i); } return str;`. -/
def remove_ext_loop (str : List Char) (i : Nat) : Option (List Char) :=
  if _hexit : size_not i = 0 then some str
  else
    match str[i]? with
    | none => none
    | some c =>
      if c == '.' then some (str.take i)
      else remove_ext_loop str (size_dec i)
termination_by (i % 2 ^ 64 + 1) % 2 ^ 64
decreasing_by
  simp only [size_not, size_dec] at *
  omega

/-- Function `remove_ext(str)`. -/
def remove_ext (str : List Char) : Option (List Char) :=
  remove_ext_loop str (size_dec str.length)

end volrend

/-! ## Theorems -/

namespace volrend

theorem finRange_two : List.finRange 2 = [0, 1] := by decide

theorem finRange_four : List.finRange 4 = [0, 1, 2, 3] := by decide

/-- The reallocate-and-register loop of `resize`, unrolled. -/
theorem resize_loop_eq (width height : Int) (acc : Impl × Gpu × List Op) :
    (List.finRange 2).foldl (resizeBody width height) acc =
      resizeBody width height (resizeBody width height acc 0) 1 := by
  rw [finRange_two]; rfl

theorem resizeBody_camera (width height : Int) (acc : Impl × Gpu × List Op) (index : Fin 2) :
    (resizeBody width height acc index).1.camera = acc.1.camera := rfl

theorem resize_camera (s : Impl) (g : Gpu) (width height : Int) :
    (s.resize g width height).1.camera.width = width ∧
    (s.resize g width height).1.camera.height = height := by
  unfold Impl.resize
  split
  · assumption
  · simp [resize_loop_eq, getArrays, resizeBody_camera]

/-- C1: a second `resize(w, h)` directly after a `resize(w, h)` issues no call
at all and leaves the renderer state (and the driver) as the first call left
them. -/
theorem resize_twice_noop (s : Impl) (g : Gpu) (width height : Int) :
    Impl.resize (s.resize g width height).1 (s.resize g width height).2.1 width height =
      ((s.resize g width height).1, (s.resize g width height).2.1, []) := by
  have h := resize_camera s g width height
  generalize s.resize g width height = r at h
  unfold Impl.resize
  rw [if_pos h]

/-! ### `render()` -/

theorem at?_lt {n : Nat} {α : Type} (a : Fin n → α) (i : Nat) (h : i < n) :
    at? a i = some (a ⟨i, h⟩) := by
  simp [at?, h]

theorem render_unbound (s : Impl) (h : s.buf_index < 2) (ht : s.tree = none) :
    s.render = some (s, clearOps (s.fb ⟨s.buf_index, h⟩) s.options.background_brightness) := by
  simp [Impl.render, at?_lt s.fb s.buf_index h, ht]

theorem render_bound (s : Impl) (tree : N3Tree) (h : s.buf_index < 2)
    (ht : s.tree = some tree) (hs : s.started_ = true) :
    s.render = some
      ({ s with camera := s.camera._update, buf_index := s.buf_index ^^^ 1 },
       frameOps s tree ⟨s.buf_index, h⟩) := by
  have h0 : s.buf_index * 2 < 4 := by omega
  have h1 : s.buf_index * 2 + 1 < 4 := by omega
  simp [Impl.render, at?_lt s.fb s.buf_index h, ht, hs, at?_lt s.cgr _ h0, at?_lt s.cgr _ h1,
    at?_lt s.ca _ h0, at?_lt s.ca _ h1, frameOps, slot0, slot1]

theorem xor_one (i : Nat) (h : i < 2) : i ^^^ 1 = (i + 1) % 2 := by
  interval_cases i <;> decide

/-- C3 as stated fails: with no octree bound, `render()` on the fresh example
renderer issues four calls, the first being `glClearDepth(1.f)`, not only the
three clears. -/
theorem render_unbound_not_only_three_clears :
    exampleFresh.tree = none ∧
    exampleFresh.render.map (fun r => r.2) =
      some [ Op.glClearDepth 1,
             Op.glClearNamedFramebufferfv 0 GLenum.GL_COLOR 0 [1 / 2, 1 / 2, 1 / 2, 1],
             Op.glClearNamedFramebufferfv 0 GLenum.GL_COLOR 1 [1000000000],
             Op.glClearNamedFramebufferfv 0 GLenum.GL_DEPTH 0 [1000000000] ] ∧
    exampleFresh.render.map (fun r => r.2) ≠
      some [ Op.glClearNamedFramebufferfv 0 GLenum.GL_COLOR 0 [1 / 2, 1 / 2, 1 / 2, 1],
             Op.glClearNamedFramebufferfv 0 GLenum.GL_COLOR 1 [1000000000],
             Op.glClearNamedFramebufferfv 0 GLenum.GL_DEPTH 0 [1000000000] ] := by
  have h : exampleFresh.buf_index < 2 := by decide
  rw [render_unbound exampleFresh h rfl]
  refine ⟨rfl, rfl, ?_⟩
  simp [clearOps]

/-- C3, amended: with no octree bound, `render()` issues `glClearDepth(1.f)`
and then exactly the three clears on the active Surface Set, colour attachment
0 to (b, b, b, 1) with b the background brightness, the depth-surrogate
attachment and the true-depth buffer to 1e9, and nothing else (no camera
update, draw, map, launch, unmap or blit); the renderer state is unchanged. -/
theorem render_unbound_clears (s : Impl) (h : s.buf_index < 2) (ht : s.tree = none) :
    s.render = some (s,
      [ Op.glClearDepth 1,
        Op.glClearNamedFramebufferfv (s.fb ⟨s.buf_index, h⟩) GLenum.GL_COLOR 0
          [s.options.background_brightness, s.options.background_brightness,
           s.options.background_brightness, 1],
        Op.glClearNamedFramebufferfv (s.fb ⟨s.buf_index, h⟩) GLenum.GL_COLOR 1 [1000000000],
        Op.glClearNamedFramebufferfv (s.fb ⟨s.buf_index, h⟩) GLenum.GL_DEPTH 0
          [1000000000] ]) :=
  render_unbound s h ht

theorem render_unbound_clears_witness :
    exampleFresh.buf_index < 2 ∧ exampleFresh.tree = none ∧
    exampleFresh.render = some (exampleFresh,
      [ Op.glClearDepth 1,
        Op.glClearNamedFramebufferfv (exampleFresh.fb 0) GLenum.GL_COLOR 0
          [exampleFresh.options.background_brightness,
           exampleFresh.options.background_brightness,
           exampleFresh.options.background_brightness, 1],
        Op.glClearNamedFramebufferfv (exampleFresh.fb 0) GLenum.GL_COLOR 1 [1000000000],
        Op.glClearNamedFramebufferfv (exampleFresh.fb 0) GLenum.GL_DEPTH 0 [1000000000] ]) :=
  ⟨by decide, rfl, render_unbound_clears exampleFresh (by decide) rfl⟩

/-! ### Successive `render()` calls -/

theorem setOf_lt (i : Nat) (h : i < 2) : setOf i = ⟨i, h⟩ := by
  apply Fin.ext
  simp [setOf, Nat.mod_eq_of_lt h]

theorem setOf_succ (i k : Nat) (h : i < 2) :
    setOf ((i ^^^ 1) + k) = setOf (i + (k + 1)) := by
  apply Fin.ext
  show ((i ^^^ 1) + k) % 2 = (i + (k + 1)) % 2
  rw [xor_one i h]
  omega

/-- With an octree bound on a started renderer, `n` successive `render()`
calls all return; call `k` issues the full frame on Surface Set
`(buf_index + k) mod 2`, and only `buf_index` changes. -/
theorem renders_bound (n : Nat) : ∀ (s : Impl) (tree : N3Tree), s.buf_index < 2 →
    s.tree = some tree → s.started_ = true →
    renders n s = some
      ({ s with buf_index := (s.buf_index + n) % 2 },
       (List.range n).map fun k => frameOps s tree (setOf (s.buf_index + k))) := by
  induction n with
  | zero =>
    intro s tree h _ _
    simp [renders, Nat.mod_eq_of_lt h]
  | succ n ih =>
    intro s tree h ht hs
    have hx := xor_one s.buf_index h
    have hlt : s.buf_index ^^^ 1 < 2 := by rw [hx]; omega
    have ih1 := ih { s with camera := s.camera._update, buf_index := s.buf_index ^^^ 1 } tree
      hlt ht hs
    simp only [renders, render_bound s tree h ht hs, ih1]
    simp only [List.range_succ_eq_map, List.map_cons, List.map_map, Option.some.injEq,
      Prod.mk.injEq, List.cons.injEq]
    refine ⟨?_, ?_, ?_⟩
    · simp only [Camera._update, hx]
      congr 1
      omega
    · rw [Nat.add_zero, setOf_lt _ h]
    · apply List.map_congr_left
      intro k _
      simp only [Function.comp, setOf_succ s.buf_index k h]
      rfl

/-- With no octree bound, `n` successive `render()` calls all return, each
issues only the clears on the same Surface Set, and the state never changes. -/
theorem renders_unbound (n : Nat) (s : Impl) (h : s.buf_index < 2) (ht : s.tree = none) :
    renders n s = some (s, List.replicate n
      (clearOps (s.fb ⟨s.buf_index, h⟩) s.options.background_brightness)) := by
  induction n with
  | zero => rfl
  | succ n ih => simp [renders, render_unbound s h ht, ih, List.replicate_succ]

/-- C4 as stated fails: on the started example renderer with no octree bound,
one `render()` leaves the index at 0 (not 1), and the second of two calls
clears Surface Set 0 again (not Surface Set 1). -/
theorem render_unbound_no_toggle :
    exampleStarted.started_ = true ∧ exampleStarted.buf_index = 0 ∧
    exampleStarted.tree = none ∧
    (renders 1 exampleStarted).map (fun r => r.1.buf_index) = some 0 ∧
    (renders 2 exampleStarted).map (fun r => r.2) =
      some [clearOps (exampleStarted.fb 0) (1 / 2), clearOps (exampleStarted.fb 0) (1 / 2)] ∧
    exampleStarted.fb 0 ≠ exampleStarted.fb 1 := by
  have h : exampleStarted.buf_index < 2 := by decide
  rw [renders_unbound 1 exampleStarted h rfl, renders_unbound 2 exampleStarted h rfl]
  refine ⟨rfl, rfl, rfl, rfl, rfl, by decide⟩

/-- C4, amended: the Active Buffer Index is toggled exactly once per
`render()` call that runs with an octree bound.  From a started state with
index 0, `n` successive `render()` calls with an octree bound all return, call
`k` (from 0) issues its frame on Surface Set `k mod 2`, and the index afterwards
is `n mod 2`; with no octree bound the `n` calls all only clear Surface Set 0 and
leave the state, index included, unchanged. -/
theorem render_toggles_when_bound (s : Impl) (n : Nat) (h0 : s.buf_index = 0)
    (hs : s.started_ = true) :
    (∀ tree, s.tree = some tree →
      renders n s = some
        ({ s with buf_index := n % 2 },
         (List.range n).map fun k => frameOps s tree (setOf k))) ∧
    (s.tree = none →
      renders n s = some
        (s, List.replicate n (clearOps (s.fb 0) s.options.background_brightness))) := by
  have h : s.buf_index < 2 := by omega
  constructor
  · intro tree ht
    rw [renders_bound n s tree h ht hs]
    simp [h0]
  · intro ht
    rw [renders_unbound n s h ht]
    simp [h0]

theorem render_toggles_when_bound_witness :
    exampleBound.buf_index = 0 ∧ exampleBound.started_ = true ∧
    ((∀ tree, exampleBound.tree = some tree →
      renders 5 exampleBound = some
        ({ exampleBound with buf_index := 5 % 2 },
         (List.range 5).map fun k => frameOps exampleBound tree (setOf k))) ∧
    (exampleBound.tree = none →
      renders 5 exampleBound = some
        (exampleBound,
         List.replicate 5
           (clearOps (exampleBound.fb 0) exampleBound.options.background_brightness)))) :=
  ⟨rfl, rfl, render_toggles_when_bound exampleBound 5 rfl rfl⟩

/-! ### `start()` -/

theorem start_started (s : Impl) (g : Gpu) : (s.start g).1.started_ = true := by
  unfold Impl.start
  split
  · assumption
  · rfl

theorem start_of_started (s : Impl) (g : Gpu) (h : s.started_ = true) :
    s.start g = (s, g, []) := by
  simp [Impl.start, h]

theorem start_of_not_started (s : Impl) (g : Gpu) (h : s.started_ = false) :
    s.start g =
      ({ s with stream := g.nextHandle
                rb := fun i => g.nextName + i.val
                depth_rb := fun i => g.nextName + 2 + i.val
                depth_buf_rb := fun i => g.nextName + 2 + 2 + i.val
                fb := fun i => g.nextName + 2 + 2 + 2 + i.val
                started_ := true },
       { g with nextName := g.nextName + 2 + 2 + 2 + 2, nextHandle := g.nextHandle + 1 },
       [ Op.cudaStreamCreateWithFlags g.nextHandle,
         Op.glCreateRenderbuffers 2 [g.nextName + 0, g.nextName + 1],
         Op.glCreateRenderbuffers 2 [g.nextName + 2 + 0, g.nextName + 2 + 1],
         Op.glCreateRenderbuffers 2 [g.nextName + 2 + 2 + 0, g.nextName + 2 + 2 + 1],
         Op.glCreateFramebuffers 2 [g.nextName + 2 + 2 + 2 + 0, g.nextName + 2 + 2 + 2 + 1] ] ++
       attachOps (fun i => g.nextName + 2 + 2 + 2 + i.val) (fun i => g.nextName + i.val)
         (fun i => g.nextName + 2 + i.val) (fun i => g.nextName + 2 + 2 + i.val) 0 ++
       attachOps (fun i => g.nextName + 2 + 2 + 2 + i.val) (fun i => g.nextName + i.val)
         (fun i => g.nextName + 2 + i.val) (fun i => g.nextName + 2 + 2 + i.val) 1) := by
  simp [Impl.start, h, Gpu.streamCreate, Gpu.create2, List.ofFn_succ]

/-- C8: `start()` is idempotent.  A second `start()` issues no call and returns
the state (and driver) of the first unchanged; and `start()` never changes the
buffer index, the bound octree, the camera or the binding table. -/
theorem start_idempotent (s : Impl) (g : Gpu) :
    Impl.start (s.start g).1 (s.start g).2.1 = ((s.start g).1, (s.start g).2.1, []) ∧
    (s.start g).1.buf_index = s.buf_index ∧
    (s.start g).1.tree = s.tree ∧
    (s.start g).1.camera = s.camera ∧
    (s.start g).1.cgr = s.cgr := by
  refine ⟨start_of_started _ _ (start_started s g), ?_⟩
  unfold Impl.start
  split <;> simp

/-! ### One full frame -/

theorem mappedAfter_append (ops1 ops2 : List Op) :
    ∀ mapped, mappedAfter (ops1 ++ ops2) mapped = mappedAfter ops2 (mappedAfter ops1 mapped) := by
  induction ops1 with
  | nil => intro mapped; rfl
  | cons op ops1 ih =>
    intro mapped
    cases op <;> simp [mappedAfter, ih]

theorem mappedAfter_of_no_map (ops : List Op)
    (h : ∀ op ∈ ops, op.isMap = false ∧ op.isUnmap = false) :
    ∀ mapped, mappedAfter ops mapped = mapped := by
  induction ops with
  | nil => intro mapped; rfl
  | cons op ops ih =>
    intro mapped
    have h1 := h op (List.mem_cons_self _ _)
    have h2 := ih fun o ho => h o (List.mem_cons_of_mem _ ho)
    cases op <;> simp_all [mappedAfter, Op.isMap, Op.isUnmap]

theorem mappedAfter_frameOps (s : Impl) (tree : N3Tree) (i : Fin 2) :
    mappedAfter (frameOps s tree i) [] = [] := by
  have hd : mappedAfter (s.meshes.map Op.mesh_draw) [] = [] :=
    mappedAfter_of_no_map _ (by simp [Op.isMap, Op.isUnmap]) []
  simp [frameOps, clearOps, mappedAfter_append, mappedAfter, hd, List.diff]

/-- C9 as stated fails: one `render()` on the scenario renderer (started, sized
800 x 600, octree 7 bound, no mesh) issues thirteen calls: `glClearDepth`
comes before the three clears and `glNamedFramebufferReadBuffer` between the
unmap and the blit, so the calls are not exactly the listed eleven. -/
theorem render_frame_has_more_calls :
    exampleReady.render.map (fun r => r.2) =
      some [ Op.glClearDepth 1,
             Op.glClearNamedFramebufferfv 7 GLenum.GL_COLOR 0 [1 / 2, 1 / 2, 1 / 2, 1],
             Op.glClearNamedFramebufferfv 7 GLenum.GL_COLOR 1 [1000000000],
             Op.glClearNamedFramebufferfv 7 GLenum.GL_DEPTH 0 [1000000000],
             Op.camera_update,
             Op.glDepthMask true,
             Op.glBindFramebuffer GLenum.GL_FRAMEBUFFER 7,
             Op.glBindFramebuffer GLenum.GL_FRAMEBUFFER 0,
             Op.cudaGraphicsMapResources 2
               [some ⟨2, 1, some ⟨GLenum.GL_RGBA8, 800, 600⟩⟩,
                some ⟨3, 3, some ⟨GLenum.GL_R32F, 800, 600⟩⟩] 1,
             Op.launch_renderer 7 ⟨800, 600⟩ ⟨1 / 2⟩
               (some ⟨⟨2, 1, some ⟨GLenum.GL_RGBA8, 800, 600⟩⟩⟩)
               (some ⟨⟨3, 3, some ⟨GLenum.GL_R32F, 800, 600⟩⟩⟩) 1,
             Op.cudaGraphicsUnmapResources 2
               [some ⟨2, 1, some ⟨GLenum.GL_RGBA8, 800, 600⟩⟩,
                some ⟨3, 3, some ⟨GLenum.GL_R32F, 800, 600⟩⟩] 1,
             Op.glNamedFramebufferReadBuffer 7 GLenum.GL_COLOR_ATTACHMENT0,
             Op.glBlitNamedFramebuffer 7 0 0 0 800 600 0 600 800 0
               GLenum.GL_COLOR_BUFFER_BIT GLenum.GL_NEAREST ] ∧
    exampleReady.render.map (fun r => r.2) ≠
      some [ Op.glClearNamedFramebufferfv 7 GLenum.GL_COLOR 0 [1 / 2, 1 / 2, 1 / 2, 1],
             Op.glClearNamedFramebufferfv 7 GLenum.GL_COLOR 1 [1000000000],
             Op.glClearNamedFramebufferfv 7 GLenum.GL_DEPTH 0 [1000000000],
             Op.camera_update,
             Op.glDepthMask true,
             Op.glBindFramebuffer GLenum.GL_FRAMEBUFFER 7,
             Op.glBindFramebuffer GLenum.GL_FRAMEBUFFER 0,
             Op.cudaGraphicsMapResources 2
               [some ⟨2, 1, some ⟨GLenum.GL_RGBA8, 800, 600⟩⟩,
                some ⟨3, 3, some ⟨GLenum.GL_R32F, 800, 600⟩⟩] 1,
             Op.launch_renderer 7 ⟨800, 600⟩ ⟨1 / 2⟩
               (some ⟨⟨2, 1, some ⟨GLenum.GL_RGBA8, 800, 600⟩⟩⟩)
               (some ⟨⟨3, 3, some ⟨GLenum.GL_R32F, 800, 600⟩⟩⟩) 1,
             Op.cudaGraphicsUnmapResources 2
               [some ⟨2, 1, some ⟨GLenum.GL_RGBA8, 800, 600⟩⟩,
                some ⟨3, 3, some ⟨GLenum.GL_R32F, 800, 600⟩⟩] 1,
             Op.glBlitNamedFramebuffer 7 0 0 0 800 600 0 600 800 0
               GLenum.GL_COLOR_BUFFER_BIT GLenum.GL_NEAREST ] := by
  have h : exampleReady.render.map (fun r => r.2) = some (frameOps exampleReady 7 0) := by
    rw [render_bound exampleReady 7 (by decide) rfl rfl]
    rfl
  rw [h]
  constructor
  · rfl
  · simp [frameOps, clearOps]

/-- C9, amended: for every started renderer state with an octree bound (and
`buf_index` 0 or 1), one `render()` call returns and issues exactly, in this
order: `glClearDepth(1)`, the three clears, camera update, depth-write enable,
bind of the active framebuffer, one draw per mesh in list order, unbind, one
map call for the two bindings of the active set, one kernel launch, one unmap
call of the same two bindings, the read-buffer selection, the blit; then the
index is toggled.  The map is directly before the launch, the unmap directly
after it, and replaying the calls from nothing mapped leaves nothing mapped. -/
theorem render_frame_order (s : Impl) (tree : N3Tree) (h : s.buf_index < 2)
    (ht : s.tree = some tree) (hs : s.started_ = true) :
    ∃ ops : List Op,
      s.render = some
        ({ s with camera := s.camera._update, buf_index := s.buf_index ^^^ 1 }, ops) ∧
      ops =
        [ Op.glClearDepth 1,
          Op.glClearNamedFramebufferfv (s.fb ⟨s.buf_index, h⟩) GLenum.GL_COLOR 0
            [s.options.background_brightness, s.options.background_brightness,
             s.options.background_brightness, 1],
          Op.glClearNamedFramebufferfv (s.fb ⟨s.buf_index, h⟩) GLenum.GL_COLOR 1 [1000000000],
          Op.glClearNamedFramebufferfv (s.fb ⟨s.buf_index, h⟩) GLenum.GL_DEPTH 0 [1000000000],
          Op.camera_update,
          Op.glDepthMask true,
          Op.glBindFramebuffer GLenum.GL_FRAMEBUFFER (s.fb ⟨s.buf_index, h⟩) ] ++
        s.meshes.map Op.mesh_draw ++
        [ Op.glBindFramebuffer GLenum.GL_FRAMEBUFFER 0,
          Op.cudaGraphicsMapResources 2
            [s.cgr (slot0 ⟨s.buf_index, h⟩), s.cgr (slot1 ⟨s.buf_index, h⟩)] s.stream,
          Op.launch_renderer tree s.camera._update s.options
            (s.ca (slot0 ⟨s.buf_index, h⟩)) (s.ca (slot1 ⟨s.buf_index, h⟩)) s.stream,
          Op.cudaGraphicsUnmapResources 2
            [s.cgr (slot0 ⟨s.buf_index, h⟩), s.cgr (slot1 ⟨s.buf_index, h⟩)] s.stream,
          Op.glNamedFramebufferReadBuffer (s.fb ⟨s.buf_index, h⟩) GLenum.GL_COLOR_ATTACHMENT0,
          Op.glBlitNamedFramebuffer (s.fb ⟨s.buf_index, h⟩) 0 0 0
            s.camera._update.width s.camera._update.height
            0 s.camera._update.height s.camera._update.width 0
            GLenum.GL_COLOR_BUFFER_BIT GLenum.GL_NEAREST ] ∧
      mappedAfter ops [] = [] ∧
      s.buf_index ^^^ 1 = 1 - s.buf_index := by
  refine ⟨frameOps s tree ⟨s.buf_index, h⟩, render_bound s tree h ht hs, ?_,
    mappedAfter_frameOps s tree _, ?_⟩
  · simp [frameOps, clearOps]
  · rw [xor_one _ h]; omega

theorem render_frame_order_witness :
    exampleReady.buf_index < 2 ∧ exampleReady.tree = some 7 ∧ exampleReady.started_ = true ∧
    ∃ ops : List Op,
      exampleReady.render = some
        ({ exampleReady with camera := exampleReady.camera._update,
                             buf_index := exampleReady.buf_index ^^^ 1 }, ops) ∧
      ops =
        [ Op.glClearDepth 1,
          Op.glClearNamedFramebufferfv (exampleReady.fb 0) GLenum.GL_COLOR 0
            [exampleReady.options.background_brightness,
             exampleReady.options.background_brightness,
             exampleReady.options.background_brightness, 1],
          Op.glClearNamedFramebufferfv (exampleReady.fb 0) GLenum.GL_COLOR 1 [1000000000],
          Op.glClearNamedFramebufferfv (exampleReady.fb 0) GLenum.GL_DEPTH 0 [1000000000],
          Op.camera_update,
          Op.glDepthMask true,
          Op.glBindFramebuffer GLenum.GL_FRAMEBUFFER (exampleReady.fb 0) ] ++
        exampleReady.meshes.map Op.mesh_draw ++
        [ Op.glBindFramebuffer GLenum.GL_FRAMEBUFFER 0,
          Op.cudaGraphicsMapResources 2
            [exampleReady.cgr (slot0 0), exampleReady.cgr (slot1 0)] exampleReady.stream,
          Op.launch_renderer 7 exampleReady.camera._update exampleReady.options
            (exampleReady.ca (slot0 0)) (exampleReady.ca (slot1 0)) exampleReady.stream,
          Op.cudaGraphicsUnmapResources 2
            [exampleReady.cgr (slot0 0), exampleReady.cgr (slot1 0)] exampleReady.stream,
          Op.glNamedFramebufferReadBuffer (exampleReady.fb 0) GLenum.GL_COLOR_ATTACHMENT0,
          Op.glBlitNamedFramebuffer (exampleReady.fb 0) 0 0 0
            exampleReady.camera._update.width exampleReady.camera._update.height
            0 exampleReady.camera._update.height exampleReady.camera._update.width 0
            GLenum.GL_COLOR_BUFFER_BIT GLenum.GL_NEAREST ] ∧
      mappedAfter ops [] = [] ∧
      exampleReady.buf_index ^^^ 1 = 1 - exampleReady.buf_index :=
  ⟨by decide, rfl, rfl, render_frame_order exampleReady 7 (by decide) rfl rfl⟩

/-! ### The blit -/

theorem blitSourceCoord_same (w x : Int) (hw : 0 < w) : blitSourceCoord 0 w 0 w x = x := by
  have hw0 : (w : ℚ) ≠ 0 := by exact_mod_cast hw.ne'
  have e : ((0 : Int) : ℚ) + ((x : ℚ) + 1 / 2 - ((0 : Int) : ℚ)) *
      ((w : ℚ) - ((0 : Int) : ℚ)) / ((w : ℚ) - ((0 : Int) : ℚ)) = (x : ℚ) + 1 / 2 := by
    field_simp
    ring
  unfold blitSourceCoord
  rw [e, Int.floor_eq_iff]
  constructor <;> linarith

theorem blitSourceCoord_flip (h y : Int) (hh : 0 < h) :
    blitSourceCoord 0 h h 0 (h - 1 - y) = y := by
  have hh0 : (h : ℚ) ≠ 0 := by exact_mod_cast hh.ne'
  have e : ((0 : Int) : ℚ) + (((h - 1 - y : Int) : ℚ) + 1 / 2 - (h : ℚ)) *
      ((h : ℚ) - ((0 : Int) : ℚ)) / (((0 : Int) : ℚ) - (h : ℚ)) = (y : ℚ) + 1 / 2 := by
    push_cast
    field_simp
    ring
  unfold blitSourceCoord
  rw [e, Int.floor_eq_iff]
  constructor <;> linarith

/-- C10: the blit of `render()` is a vertical flip.  For a started renderer
with an octree bound and a camera of positive width and height, `render()`
ends with the selection of colour attachment 0 of the active framebuffer as
read buffer and one blit (the only one) from that framebuffer to framebuffer 0,
source rectangle (0,0)-(width,height), destination rectangle
(0,height)-(width,0); under the OpenGL rule for blits the source pixel (x, y),
for 0 <= x < width and 0 <= y < height, is the one copied to destination pixel
(x, height-1-y). -/
theorem render_blit_flips (s : Impl) (tree : N3Tree) (h : s.buf_index < 2)
    (ht : s.tree = some tree) (hs : s.started_ = true)
    (hw : 0 < s.camera.width) (hh : 0 < s.camera.height) :
    ∃ (s1 : Impl) (pre : List Op) (blit : Op),
      s.render = some (s1,
        pre ++ [Op.glNamedFramebufferReadBuffer (s.fb ⟨s.buf_index, h⟩)
                  GLenum.GL_COLOR_ATTACHMENT0, blit]) ∧
      (∀ op ∈ pre, op.isBlit = false) ∧
      blit = Op.glBlitNamedFramebuffer (s.fb ⟨s.buf_index, h⟩) 0
        0 0 s.camera.width s.camera.height
        0 s.camera.height s.camera.width 0
        GLenum.GL_COLOR_BUFFER_BIT GLenum.GL_NEAREST ∧
      ∀ x y : Int, 0 ≤ x → x < s.camera.width → 0 ≤ y → y < s.camera.height →
        blit.blitSource (x, s.camera.height - 1 - y) = some (x, y) := by
  refine ⟨{ s with camera := s.camera._update, buf_index := s.buf_index ^^^ 1 },
    clearOps (s.fb ⟨s.buf_index, h⟩) s.options.background_brightness ++
      [ Op.camera_update, Op.glDepthMask true,
        Op.glBindFramebuffer GLenum.GL_FRAMEBUFFER (s.fb ⟨s.buf_index, h⟩) ] ++
      s.meshes.map Op.mesh_draw ++
      [ Op.glBindFramebuffer GLenum.GL_FRAMEBUFFER 0,
        Op.cudaGraphicsMapResources 2
          [s.cgr (slot0 ⟨s.buf_index, h⟩), s.cgr (slot1 ⟨s.buf_index, h⟩)] s.stream,
        Op.launch_renderer tree s.camera._update s.options
          (s.ca (slot0 ⟨s.buf_index, h⟩)) (s.ca (slot1 ⟨s.buf_index, h⟩)) s.stream,
        Op.cudaGraphicsUnmapResources 2
          [s.cgr (slot0 ⟨s.buf_index, h⟩), s.cgr (slot1 ⟨s.buf_index, h⟩)] s.stream ],
    _, ?_, ?_, rfl, ?_⟩
  · rw [render_bound s tree h ht hs]
    simp [frameOps, Camera._update]
  · intro op hop
    simp only [clearOps, List.mem_append, List.mem_cons, List.mem_map, List.mem_singleton,
      List.not_mem_nil, or_false] at hop
    rcases hop with ((h1 | h1) | ⟨m, _, h1⟩) | h1
    · rcases h1 with h1 | h1 | h1 | h1 <;> subst h1 <;> rfl
    · rcases h1 with h1 | h1 | h1 <;> subst h1 <;> rfl
    · subst h1; rfl
    · rcases h1 with h1 | h1 | h1 | h1 <;> subst h1 <;> rfl
  · intro x y hx0 hx1 hy0 hy1
    have hX : inBlitRange 0 s.camera.width x = true := by
      simp only [inBlitRange, decide_eq_true_eq]
      omega
    have hY : inBlitRange s.camera.height 0 (s.camera.height - 1 - y) = true := by
      simp only [inBlitRange, decide_eq_true_eq]
      omega
    simp only [Op.blitSource, hX, hY, Bool.and_self, if_true]
    rw [blitSourceCoord_same _ _ hw, blitSourceCoord_flip _ _ hh]

theorem render_blit_flips_witness :
    exampleReady.buf_index < 2 ∧ exampleReady.tree = some 7 ∧ exampleReady.started_ = true ∧
    0 < exampleReady.camera.width ∧ 0 < exampleReady.camera.height ∧
    ∃ (s1 : Impl) (pre : List Op) (blit : Op),
      exampleReady.render = some (s1,
        pre ++ [Op.glNamedFramebufferReadBuffer (exampleReady.fb 0)
                  GLenum.GL_COLOR_ATTACHMENT0, blit]) ∧
      (∀ op ∈ pre, op.isBlit = false) ∧
      blit = Op.glBlitNamedFramebuffer (exampleReady.fb 0) 0
        0 0 exampleReady.camera.width exampleReady.camera.height
        0 exampleReady.camera.height exampleReady.camera.width 0
        GLenum.GL_COLOR_BUFFER_BIT GLenum.GL_NEAREST ∧
      ∀ x y : Int, 0 ≤ x → x < exampleReady.camera.width → 0 ≤ y →
        y < exampleReady.camera.height →
        blit.blitSource (x, exampleReady.camera.height - 1 - y) = some (x, y) :=
  ⟨by decide, rfl, rfl, by decide, by decide,
    render_blit_flips exampleReady 7 (by decide) rfl rfl (by decide) (by decide)⟩

/-! ### Teardown -/

theorem unregisterAll_eq (cgr : Fin 4 → cudaGraphicsResource_t) :
    unregisterAll cgr = (bindings cgr).map Op.cudaGraphicsUnregisterResource := by
  simp only [unregisterAll, bindings, finRange_four, List.ofFn_succ, List.ofFn_zero]
  cases h0 : cgr 0 <;> cases h1 : cgr 1 <;> cases h2 : cgr 2 <;> cases h3 : cgr 3 <;>
    simp [List.filterMap_cons, List.filter_cons, h0, h1, h2, h3, Fin.succ]

theorem mem_unregisterAll (cgr : Fin 4 → cudaGraphicsResource_t) (op : Op)
    (h : op ∈ unregisterAll cgr) : ∃ r, op = Op.cudaGraphicsUnregisterResource (some r) := by
  simp only [unregisterAll, List.mem_filterMap] at h
  obtain ⟨j, _, hj⟩ := h
  cases hc : cgr j with
  | none => simp [hc] at hj
  | some r => exact ⟨r, by simpa [hc] using hj.symm⟩

/-- If a rank on calls never decreases along a log, and every `p` call ranks
strictly below every `q` call, then every `p` call comes before every `q` call. -/
theorem before_of_rank (f : Op → Nat) (p q : Op → Bool) (ops : List Op)
    (hs : ops.Pairwise fun a b => f a ≤ f b)
    (hpq : ∀ a b, q a = true → p b = true → f b < f a) : before p q ops := by
  unfold before
  refine hs.imp ?_
  intro a b hab hqp
  have := hpq a b hqp.1 hqp.2
  omega

theorem liveAfter_append (ops1 ops2 : List Op) :
    ∀ live, liveAfter (ops1 ++ ops2) live = liveAfter ops2 (liveAfter ops1 live) := by
  induction ops1 with
  | nil => intro live; rfl
  | cons op ops1 ih =>
    intro live
    cases op <;> simp [liveAfter, ih]

theorem liveAfter_unregister_all (live : List cudaGraphicsResource_t) :
    liveAfter (live.map Op.cudaGraphicsUnregisterResource) live = [] := by
  induction live with
  | nil => rfl
  | cons r live ih => simpa [liveAfter] using ih

theorem dtorRank_unregister (a : Op) (h : a.isUnregister = true) : dtorRank a = 0 := by
  cases a <;> simp_all [Op.isUnregister, dtorRank]

theorem dtorRank_delete (a : Op) (h : a.isDelete = true) : dtorRank a = 1 := by
  cases a <;> simp_all [Op.isDelete, dtorRank]

theorem dtorRank_destroy (a : Op) (h : a.isStreamDestroy = true) : dtorRank a = 2 := by
  cases a <;> simp_all [Op.isStreamDestroy, dtorRank]

theorem dtor_ranked (s : Impl) : s.dtor.Pairwise fun a b => dtorRank a ≤ dtorRank b := by
  unfold Impl.dtor
  rw [List.pairwise_append]
  refine ⟨?_, by simp [dtorRank], ?_⟩
  · rw [List.pairwise_iff_forall_sublist]
    intro a b hab
    have ha := mem_unregisterAll _ a (hab.subset (List.mem_cons_self _ _))
    obtain ⟨r, rfl⟩ := ha
    simp [dtorRank]
  · intro a ha b _
    obtain ⟨r, rfl⟩ := mem_unregisterAll _ a ha
    simp [dtorRank]

/-- C6: teardown, from every renderer state.  The destructor issues one
unregister for each non-null entry of the binding table (none for a null
entry), then the four deletions of renderbuffers and framebuffers, then the
stream destruction: every unregister comes before every deletion, every
deletion before the stream destruction, which is the last call; and replaying
the calls on the bindings of the table leaves no binding live. -/
theorem dtor_order (s : Impl) :
    s.dtor =
      (bindings s.cgr).map Op.cudaGraphicsUnregisterResource ++
      [ Op.glDeleteRenderbuffers 2 [s.rb 0, s.rb 1],
        Op.glDeleteRenderbuffers 2 [s.depth_rb 0, s.depth_rb 1],
        Op.glDeleteRenderbuffers 2 [s.depth_buf_rb 0, s.depth_buf_rb 1],
        Op.glDeleteFramebuffers 2 [s.fb 0, s.fb 1],
        Op.cudaStreamDestroy s.stream ] ∧
    (∀ r ∈ bindings s.cgr, r ≠ none) ∧
    before Op.isUnregister Op.isDelete s.dtor ∧
    before Op.isUnregister Op.isStreamDestroy s.dtor ∧
    before Op.isDelete Op.isStreamDestroy s.dtor ∧
    s.dtor.getLast? = some (Op.cudaStreamDestroy s.stream) ∧
    liveAfter s.dtor (bindings s.cgr) = [] := by
  have hr := dtor_ranked s
  refine ⟨?_, ?_, ?_, ?_, ?_, ?_, ?_⟩
  · simp [Impl.dtor, unregisterAll_eq, List.ofFn_succ]
  · intro r hr
    simp only [bindings, List.mem_filter] at hr
    intro h0
    simp [h0] at hr
  · apply before_of_rank dtorRank _ _ _ hr
    intro a b ha hb
    rw [dtorRank_delete a ha, dtorRank_unregister b hb]
    decide
  · apply before_of_rank dtorRank _ _ _ hr
    intro a b ha hb
    rw [dtorRank_destroy a ha, dtorRank_unregister b hb]
    decide
  · apply before_of_rank dtorRank _ _ _ hr
    intro a b ha hb
    rw [dtorRank_destroy a ha, dtorRank_delete b hb]
    decide
  · simp [Impl.dtor]
  · simp [Impl.dtor, unregisterAll_eq, liveAfter_append, liveAfter_unregister_all, liveAfter]

/-! ### `resize`, when the size changes -/

theorem resize_cgr (s : Impl) (g : Gpu) (width height : Int)
    (hne : ¬ (s.camera.width = width ∧ s.camera.height = height)) (index : Fin 2) :
    ∃ r0 r1 : GraphicsResource,
      (s.resize g width height).1.cgr (slot0 index) = some r0 ∧
      (s.resize g width height).1.cgr (slot1 index) = some r1 ∧
      r0.image = s.rb index ∧ r1.image = s.depth_rb index ∧
      r0.id = g.nextHandle + 2 * index.val ∧ r1.id = g.nextHandle + 2 * index.val + 1 ∧
      (s.rb index ≠ s.depth_rb index → s.rb index ≠ s.depth_buf_rb index →
        r0.storage = some ⟨GLenum.GL_RGBA8, width, height⟩) ∧
      (s.depth_rb index ≠ s.depth_buf_rb index →
        r1.storage = some ⟨GLenum.GL_R32F, width, height⟩) := by
  unfold Impl.resize
  rw [if_neg hne]
  simp only [resize_loop_eq, getArrays, resizeBody, Gpu.registerImage, Gpu.renderbufferStorage]
  fin_cases index
  · simp only [slot0, slot1, Function.update]
    simp
    intro h1 h2
    rw [if_neg h2, if_neg h1]
  · simp only [slot0, slot1, Function.update]
    simp
    intro h1 h2
    rw [if_neg h2, if_neg h1]

theorem resize_rest (s : Impl) (g : Gpu) (width height : Int)
    (hne : ¬ (s.camera.width = width ∧ s.camera.height = height)) :
    (s.resize g width height).1 =
      { s with camera := { width := width, height := height }
               cgr := (s.resize g width height).1.cgr
               ca := fun j => getMappedArray ((s.resize g width height).1.cgr j) } := by
  unfold Impl.resize
  rw [if_neg hne]
  simp only [resize_loop_eq, getArrays, resizeBody, Gpu.registerImage, Gpu.renderbufferStorage]

theorem resize_cgr_isSome (s : Impl) (g : Gpu) (width height : Int)
    (hne : ¬ (s.camera.width = width ∧ s.camera.height = height)) (j : Fin 4) :
    ((s.resize g width height).1.cgr j).isSome = true := by
  obtain ⟨a0, a1, ha0, ha1, -⟩ := resize_cgr s g width height hne 0
  obtain ⟨b0, b1, hb0, hb1, -⟩ := resize_cgr s g width height hne 1
  fin_cases j
  · exact (congrArg Option.isSome ha0).trans rfl
  · exact (congrArg Option.isSome ha1).trans rfl
  · exact (congrArg Option.isSome hb0).trans rfl
  · exact (congrArg Option.isSome hb1).trans rfl

theorem resize_ops (s : Impl) (g : Gpu) (width height : Int)
    (hne : ¬ (s.camera.width = width ∧ s.camera.height = height)) :
    (s.resize g width height).2.2 =
      unregisterAll s.cgr ++
      setOps s (s.resize g width height).1.cgr width height 0 ++
      setOps s (s.resize g width height).1.cgr width height 1 ++
      [Op.cudaGraphicsMapResources 4 (List.ofFn (s.resize g width height).1.cgr) 0] ++
      (List.finRange 4).map (fun index =>
        Op.cudaGraphicsSubResourceGetMappedArray
          ((s.resize g width height).1.ca index) ((s.resize g width height).1.cgr index)) ++
      [Op.cudaGraphicsUnmapResources 4 (List.ofFn (s.resize g width height).1.cgr) 0] := by
  unfold Impl.resize
  rw [if_neg hne]
  simp only [resize_loop_eq, getArrays, resizeBody, setOps, Gpu.registerImage,
    Gpu.renderbufferStorage]
  simp [slot0, slot1, Function.update]

theorem diff_self_nil {α : Type} [DecidableEq α] (l : List α) : l.diff l = [] := by
  induction l with
  | nil => rfl
  | cons a l ih => simpa [List.diff_cons] using ih

theorem resize_ranked (s : Impl) (g : Gpu) (width height : Int)
    (hne : ¬ (s.camera.width = width ∧ s.camera.height = height)) :
    (s.resize g width height).2.2.Pairwise fun a b => resizeRank a ≤ resizeRank b := by
  rw [resize_ops s g width height hne, finRange_four]
  simp only [List.append_assoc]
  rw [List.pairwise_append]
  refine ⟨?_, by simp [setOps, resizeRank], ?_⟩
  · rw [List.pairwise_iff_forall_sublist]
    intro a b hab
    obtain ⟨r, rfl⟩ := mem_unregisterAll _ a (hab.subset (List.mem_cons_self _ _))
    simp [resizeRank]
  · intro a ha b _
    obtain ⟨r, rfl⟩ := mem_unregisterAll _ a ha
    simp [resizeRank]

theorem resize_mapped (s : Impl) (g : Gpu) (width height : Int)
    (hne : ¬ (s.camera.width = width ∧ s.camera.height = height)) :
    mappedAfter (s.resize g width height).2.2 [] = [] := by
  have hu : mappedAfter (unregisterAll s.cgr) [] = [] := by
    apply mappedAfter_of_no_map
    intro op hop
    obtain ⟨r, rfl⟩ := mem_unregisterAll _ op hop
    exact ⟨rfl, rfl⟩
  rw [resize_ops s g width height hne, finRange_four]
  simp [mappedAfter_append, hu, setOps, mappedAfter, diff_self_nil]

theorem resizeRank_unregister (a : Op) (h : a.isUnregister = true) : resizeRank a = 0 := by
  cases a <;> simp_all [Op.isUnregister, resizeRank]

theorem resizeRank_storage (a : Op) (h : a.isStorage = true) : resizeRank a = 1 := by
  cases a <;> simp_all [Op.isStorage, resizeRank]

theorem resizeRank_register (a : Op) (h : a.isRegister = true) : resizeRank a = 1 := by
  cases a <;> simp_all [Op.isRegister, resizeRank]

theorem resizeRank_map (a : Op) (h : a.isMap = true) : resizeRank a = 2 := by
  cases a <;> simp_all [Op.isMap, resizeRank]

theorem resizeRank_get (a : Op) (h : a.isGetMappedArray = true) : resizeRank a = 3 := by
  cases a <;> simp_all [Op.isGetMappedArray, resizeRank]

theorem resizeRank_unmap (a : Op) (h : a.isUnmap = true) : resizeRank a = 4 := by
  cases a <;> simp_all [Op.isUnmap, resizeRank]

/-- C7: in every `resize(w, h)` that changes the size, the calls are: the
unregistrations; then for Surface Set 0 and then for Surface Set 1 the three
storage reallocations at (w, h), the draw-buffer selection and the two
registrations of that set; then one map of all four bindings, the four
get-mapped-array calls and one unmap of all four.  So every unregister comes
before every reallocation, each set is reallocated before it is registered,
the map / get / unmap come after all reallocations and registrations, every
entry of the binding table is then non-null, and replaying the calls from
nothing mapped leaves nothing mapped. -/
theorem resize_order (s : Impl) (g : Gpu) (width height : Int)
    (hne : ¬ (s.camera.width = width ∧ s.camera.height = height)) :
    ∃ (s1 : Impl) (g1 : Gpu) (ops : List Op),
      Impl.resize s g width height = (s1, g1, ops) ∧
      ops =
        unregisterAll (Impl.cgr s) ++
        setOps s s1.cgr width height 0 ++
        setOps s s1.cgr width height 1 ++
        [Op.cudaGraphicsMapResources 4 [s1.cgr 0, s1.cgr 1, s1.cgr 2, s1.cgr 3] 0] ++
        [ Op.cudaGraphicsSubResourceGetMappedArray (s1.ca 0) (s1.cgr 0),
          Op.cudaGraphicsSubResourceGetMappedArray (s1.ca 1) (s1.cgr 1),
          Op.cudaGraphicsSubResourceGetMappedArray (s1.ca 2) (s1.cgr 2),
          Op.cudaGraphicsSubResourceGetMappedArray (s1.ca 3) (s1.cgr 3) ] ++
        [Op.cudaGraphicsUnmapResources 4 [s1.cgr 0, s1.cgr 1, s1.cgr 2, s1.cgr 3] 0] ∧
      (∀ j, (s1.cgr j).isSome = true) ∧
      before Op.isUnregister Op.isStorage ops ∧
      before Op.isStorage Op.isMap ops ∧
      before Op.isRegister Op.isMap ops ∧
      before Op.isMap Op.isGetMappedArray ops ∧
      before Op.isGetMappedArray Op.isUnmap ops ∧
      mappedAfter ops [] = [] := by
  have hr := resize_ranked s g width height hne
  refine ⟨(s.resize g width height).1, (s.resize g width height).2.1,
    (s.resize g width height).2.2, rfl, ?_, resize_cgr_isSome s g width height hne,
    ?_, ?_, ?_, ?_, ?_, resize_mapped s g width height hne⟩
  · rw [resize_ops s g width height hne, finRange_four]
    simp [List.ofFn_succ]
    rfl
  · apply before_of_rank resizeRank _ _ _ hr
    intro a b ha hb
    rw [resizeRank_storage a ha, resizeRank_unregister b hb]
    decide
  · apply before_of_rank resizeRank _ _ _ hr
    intro a b ha hb
    rw [resizeRank_map a ha, resizeRank_storage b hb]
    decide
  · apply before_of_rank resizeRank _ _ _ hr
    intro a b ha hb
    rw [resizeRank_map a ha, resizeRank_register b hb]
    decide
  · apply before_of_rank resizeRank _ _ _ hr
    intro a b ha hb
    rw [resizeRank_get a ha, resizeRank_map b hb]
    decide
  · apply before_of_rank resizeRank _ _ _ hr
    intro a b ha hb
    rw [resizeRank_unmap a ha, resizeRank_get b hb]
    decide

theorem resize_order_witness :
    ¬ (exampleStarted.camera.width = 800 ∧ exampleStarted.camera.height = 600) ∧
    ∃ (s1 : Impl) (g1 : Gpu) (ops : List Op),
      Impl.resize exampleStarted exampleStartedGpu 800 600 = (s1, g1, ops) ∧
      ops =
        unregisterAll (Impl.cgr exampleStarted) ++
        setOps exampleStarted s1.cgr 800 600 0 ++
        setOps exampleStarted s1.cgr 800 600 1 ++
        [Op.cudaGraphicsMapResources 4 [s1.cgr 0, s1.cgr 1, s1.cgr 2, s1.cgr 3] 0] ++
        [ Op.cudaGraphicsSubResourceGetMappedArray (s1.ca 0) (s1.cgr 0),
          Op.cudaGraphicsSubResourceGetMappedArray (s1.ca 1) (s1.cgr 1),
          Op.cudaGraphicsSubResourceGetMappedArray (s1.ca 2) (s1.cgr 2),
          Op.cudaGraphicsSubResourceGetMappedArray (s1.ca 3) (s1.cgr 3) ] ++
        [Op.cudaGraphicsUnmapResources 4 [s1.cgr 0, s1.cgr 1, s1.cgr 2, s1.cgr 3] 0] ∧
      (∀ j, (s1.cgr j).isSome = true) ∧
      before Op.isUnregister Op.isStorage ops ∧
      before Op.isStorage Op.isMap ops ∧
      before Op.isRegister Op.isMap ops ∧
      before Op.isMap Op.isGetMappedArray ops ∧
      before Op.isGetMappedArray Op.isUnmap ops ∧
      mappedAfter ops [] = [] :=
  ⟨by decide, resize_order exampleStarted exampleStartedGpu 800 600 (by decide)⟩

/-! ### The scenario: start, resize, bind, render n times -/

theorem scenario_impl (camera : Camera) (options : RenderOptions) (u : Indeterminate)
    (g : Gpu) (width height : Int) (tree : N3Tree) :
    (scenario camera options u g width height tree).impl_ =
      { (Impl.resize ((Impl.new camera options [] u).start g).1
          ((Impl.new camera options [] u).start g).2.1 width height).1 with
        tree := some tree } := by
  have hs : (Impl.resize ((Impl.new camera options [] u).start g).1
      ((Impl.new camera options [] u).start g).2.1 width height).1.started_ = true := by
    unfold Impl.resize
    split
    · exact start_started _ _
    · simp only [resize_loop_eq, getArrays, resizeBody]
      exact start_started _ _
  simp only [scenario, VolumeRenderer.set, VolumeRenderer.resize, VolumeRenderer.new,
    World.start]
  rw [start_of_started _ _ hs]

/-- What the scenario leaves in the renderer when the size changes. -/
theorem scenario_facts (camera : Camera) (options : RenderOptions) (u : Indeterminate)
    (g : Gpu) (width height : Int) (tree : N3Tree)
    (hne : ¬ (camera.width = width ∧ camera.height = height)) :
    (scenario camera options u g width height tree).impl_.buf_index = 0 ∧
    (scenario camera options u g width height tree).impl_.tree = some tree ∧
    (scenario camera options u g width height tree).impl_.started_ = true ∧
    (scenario camera options u g width height tree).impl_.meshes = [] ∧
    (scenario camera options u g width height tree).impl_.camera =
      { width := width, height := height } ∧
    (scenario camera options u g width height tree).impl_.options = options ∧
    ∀ i : Fin 2, ∃ r0 r1 : GraphicsResource,
      (scenario camera options u g width height tree).impl_.cgr (slot0 i) = some r0 ∧
      (scenario camera options u g width height tree).impl_.cgr (slot1 i) = some r1 ∧
      (scenario camera options u g width height tree).impl_.ca (slot0 i) = some ⟨r0⟩ ∧
      (scenario camera options u g width height tree).impl_.ca (slot1 i) = some ⟨r1⟩ ∧
      r0.image = (scenario camera options u g width height tree).impl_.rb i ∧
      r1.image = (scenario camera options u g width height tree).impl_.depth_rb i ∧
      r0.storage = some ⟨GLenum.GL_RGBA8, width, height⟩ ∧
      r1.storage = some ⟨GLenum.GL_R32F, width, height⟩ := by
  have hst := start_of_not_started (Impl.new camera options [] u) g rfl
  have hne1 : ¬ (((Impl.new camera options [] u).start g).1.camera.width = width ∧
      ((Impl.new camera options [] u).start g).1.camera.height = height) := by
    rw [hst]; exact hne
  have hrest := resize_rest _ ((Impl.new camera options [] u).start g).2.1 width height hne1
  have hS := scenario_impl camera options u g width height tree
  rw [hrest] at hS
  refine ⟨?_, ?_, ?_, ?_, ?_, ?_, ?_⟩
  · rw [hS, hst]; rfl
  · rw [hS]
  · rw [hS, hst]
  · rw [hS, hst]; rfl
  · rw [hS]
  · rw [hS, hst]; rfl
  · intro i
    obtain ⟨r0, r1, h0, h1, hi0, hi1, -, -, hs0, hs1⟩ :=
      resize_cgr _ ((Impl.new camera options [] u).start g).2.1 width height hne1 i
    refine ⟨r0, r1, ?_, ?_, ?_, ?_, ?_, ?_, ?_, ?_⟩
    · rw [hS]; exact h0
    · rw [hS]; exact h1
    · rw [hS]; simp only [h0, getMappedArray, Option.map_some']
    · rw [hS]; simp only [h1, getMappedArray, Option.map_some']
    · rw [hS]; exact hi0
    · rw [hS]; exact hi1
    · apply hs0 <;> rw [hst] <;> simp
      unfold GLuint
      omega
    · apply hs1; rw [hst]; simp

theorem countP_flatten_map_one (p : Op → Bool) (f : Nat → List Op)
    (h : ∀ k, (f k).countP p = 1) (l : List Nat) :
    ((l.map f).flatten).countP p = l.length := by
  induction l with
  | nil => rfl
  | cons k l ih => simp [List.countP_append, h, ih, Nat.add_comm]

/-- C5: the scenario, for every size (w, h) other than the camera size at the
call, every octree and every n: after construct (no mesh), `start()`,
`resize(w, h)`, bind octree, `n` calls of `render()` all return; call `k`
(from 0) issues the frame on Surface Set `k mod 2`, with exactly one kernel
launch, whose colour and depth targets are the arrays of the bindings of that
set's colour and depth-surrogate renderbuffers, registered with storage
(w, h), and no mesh draw; there are `n` launches in all and the index ends at
`n mod 2`. -/
theorem scenario_renders (camera : Camera) (options : RenderOptions) (u : Indeterminate)
    (g : Gpu) (width height : Int) (tree : N3Tree) (n : Nat)
    (hne : ¬ (camera.width = width ∧ camera.height = height)) :
    ∃ (sN : Impl) (frames : List (List Op)),
      renders n (scenario camera options u g width height tree).impl_ = some (sN, frames) ∧
      frames.length = n ∧
      sN.buf_index = n % 2 ∧
      frames.flatten.countP Op.isLaunch = n ∧
      ∀ k, k < n → ∃ r0 r1 : GraphicsResource,
        frames[k]? =
          some (frameOps (scenario camera options u g width height tree).impl_ tree (setOf k)) ∧
        (frameOps (scenario camera options u g width height tree).impl_ tree
            (setOf k)).filter Op.isLaunch =
          [Op.launch_renderer tree { width := width, height := height } options
            (some ⟨r0⟩) (some ⟨r1⟩)
            (scenario camera options u g width height tree).impl_.stream] ∧
        (frameOps (scenario camera options u g width height tree).impl_ tree
            (setOf k)).countP Op.isMeshDraw = 0 ∧
        (scenario camera options u g width height tree).impl_.cgr (slot0 (setOf k)) = some r0 ∧
        (scenario camera options u g width height tree).impl_.cgr (slot1 (setOf k)) = some r1 ∧
        r0.image = (scenario camera options u g width height tree).impl_.rb (setOf k) ∧
        r1.image = (scenario camera options u g width height tree).impl_.depth_rb (setOf k) ∧
        r0.storage = some ⟨GLenum.GL_RGBA8, width, height⟩ ∧
        r1.storage = some ⟨GLenum.GL_R32F, width, height⟩ := by
  obtain ⟨h0, ht, hs, hm, hc, ho, hres⟩ :=
    scenario_facts camera options u g width height tree hne
  have hlt : (scenario camera options u g width height tree).impl_.buf_index < 2 := by
    rw [h0]; decide
  have hl : ∀ i : Fin 2,
      (frameOps (scenario camera options u g width height tree).impl_ tree i).countP
        Op.isLaunch = 1 := by
    intro i
    simp [frameOps, clearOps, hm, List.countP_cons, Op.isLaunch]
  refine ⟨_, _, renders_bound n _ tree hlt ht hs, by simp, ?_, ?_, ?_⟩
  · show (_ + n) % 2 = n % 2
    rw [h0, Nat.zero_add]
  · simp only [h0, Nat.zero_add]
    rw [countP_flatten_map_one Op.isLaunch _ (fun k => hl (setOf k)), List.length_range]
  · intro k hk
    obtain ⟨r0, r1, hc0, hc1, ha0, ha1, hi0, hi1, hs0, hs1⟩ := hres (setOf k)
    refine ⟨r0, r1, ?_, ?_, ?_, hc0, hc1, hi0, hi1, hs0, hs1⟩
    · simp [h0, hk]
    · simp [frameOps, clearOps, hm, hc, ho, ha0, ha1, List.filter_cons, Op.isLaunch,
        Camera._update]
    · simp [frameOps, clearOps, hm, List.countP_cons, Op.isMeshDraw]

theorem scenario_renders_witness :
    ¬ ((256 : Int) = 800 ∧ (256 : Int) = 600) ∧
    ∃ (sN : Impl) (frames : List (List Op)),
      renders 5 exampleWorld.impl_ = some (sN, frames) ∧
      frames.length = 5 ∧
      sN.buf_index = 5 % 2 ∧
      frames.flatten.countP Op.isLaunch = 5 ∧
      ∀ k, k < 5 → ∃ r0 r1 : GraphicsResource,
        frames[k]? = some (frameOps exampleWorld.impl_ 7 (setOf k)) ∧
        (frameOps exampleWorld.impl_ 7 (setOf k)).filter Op.isLaunch =
          [Op.launch_renderer 7 { width := 800, height := 600 } { background_brightness := 1 / 2 }
            (some ⟨r0⟩) (some ⟨r1⟩) exampleWorld.impl_.stream] ∧
        (frameOps exampleWorld.impl_ 7 (setOf k)).countP Op.isMeshDraw = 0 ∧
        exampleWorld.impl_.cgr (slot0 (setOf k)) = some r0 ∧
        exampleWorld.impl_.cgr (slot1 (setOf k)) = some r1 ∧
        r0.image = exampleWorld.impl_.rb (setOf k) ∧
        r1.image = exampleWorld.impl_.depth_rb (setOf k) ∧
        r0.storage = some ⟨GLenum.GL_RGBA8, 800, 600⟩ ∧
        r1.storage = some ⟨GLenum.GL_R32F, 800, 600⟩ :=
  ⟨by decide,
   scenario_renders { width := 256, height := 256 } { background_brightness := 1 / 2 }
     exampleIndeterminate exampleGpu 800 600 7 5 (by decide)⟩

/-! ### Reading logs: bindings and objects -/

theorem liveBindings_append (l1 l2 : List Op) (x : GLuint) :
    liveBindings (l1 ++ l2) x = liveBindings l1 x + liveBindings l2 x := by
  simp only [liveBindings, List.countP_append, Nat.cast_add]
  ring

theorem liveBindings_of_no_binding (ops : List Op) (x : GLuint)
    (h : ∀ op ∈ ops, op.isRegister = false ∧ op.isUnregister = false) :
    liveBindings ops x = 0 := by
  have h1 : ops.countP (Op.registers x) = 0 := by
    rw [List.countP_eq_zero]
    intro op hop
    have := (h op hop).1
    cases op <;> simp_all [Op.registers, Op.isRegister]
  have h2 : ops.countP (Op.unregisters x) = 0 := by
    rw [List.countP_eq_zero]
    intro op hop
    have := (h op hop).2
    cases op <;> simp_all [Op.unregisters, Op.isUnregister]
  simp [liveBindings, h1, h2]

theorem objectsAfter_append (l1 l2 : List Op) :
    ∀ acc, framebuffersAfter (l1 ++ l2) acc = framebuffersAfter l2 (framebuffersAfter l1 acc) ∧
      renderbuffersAfter (l1 ++ l2) acc =
        renderbuffersAfter l2 (renderbuffersAfter l1 acc) := by
  induction l1 with
  | nil => intro acc; exact ⟨rfl, rfl⟩
  | cons op l1 ih =>
    intro acc
    cases op <;> simp [framebuffersAfter, renderbuffersAfter, ih]

theorem objectsAfter_of_no_lifecycle (ops : List Op)
    (h : ∀ op ∈ ops, op.isObjectLifecycle = false) :
    ∀ acc, framebuffersAfter ops acc = acc ∧ renderbuffersAfter ops acc = acc := by
  induction ops with
  | nil => intro acc; exact ⟨rfl, rfl⟩
  | cons op ops ih =>
    intro acc
    have h1 := h op (List.mem_cons_self _ _)
    have h2 := ih fun o ho => h o (List.mem_cons_of_mem _ ho)
    cases op <;> simp_all [framebuffersAfter, renderbuffersAfter, Op.isObjectLifecycle]

/-- A log extension that registers, unregisters, creates and deletes nothing
changes neither the live bindings nor the existing objects. -/
theorem quiet_extension (log ops : List Op)
    (h : ∀ op ∈ ops, op.isRegister = false ∧ op.isUnregister = false ∧
      op.isObjectLifecycle = false) :
    (∀ x, liveBindings (log ++ ops) x = liveBindings log x) ∧
    framebuffersAfter (log ++ ops) [] = framebuffersAfter log [] ∧
    renderbuffersAfter (log ++ ops) [] = renderbuffersAfter log [] := by
  refine ⟨?_, ?_, ?_⟩
  · intro x
    rw [liveBindings_append, liveBindings_of_no_binding ops x fun op hop =>
      ⟨(h op hop).1, (h op hop).2.1⟩, add_zero]
  · rw [(objectsAfter_append log ops []).1,
      (objectsAfter_of_no_lifecycle ops (fun op hop => (h op hop).2.2) _).1]
  · rw [(objectsAfter_append log ops []).2,
      (objectsAfter_of_no_lifecycle ops (fun op hop => (h op hop).2.2) _).2]

theorem clearOps_quiet (fbi : GLuint) (b : GLfloat) :
    ∀ op ∈ clearOps fbi b, op.isRegister = false ∧ op.isUnregister = false ∧
      op.isObjectLifecycle = false := by
  intro op hop
  simp only [clearOps, List.mem_cons, List.mem_singleton, List.not_mem_nil, or_false] at hop
  rcases hop with h | h | h | h <;> subst h <;> exact ⟨rfl, rfl, rfl⟩

theorem frameOps_quiet (s : Impl) (tree : N3Tree) (i : Fin 2) :
    ∀ op ∈ frameOps s tree i, op.isRegister = false ∧ op.isUnregister = false ∧
      op.isObjectLifecycle = false := by
  intro op hop
  simp only [frameOps, List.mem_append, List.mem_cons, List.mem_map, List.mem_singleton,
    List.not_mem_nil, or_false] at hop
  rcases hop with ((h1 | h1) | ⟨m, _, h1⟩) | h1
  · exact clearOps_quiet _ _ op h1
  · rcases h1 with h1 | h1 | h1 <;> subst h1 <;> exact ⟨rfl, rfl, rfl⟩
  · subst h1; exact ⟨rfl, rfl, rfl⟩
  · rcases h1 with h1 | h1 | h1 | h1 | h1 | h1 <;> subst h1 <;> exact ⟨rfl, rfl, rfl⟩

/-- The two ways `render()` returns. -/
theorem render_cases (s : Impl) (r : Impl × List Op) (h : s.render = some r) :
    ∃ hlt : s.buf_index < 2,
      r = (s, clearOps (s.fb ⟨s.buf_index, hlt⟩) s.options.background_brightness) ∨
      ∃ tree, s.tree = some tree ∧ s.started_ = true ∧
        r = ({ s with camera := s.camera._update, buf_index := s.buf_index ^^^ 1 },
             frameOps s tree ⟨s.buf_index, hlt⟩) := by
  have hlt : s.buf_index < 2 := by
    by_contra hge
    simp [Impl.render, at?, hge] at h
  refine ⟨hlt, ?_⟩
  obtain ht | ⟨tree, ht⟩ : s.tree = none ∨ ∃ tree, s.tree = some tree := by
    cases s.tree <;> simp
  · left
    rw [render_unbound s hlt ht] at h
    exact (Option.some.inj h).symm
  · obtain hs | hs : s.started_ = false ∨ s.started_ = true := by
      cases s.started_ <;> simp
    · left
      simp [Impl.render, at?_lt s.fb s.buf_index hlt, ht, hs] at h
      exact h.symm
    · right
      rw [render_bound s tree hlt ht hs] at h
      exact ⟨tree, ht, hs, (Option.some.inj h).symm⟩

theorem unregisterAll_counts (cgr : Fin 4 → cudaGraphicsResource_t) (x : GLuint) :
    (unregisterAll cgr).countP (Op.registers x) = 0 ∧
    (unregisterAll cgr).countP (Op.unregisters x) = tableCount cgr x := by
  constructor
  · rw [List.countP_eq_zero]
    intro op hop
    obtain ⟨r, rfl⟩ := mem_unregisterAll cgr op hop
    simp [Op.registers]
  · simp only [unregisterAll, tableCount, finRange_four]
    cases h0 : cgr 0 <;> cases h1 : cgr 1 <;> cases h2 : cgr 2 <;> cases h3 : cgr 3 <;>
      simp [List.filterMap_cons, List.countP_cons, h0, h1, h2, h3, Op.unregisters]

theorem resize_counts (s : Impl) (g : Gpu) (width height : Int)
    (hne : ¬ (s.camera.width = width ∧ s.camera.height = height)) (x : GLuint) :
    (s.resize g width height).2.2.countP (Op.registers x) =
      tableCount (s.resize g width height).1.cgr x ∧
    (s.resize g width height).2.2.countP (Op.unregisters x) = tableCount s.cgr x := by
  obtain ⟨a0, a1, ha0, ha1, hia0, hia1, -⟩ := resize_cgr s g width height hne 0
  obtain ⟨b0, b1, hb0, hb1, hib0, hib1, -⟩ := resize_cgr s g width height hne 1
  have e0 : (slot0 0 : Fin 4) = 0 := rfl
  have e1 : (slot1 0 : Fin 4) = 1 := rfl
  have e2 : (slot0 1 : Fin 4) = 2 := rfl
  have e3 : (slot1 1 : Fin 4) = 3 := rfl
  rw [e0] at ha0
  rw [e1] at ha1
  rw [e2] at hb0
  rw [e3] at hb1
  have hu := unregisterAll_counts s.cgr x
  rw [resize_ops s g width height hne, finRange_four]
  constructor
  · simp only [List.countP_append, hu.1]
    simp [tableCount, finRange_four, setOps, List.countP_cons, Op.registers, ha0, ha1, hb0, hb1,
      hia0, hia1, hib0, hib1]
    omega
  · simp only [List.countP_append, hu.2]
    simp [setOps, List.countP_cons, Op.unregisters]

/-! ### The invariant of reachable states -/

theorem inv_new (camera : Camera) (options : RenderOptions) (meshes : List Mesh)
    (u : Indeterminate) (g : Gpu) : Inv (VolumeRenderer.new camera options meshes u g) := by
  refine ⟨?_, ?_, ?_, ?_⟩
  · intro x
    simp [VolumeRenderer.new, Impl.new, liveBindings, tableCount, finRange_four]
  · intro _
    exact ⟨rfl, rfl⟩
  · intro h
    simp [VolumeRenderer.new, Impl.new] at h
  · show 0 < 2
    decide

theorem inv_start (W : World) (hI : Inv W) : Inv W.start := by
  obtain ⟨hJ, hN, hS, hB⟩ := hI
  obtain hs | hs : W.impl_.started_ = true ∨ W.impl_.started_ = false := by
    cases W.impl_.started_ <;> simp
  · have e : W.start = W := by
      simp [World.start, start_of_started _ _ hs]
    rw [e]
    exact ⟨hJ, hN, hS, hB⟩
  · have hst := start_of_not_started W.impl_ W.gpu hs
    obtain ⟨hf, hr⟩ := hN hs
    refine ⟨?_, ?_, ?_, ?_⟩
    · intro x
      simp only [World.start, hst]
      rw [liveBindings_append, hJ x]
      simp [liveBindings, attachOps, List.countP_cons, Op.registers, Op.unregisters]
    · intro h
      simp [World.start, hst] at h
    · intro _
      refine ⟨W.gpu.nextName, ?_, ?_, ?_, ?_, ?_, ?_⟩
      · intro i; simp [World.start, hst]
      · intro i; simp [World.start, hst]
      · intro i; simp [World.start, hst]
      · intro i; simp [World.start, hst]
      · simp only [World.start, hst]
        rw [(objectsAfter_append _ _ _).1, hf]
        simp [framebuffersAfter, attachOps]
      · simp only [World.start, hst]
        rw [(objectsAfter_append _ _ _).2, hr]
        simp [renderbuffersAfter, attachOps]
    · simpa [World.start, hst] using hB

theorem inv_set (W : World) (tree : N3Tree) (hI : Inv W) : Inv (VolumeRenderer.set W tree) :=
  inv_start W hI

theorem inv_clear (W : World) (hI : Inv W) : Inv (VolumeRenderer.clear W) := hI

theorem resize_quiet (s : Impl) (g : Gpu) (width height : Int) :
    ∀ op ∈ (s.resize g width height).2.2, op.isObjectLifecycle = false := by
  by_cases hne : s.camera.width = width ∧ s.camera.height = height
  · simp [Impl.resize, hne]
  · rw [resize_ops s g width height hne, finRange_four]
    intro op hop
    simp only [setOps, List.mem_append, List.mem_cons, List.mem_map, List.mem_singleton,
      List.not_mem_nil, or_false] at hop
    rcases hop with ((((h1 | h1) | h1) | h1) | h1) | h1
    · obtain ⟨r, rfl⟩ := mem_unregisterAll _ op h1
      rfl
    · rcases h1 with h1 | h1 | h1 | h1 | h1 | h1 <;> subst h1 <;> rfl
    · rcases h1 with h1 | h1 | h1 | h1 | h1 | h1 <;> subst h1 <;> rfl
    · subst h1; rfl
    · obtain ⟨j, _, rfl⟩ := h1
      rfl
    · subst h1; rfl

theorem inv_resize (W : World) (width height : Int) (hI : Inv W) :
    Inv (VolumeRenderer.resize W width height) := by
  obtain ⟨hJ, hN, hS, hB⟩ := hI
  have hq := objectsAfter_of_no_lifecycle _ (resize_quiet W.impl_ W.gpu width height)
  have hf : framebuffersAfter (VolumeRenderer.resize W width height).log [] =
      framebuffersAfter W.log [] := by
    simp only [VolumeRenderer.resize]
    rw [(objectsAfter_append _ _ _).1, (hq _).1]
  have hr : renderbuffersAfter (VolumeRenderer.resize W width height).log [] =
      renderbuffersAfter W.log [] := by
    simp only [VolumeRenderer.resize]
    rw [(objectsAfter_append _ _ _).2, (hq _).2]
  by_cases hne : W.impl_.camera.width = width ∧ W.impl_.camera.height = height
  · have e : W.impl_.resize W.gpu width height = (W.impl_, W.gpu, []) := by
      simp [Impl.resize, hne]
    have e1 : VolumeRenderer.resize W width height = W := by
      simp [VolumeRenderer.resize, e]
    rw [e1]
    exact ⟨hJ, hN, hS, hB⟩
  · have hrest := resize_rest W.impl_ W.gpu width height hne
    have hi : (VolumeRenderer.resize W width height).impl_ =
        (W.impl_.resize W.gpu width height).1 := rfl
    refine ⟨?_, ?_, ?_, ?_⟩
    · intro x
      obtain ⟨c1, c2⟩ := resize_counts W.impl_ W.gpu width height hne x
      have hJx := hJ x
      simp only [VolumeRenderer.resize, liveBindings, List.countP_append, c1, c2,
        Nat.cast_add] at hJx ⊢
      omega
    · intro h
      rw [hf, hr]
      apply hN
      rw [hi, hrest] at h
      exact h
    · intro h
      rw [hi, hrest] at h
      obtain ⟨n, h1, h2, h3, h4, h5, h6⟩ := hS h
      refine ⟨n, ?_, ?_, ?_, ?_, ?_, ?_⟩
      · intro i; rw [hi, hrest]; exact h1 i
      · intro i; rw [hi, hrest]; exact h2 i
      · intro i; rw [hi, hrest]; exact h3 i
      · intro i; rw [hi, hrest]; exact h4 i
      · rw [hf, h5, hi, hrest]
      · rw [hr, h6, hi, hrest]
    · rw [hi, hrest]
      exact hB

theorem inv_render (W W1 : World) (hI : Inv W) (h : VolumeRenderer.render W = some W1) :
    Inv W1 := by
  obtain ⟨hJ, hN, hS, hB⟩ := hI
  simp only [VolumeRenderer.render, Option.map_eq_some'] at h
  obtain ⟨r, hr, rfl⟩ := h
  obtain ⟨hlt, hc | ⟨tree, ht, hs, hc⟩⟩ := render_cases W.impl_ r hr
  · subst hc
    obtain ⟨q1, q2, q3⟩ := quiet_extension W.log _
      (clearOps_quiet (W.impl_.fb ⟨W.impl_.buf_index, hlt⟩)
        W.impl_.options.background_brightness)
    refine ⟨fun x => (q1 x).trans (hJ x), ?_, ?_, hB⟩
    · intro h
      obtain ⟨a, b⟩ := hN h
      exact ⟨q2.trans a, q3.trans b⟩
    · intro h
      obtain ⟨n, h1, h2, h3, h4, h5, h6⟩ := hS h
      exact ⟨n, h1, h2, h3, h4, q2.trans h5, q3.trans h6⟩
  · subst hc
    obtain ⟨q1, q2, q3⟩ := quiet_extension W.log _
      (frameOps_quiet W.impl_ tree ⟨W.impl_.buf_index, hlt⟩)
    refine ⟨fun x => (q1 x).trans (hJ x), ?_, ?_, ?_⟩
    · intro h
      obtain ⟨a, b⟩ := hN h
      exact ⟨q2.trans a, q3.trans b⟩
    · intro h
      obtain ⟨n, h1, h2, h3, h4, h5, h6⟩ := hS h
      exact ⟨n, h1, h2, h3, h4, q2.trans h5, q3.trans h6⟩
    · show W.impl_.buf_index ^^^ 1 < 2
      rw [xor_one _ hlt]
      omega

theorem inv_call (W W1 : World) (c : Call) (hI : Inv W) (h : W.call c = some W1) :
    Inv W1 := by
  cases c with
  | start =>
    simp only [World.call, Option.some.injEq] at h
    subst h
    exact inv_start W hI
  | set tree =>
    simp only [World.call, Option.some.injEq] at h
    subst h
    exact inv_set W tree hI
  | clear =>
    simp only [World.call, Option.some.injEq] at h
    subst h
    exact inv_clear W hI
  | resize width height =>
    simp only [World.call, Option.some.injEq] at h
    subst h
    exact inv_resize W width height hI
  | render => exact inv_render W W1 hI h

theorem inv_run (calls : List Call) : ∀ (W W1 : World), Inv W → World.run calls W = some W1 →
    Inv W1 := by
  induction calls with
  | nil =>
    intro W W1 hI h
    simp only [World.run, Option.some.injEq] at h
    subst h
    exact hI
  | cons c cs ih =>
    intro W W1 hI h
    simp only [World.run, Option.bind_eq_some] at h
    obtain ⟨W2, h2, h3⟩ := h
    exact ih W2 W1 (inv_call W W2 c hI h2) h3

/-! ### Bindings after `resize` -/

theorem names_nodup (n : Nat) :
    ([n + 0, n + 1, n + 2 + 0, n + 2 + 1, n + 4 + 0, n + 4 + 1] : List Nat).Nodup := by
  simp
  omega

/-- C2 as stated fails: construct, bind an octree (which runs `start()`), then
`resize` with the camera's initial size 256 x 256: the call is skipped, so the
colour surface of set 0 has no live binding (zero registrations) and the
binding table is still null. -/
theorem resize_initial_size_registers_nothing :
    World.run [Call.set 7, Call.resize 256 256]
        (VolumeRenderer.new { width := 256, height := 256 } { background_brightness := 1 / 2 } []
          exampleIndeterminate exampleGpu) =
      some exampleSameSize ∧
    exampleSameSize.impl_.started_ = true ∧
    liveBindings exampleSameSize.log (exampleSameSize.impl_.rb 0) = 0 ∧
    exampleSameSize.log.countP Op.isRegister = 0 ∧
    exampleSameSize.impl_.cgr 0 = none := by
  refine ⟨rfl, rfl, ?_, ?_, rfl⟩
  · decide
  · decide

/-- C2, amended: from every state reached by calls on a freshly constructed
renderer in which `start()` has run, a `resize(w, h)` with the current size is
a no-op (it registers nothing), and after a `resize(w, h)` that changes the
size exactly two framebuffers and six renderbuffers exist (two Surface Sets,
all names distinct), each of the four interop-visible surfaces (colour and
depth-surrogate of each set) has register calls minus unregister calls equal
to exactly one, the true-depth surfaces have none, and the binding table holds
the binding of each surface in its slot. -/
theorem resize_bindings (camera : Camera) (options : RenderOptions) (meshes : List Mesh)
    (u : Indeterminate) (g : Gpu) (calls : List Call) (W : World) (width height : Int)
    (hreach : World.run calls (VolumeRenderer.new camera options meshes u g) = some W)
    (hstarted : W.impl_.started_ = true) :
    (W.impl_.camera.width = width ∧ W.impl_.camera.height = height →
      VolumeRenderer.resize W width height = W) ∧
    (¬ (W.impl_.camera.width = width ∧ W.impl_.camera.height = height) →
      framebuffersAfter (VolumeRenderer.resize W width height).log [] =
        [(VolumeRenderer.resize W width height).impl_.fb 0,
         (VolumeRenderer.resize W width height).impl_.fb 1] ∧
      (VolumeRenderer.resize W width height).impl_.fb 0 ≠
        (VolumeRenderer.resize W width height).impl_.fb 1 ∧
      renderbuffersAfter (VolumeRenderer.resize W width height).log [] =
        [(VolumeRenderer.resize W width height).impl_.rb 0,
         (VolumeRenderer.resize W width height).impl_.rb 1,
         (VolumeRenderer.resize W width height).impl_.depth_rb 0,
         (VolumeRenderer.resize W width height).impl_.depth_rb 1,
         (VolumeRenderer.resize W width height).impl_.depth_buf_rb 0,
         (VolumeRenderer.resize W width height).impl_.depth_buf_rb 1] ∧
      (renderbuffersAfter (VolumeRenderer.resize W width height).log []).Nodup ∧
      ∀ i : Fin 2,
        liveBindings (VolumeRenderer.resize W width height).log
          ((VolumeRenderer.resize W width height).impl_.rb i) = 1 ∧
        liveBindings (VolumeRenderer.resize W width height).log
          ((VolumeRenderer.resize W width height).impl_.depth_rb i) = 1 ∧
        liveBindings (VolumeRenderer.resize W width height).log
          ((VolumeRenderer.resize W width height).impl_.depth_buf_rb i) = 0 ∧
        ∃ r0 r1 : GraphicsResource,
          (VolumeRenderer.resize W width height).impl_.cgr (slot0 i) = some r0 ∧
          (VolumeRenderer.resize W width height).impl_.cgr (slot1 i) = some r1 ∧
          r0.image = (VolumeRenderer.resize W width height).impl_.rb i ∧
          r1.image = (VolumeRenderer.resize W width height).impl_.depth_rb i) := by
  have hI := inv_run calls _ W (inv_new camera options meshes u g) hreach
  constructor
  · intro hsame
    have e : W.impl_.resize W.gpu width height = (W.impl_, W.gpu, []) := by
      simp [Impl.resize, hsame]
    simp [VolumeRenderer.resize, e]
  · intro hne
    have hrest := resize_rest W.impl_ W.gpu width height hne
    have hi : (VolumeRenderer.resize W width height).impl_ =
        (W.impl_.resize W.gpu width height).1 := rfl
    have hs1 : (VolumeRenderer.resize W width height).impl_.started_ = true := by
      rw [hi, hrest]; exact hstarted
    obtain ⟨hJ, -, hS, -⟩ := inv_resize W width height hI
    obtain ⟨n, h1, h2, h3, h4, h5, h6⟩ := hS hs1
    obtain ⟨a0, a1, ha0, ha1, hia0, hia1, -⟩ := resize_cgr W.impl_ W.gpu width height hne 0
    obtain ⟨b0, b1, hb0, hb1, hib0, hib1, -⟩ := resize_cgr W.impl_ W.gpu width height hne 1
    have hrb : (VolumeRenderer.resize W width height).impl_.rb = W.impl_.rb := by
      rw [hi, hrest]
    have hdrb : (VolumeRenderer.resize W width height).impl_.depth_rb = W.impl_.depth_rb := by
      rw [hi, hrest]
    rw [← hrb] at hia0 hib0
    rw [← hdrb] at hia1 hib1
    rw [← hi] at ha0 ha1 hb0 hb1
    have hcount : ∀ x : Nat,
        tableCount (VolumeRenderer.resize W width height).impl_.cgr x =
          (if n = x then 1 else 0) + (if n + 2 = x then 1 else 0) +
          (if n + 1 = x then 1 else 0) + (if n + 2 + 1 = x then 1 else 0) := by
      intro x
      have e0 : (slot0 0 : Fin 4) = 0 := rfl
      have e1 : (slot1 0 : Fin 4) = 1 := rfl
      have e2 : (slot0 1 : Fin 4) = 2 := rfl
      have e3 : (slot1 1 : Fin 4) = 3 := rfl
      rw [e0] at ha0
      rw [e1] at ha1
      rw [e2] at hb0
      rw [e3] at hb1
      simp [tableCount, finRange_four, List.countP_cons, ha0, ha1, hb0, hb1, hia0, hia1, hib0,
        hib1, h1, h2]
      ring
    refine ⟨h5, ?_, h6, ?_, ?_⟩
    · rw [h4 0, h4 1]
      show ¬ ((n + 6 + ((0 : Fin 2) : Nat) : Nat) = n + 6 + ((1 : Fin 2) : Nat))
      simp
    · rw [h6, h1 0, h1 1, h2 0, h2 1, h3 0, h3 1]
      exact names_nodup n
    · intro i
      refine ⟨?_, ?_, ?_, ?_⟩
      · rw [hJ, hcount, h1 i]
        fin_cases i <;> (simp; try omega)
      · rw [hJ, hcount, h2 i]
        fin_cases i <;> (simp; try omega)
      · rw [hJ, hcount, h3 i]
        fin_cases i <;> (simp; try omega)
      · fin_cases i
        · exact ⟨a0, a1, ha0, ha1, hia0, hia1⟩
        · exact ⟨b0, b1, hb0, hb1, hib0, hib1⟩

theorem resize_bindings_witness :
    World.run [Call.set 7]
        (VolumeRenderer.new { width := 256, height := 256 } { background_brightness := 1 / 2 } []
          exampleIndeterminate exampleGpu) =
      some exampleSet ∧
    exampleSet.impl_.started_ = true ∧
    (exampleSet.impl_.camera.width = 800 ∧ exampleSet.impl_.camera.height = 600 →
      VolumeRenderer.resize exampleSet 800 600 = exampleSet) ∧
    (¬ (exampleSet.impl_.camera.width = 800 ∧ exampleSet.impl_.camera.height = 600) →
      framebuffersAfter (VolumeRenderer.resize exampleSet 800 600).log [] =
        [(VolumeRenderer.resize exampleSet 800 600).impl_.fb 0,
         (VolumeRenderer.resize exampleSet 800 600).impl_.fb 1] ∧
      (VolumeRenderer.resize exampleSet 800 600).impl_.fb 0 ≠
        (VolumeRenderer.resize exampleSet 800 600).impl_.fb 1 ∧
      renderbuffersAfter (VolumeRenderer.resize exampleSet 800 600).log [] =
        [(VolumeRenderer.resize exampleSet 800 600).impl_.rb 0,
         (VolumeRenderer.resize exampleSet 800 600).impl_.rb 1,
         (VolumeRenderer.resize exampleSet 800 600).impl_.depth_rb 0,
         (VolumeRenderer.resize exampleSet 800 600).impl_.depth_rb 1,
         (VolumeRenderer.resize exampleSet 800 600).impl_.depth_buf_rb 0,
         (VolumeRenderer.resize exampleSet 800 600).impl_.depth_buf_rb 1] ∧
      (renderbuffersAfter (VolumeRenderer.resize exampleSet 800 600).log []).Nodup ∧
      ∀ i : Fin 2,
        liveBindings (VolumeRenderer.resize exampleSet 800 600).log
          ((VolumeRenderer.resize exampleSet 800 600).impl_.rb i) = 1 ∧
        liveBindings (VolumeRenderer.resize exampleSet 800 600).log
          ((VolumeRenderer.resize exampleSet 800 600).impl_.depth_rb i) = 1 ∧
        liveBindings (VolumeRenderer.resize exampleSet 800 600).log
          ((VolumeRenderer.resize exampleSet 800 600).impl_.depth_buf_rb i) = 0 ∧
        ∃ r0 r1 : GraphicsResource,
          (VolumeRenderer.resize exampleSet 800 600).impl_.cgr (slot0 i) = some r0 ∧
          (VolumeRenderer.resize exampleSet 800 600).impl_.cgr (slot1 i) = some r1 ∧
          r0.image = (VolumeRenderer.resize exampleSet 800 600).impl_.rb i ∧
          r1.image = (VolumeRenderer.resize exampleSet 800 600).impl_.depth_rb i) :=
  ⟨rfl, rfl,
   resize_bindings { width := 256, height := 256 } { background_brightness := 1 / 2 } []
     exampleIndeterminate exampleGpu [Call.set 7] exampleSet 800 600 rfl rfl⟩

/-! ### The name helpers of the headless driver -/

theorem size_not_ne_zero (i : Nat) (h : i < 2 ^ 64 - 1) : size_not i ≠ 0 := by
  simp only [size_not]
  omega

theorem size_dec_succ (i : Nat) (h : i + 1 < 2 ^ 64) : size_dec (i + 1) = i := by
  simp only [size_dec]
  omega

theorem size_not_dec_zero : size_not (size_dec 0) = 0 := by
  decide

theorem path_basename_loop_spec (str : List Char) (hlen : str.length < 2 ^ 64) :
    ∀ i, i < str.length →
      ((∀ k c, k ≤ i → str[k]? = some c → isSeparator c = false) →
        path_basename_loop str i = some str) ∧
      (∀ k c, k ≤ i → str[k]? = some c → isSeparator c = true →
        (∀ j d, k < j → j ≤ i → str[j]? = some d → isSeparator d = false) →
        path_basename_loop str i = some (str.drop k)) := by
  intro i
  induction i with
  | zero =>
    intro hi
    have hne : size_not 0 ≠ 0 := size_not_ne_zero 0 (by omega)
    have hget : str[0]? = some (str[0]) := List.getElem?_eq_getElem hi
    constructor
    · intro hno
      rw [path_basename_loop, dif_neg hne, hget]
      simp only [hno 0 _ (le_refl 0) hget, Bool.false_eq_true, if_false]
      rw [path_basename_loop, dif_pos size_not_dec_zero]
    · intro k c hk hc hsep _
      have hk0 : k = 0 := by omega
      subst hk0
      rw [hget] at hc
      rw [path_basename_loop, dif_neg hne, hget]
      simp only [Option.some.inj hc, hsep, if_true]
  | succ i ih =>
    intro hi
    have hne : size_not (i + 1) ≠ 0 := size_not_ne_zero _ (by omega)
    have hget : str[i + 1]? = some (str[i + 1]) := List.getElem?_eq_getElem hi
    have hdec : size_dec (i + 1) = i := size_dec_succ i (by omega)
    obtain ⟨ih1, ih2⟩ := ih (by omega)
    constructor
    · intro hno
      rw [path_basename_loop, dif_neg hne, hget]
      simp only [hno (i + 1) _ (le_refl _) hget, Bool.false_eq_true, if_false, hdec]
      exact ih1 fun k c hk hc => hno k c (by omega) hc
    · intro k c hk hc hsep hlast
      rw [path_basename_loop, dif_neg hne, hget]
      by_cases hki : k = i + 1
      · subst hki
        rw [hget] at hc
        simp only [Option.some.inj hc, hsep, if_true]
      · have hnot : isSeparator str[i + 1] = false :=
          hlast (i + 1) _ (by omega) (le_refl _) hget
        simp only [hnot, Bool.false_eq_true, if_false, hdec]
        exact ih2 k c (by omega) hc hsep fun j d hj1 hj2 hd => hlast j d hj1 (by omega) hd

theorem remove_ext_loop_spec (str : List Char) (hlen : str.length < 2 ^ 64) :
    ∀ i, i < str.length →
      ((∀ k c, k ≤ i → str[k]? = some c → (c == '.') = false) →
        remove_ext_loop str i = some str) ∧
      (∀ k c, k ≤ i → str[k]? = some c → (c == '.') = true →
        (∀ j d, k < j → j ≤ i → str[j]? = some d → (d == '.') = false) →
        remove_ext_loop str i = some (str.take k)) := by
  intro i
  induction i with
  | zero =>
    intro hi
    have hne : size_not 0 ≠ 0 := size_not_ne_zero 0 (by omega)
    have hget : str[0]? = some (str[0]) := List.getElem?_eq_getElem hi
    constructor
    · intro hno
      rw [remove_ext_loop, dif_neg hne, hget]
      simp only [hno 0 _ (le_refl 0) hget, Bool.false_eq_true, if_false]
      rw [remove_ext_loop, dif_pos size_not_dec_zero]
    · intro k c hk hc hsep _
      have hk0 : k = 0 := by omega
      subst hk0
      rw [hget] at hc
      rw [remove_ext_loop, dif_neg hne, hget]
      simp only [Option.some.inj hc, hsep, if_true]
  | succ i ih =>
    intro hi
    have hne : size_not (i + 1) ≠ 0 := size_not_ne_zero _ (by omega)
    have hget : str[i + 1]? = some (str[i + 1]) := List.getElem?_eq_getElem hi
    have hdec : size_dec (i + 1) = i := size_dec_succ i (by omega)
    obtain ⟨ih1, ih2⟩ := ih (by omega)
    constructor
    · intro hno
      rw [remove_ext_loop, dif_neg hne, hget]
      simp only [hno (i + 1) _ (le_refl _) hget, Bool.false_eq_true, if_false, hdec]
      exact ih1 fun k c hk hc => hno k c (by omega) hc
    · intro k c hk hc hsep hlast
      rw [remove_ext_loop, dif_neg hne, hget]
      by_cases hki : k = i + 1
      · subst hki
        rw [hget] at hc
        simp only [Option.some.inj hc, hsep, if_true]
      · have hnot : (str[i + 1] == '.') = false :=
          hlast (i + 1) _ (by omega) (le_refl _) hget
        simp only [hnot, Bool.false_eq_true, if_false, hdec]
        exact ih2 k c (by omega) hc hsep fun j d hj1 hj2 hd => hlast j d hj1 (by omega) hd

/-- A list with an element satisfying `p` splits at the last such element. -/
theorem split_at_last (p : Char → Bool) :
    ∀ l : List Char, (∃ x ∈ l, p x = true) →
      ∃ pre x post, l = pre ++ x :: post ∧ p x = true ∧ ∀ d ∈ post, p d = false := by
  intro l
  induction l with
  | nil => intro h; obtain ⟨x, hx, _⟩ := h; cases hx
  | cons a t ih =>
    intro h
    by_cases ht : ∃ x ∈ t, p x = true
    · obtain ⟨pre, x, post, e, hx, hpost⟩ := ih ht
      exact ⟨a :: pre, x, post, by rw [e]; rfl, hx, hpost⟩
    · have hall : ∀ d ∈ t, p d = false := by
        intro d hd
        cases hp : p d with
        | false => rfl
        | true => exact absurd ⟨d, hd, hp⟩ ht
      obtain ⟨x, hx, hpx⟩ := h
      rcases List.mem_cons.mp hx with rfl | hxt
      · exact ⟨[], x, t, rfl, hpx, hall⟩
      · rw [hall x hxt] at hpx
        cases hpx

theorem getElem?_split_mid (pre post : List Char) (c : Char) :
    (pre ++ c :: post)[pre.length]? = some c := by
  rw [List.getElem?_append_right (le_refl _), Nat.sub_self, List.getElem?_cons_zero]

theorem getElem?_split_after (pre post : List Char) (c d : Char) (j : Nat)
    (hj : pre.length < j) (hd : (pre ++ c :: post)[j]? = some d) : d ∈ post := by
  rw [List.getElem?_append_right (by omega)] at hd
  obtain ⟨m, hm⟩ : ∃ m, j - pre.length = m + 1 := ⟨j - pre.length - 1, by omega⟩
  rw [hm, List.getElem?_cons_succ] at hd
  exact List.getElem?_mem hd

theorem size_dec_length (str : List Char) (hlen : str.length < 2 ^ 64) (hne : str ≠ []) :
    size_dec str.length = str.length - 1 ∧ str.length - 1 < str.length := by
  have hpos : 0 < str.length := List.length_pos.mpr hne
  simp only [size_dec]
  omega

theorem path_basename_none_sep (s : List Char) (hlen : s.length < 2 ^ 64)
    (hno : ∀ c ∈ s, isSeparator c = false) : path_basename s = some s := by
  by_cases hne : s = []
  · subst hne
    rw [path_basename, path_basename_loop]
    exact dif_pos size_not_dec_zero
  · obtain ⟨e, hlt⟩ := size_dec_length s hlen hne
    rw [path_basename, e]
    exact (path_basename_loop_spec s hlen _ hlt).1 fun k c _ hc =>
      hno c (List.getElem?_mem hc)

theorem path_basename_last_sep (pre post : List Char) (c : Char)
    (hlen : (pre ++ c :: post).length < 2 ^ 64) (hc : isSeparator c = true)
    (hpost : ∀ d ∈ post, isSeparator d = false) :
    path_basename (pre ++ c :: post) = some (c :: post) := by
  have hne : pre ++ c :: post ≠ [] := by simp
  obtain ⟨e, hlt⟩ := size_dec_length _ hlen hne
  have hk : pre.length ≤ (pre ++ c :: post).length - 1 := by
    simp only [List.length_append, List.length_cons]
    omega
  rw [path_basename, e,
    (path_basename_loop_spec _ hlen _ hlt).2 pre.length c hk (getElem?_split_mid pre post c) hc
      fun j d hj _ hd => hpost d (getElem?_split_after pre post c d j hj hd)]
  simp

theorem remove_ext_none_dot (s : List Char) (hlen : s.length < 2 ^ 64)
    (hno : ∀ c ∈ s, (c == '.') = false) : remove_ext s = some s := by
  by_cases hne : s = []
  · subst hne
    rw [remove_ext, remove_ext_loop]
    exact dif_pos size_not_dec_zero
  · obtain ⟨e, hlt⟩ := size_dec_length s hlen hne
    rw [remove_ext, e]
    exact (remove_ext_loop_spec s hlen _ hlt).1 fun k c _ hc =>
      hno c (List.getElem?_mem hc)

theorem remove_ext_last_dot (pre post : List Char) (c : Char)
    (hlen : (pre ++ c :: post).length < 2 ^ 64) (hc : (c == '.') = true)
    (hpost : ∀ d ∈ post, (d == '.') = false) :
    remove_ext (pre ++ c :: post) = some pre := by
  have hne : pre ++ c :: post ≠ [] := by simp
  obtain ⟨e, hlt⟩ := size_dec_length _ hlen hne
  have hk : pre.length ≤ (pre ++ c :: post).length - 1 := by
    simp only [List.length_append, List.length_cons]
    omega
  rw [remove_ext, e,
    (remove_ext_loop_spec _ hlen _ hlt).2 pre.length c hk (getElem?_split_mid pre post c) hc
      fun j d hj _ hd => hpost d (getElem?_split_after pre post c d j hj hd)]
  simp

theorem path_basename_total (s : List Char) (hlen : s.length < 2 ^ 64) :
    ∃ b, path_basename s = some b := by
  by_cases h : ∃ x ∈ s, isSeparator x = true
  · obtain ⟨pre, c, post, e, hc, hpost⟩ := split_at_last isSeparator s h
    subst e
    exact ⟨_, path_basename_last_sep pre post c hlen hc hpost⟩
  · refine ⟨s, path_basename_none_sep s hlen ?_⟩
    intro c hc
    cases hp : isSeparator c with
    | false => rfl
    | true => exact absurd ⟨c, hc, hp⟩ h

theorem remove_ext_total (s : List Char) (hlen : s.length < 2 ^ 64) :
    ∃ e, remove_ext s = some e ∧ (e = s ∨ ∃ post, s = e ++ '.' :: post) := by
  by_cases h : ∃ x ∈ s, (x == '.') = true
  · obtain ⟨pre, c, post, e, hc, hpost⟩ := split_at_last (fun x => x == '.') s h
    subst e
    refine ⟨pre, remove_ext_last_dot pre post c hlen hc hpost, Or.inr ⟨post, ?_⟩⟩
    rw [eq_of_beq hc]
  · refine ⟨s, remove_ext_none_dot s hlen ?_, Or.inl rfl⟩
    intro c hc
    cases hp : (c == '.') with
    | false => rfl
    | true => exact absurd ⟨c, hc, hp⟩ h

/-- C17: the name helpers of the headless driver, for every string `s` (of a
length a `size_t` can hold), the empty one included.  Both return (the
`size_t` loop ends and never reads outside the string).  `path_basename(s)` is
`s` when `s` has no separator, and otherwise the suffix of `s` that starts at,
and includes, its last separator.  `remove_ext(s)` is `s` when `s` has no `'.'`,
and otherwise the prefix of `s` that ends just before its last `'.'`.  Hence for
a path with a directory part the stem `remove_ext(path_basename(s))` still
begins with that last separator. -/
theorem name_helpers (s : List Char) (hlen : s.length < 2 ^ 64) :
    (∃ b, path_basename s = some b ∧
      ((∀ c ∈ s, isSeparator c = false) → b = s) ∧
      (∀ pre c post, s = pre ++ c :: post → isSeparator c = true →
        (∀ d ∈ post, isSeparator d = false) → b = c :: post)) ∧
    (∃ e, remove_ext s = some e ∧
      ((∀ c ∈ s, c ≠ '.') → e = s) ∧
      (∀ pre post, s = pre ++ '.' :: post → (∀ d ∈ post, d ≠ '.') → e = pre)) ∧
    (∀ pre c post, s = pre ++ c :: post → isSeparator c = true →
      (∀ d ∈ post, isSeparator d = false) →
      ∃ stem, (path_basename s).bind remove_ext = some stem ∧ stem.head? = some c) := by
  refine ⟨?_, ?_, ?_⟩
  · obtain ⟨b, hb⟩ := path_basename_total s hlen
    refine ⟨b, hb, ?_, ?_⟩
    · intro hno
      rw [path_basename_none_sep s hlen hno] at hb
      exact (Option.some.inj hb).symm
    · intro pre c post e hc hpost
      subst e
      rw [path_basename_last_sep pre post c hlen hc hpost] at hb
      exact (Option.some.inj hb).symm
  · obtain ⟨e, he, _⟩ := remove_ext_total s hlen
    refine ⟨e, he, ?_, ?_⟩
    · intro hno
      rw [remove_ext_none_dot s hlen fun c hc => by simpa using hno c hc] at he
      exact (Option.some.inj he).symm
    · intro pre post e1 hpost
      subst e1
      rw [remove_ext_last_dot pre post '.' hlen (by decide)
        fun d hd => by simpa using hpost d hd] at he
      exact (Option.some.inj he).symm
  · intro pre c post e hc hpost
    subst e
    have hlen2 : (c :: post).length < 2 ^ 64 := by
      simp only [List.length_append, List.length_cons] at hlen ⊢
      omega
    obtain ⟨stem, hs, hcase⟩ := remove_ext_total (c :: post) hlen2
    refine ⟨stem, ?_, ?_⟩
    · rw [path_basename_last_sep pre post c hlen hc hpost, Option.some_bind]
      exact hs
    · rcases hcase with h1 | ⟨post2, h2⟩
      · rw [h1]; rfl
      · cases stem with
        | nil =>
          simp only [List.nil_append, List.cons.injEq] at h2
          rw [h2.1] at hc
          exact absurd hc (by decide)
        | cons a stem2 =>
          simp only [List.cons_append, List.cons.injEq] at h2
          rw [h2.1]
          rfl

theorem name_helpers_witness :
    ['d', '/', 'p', '.', 't'].length < 2 ^ 64 ∧
    (∃ b, path_basename ['d', '/', 'p', '.', 't'] = some b ∧
      ((∀ c ∈ ['d', '/', 'p', '.', 't'], isSeparator c = false) → b = ['d', '/', 'p', '.', 't']) ∧
      (∀ pre c post, ['d', '/', 'p', '.', 't'] = pre ++ c :: post → isSeparator c = true →
        (∀ d ∈ post, isSeparator d = false) → b = c :: post)) ∧
    (∃ e, remove_ext ['d', '/', 'p', '.', 't'] = some e ∧
      ((∀ c ∈ ['d', '/', 'p', '.', 't'], c ≠ '.') → e = ['d', '/', 'p', '.', 't']) ∧
      (∀ pre post, ['d', '/', 'p', '.', 't'] = pre ++ '.' :: post → (∀ d ∈ post, d ≠ '.') → e = pre)) ∧
    (∀ pre c post, ['d', '/', 'p', '.', 't'] = pre ++ c :: post → isSeparator c = true →
      (∀ d ∈ post, isSeparator d = false) →
      ∃ stem, (path_basename ['d', '/', 'p', '.', 't']).bind remove_ext = some stem ∧ stem.head? = some c) :=
  ⟨by decide, name_helpers ['d', '/', 'p', '.', 't'] (by decide)⟩

theorem exampleRendered_run :
    World.run [Call.start, Call.resize 800 600, Call.set 7, Call.render]
        (VolumeRenderer.new { width := 256, height := 256 } { background_brightness := 1 / 2 } []
          exampleIndeterminate exampleGpu) =
      some exampleRendered := by
  have h : VolumeRenderer.render exampleWorld = some exampleRendered := by
    simp only [VolumeRenderer.render]
    rw [render_bound exampleWorld.impl_ 7 (by decide) rfl rfl]
    rfl
  exact h


/-! ### Octree binding and the started flag -/

theorem resize_tree_started (s : Impl) (g : Gpu) (width height : Int) :
    (s.resize g width height).1.tree = s.tree ∧
    (s.resize g width height).1.started_ = s.started_ ∧
    (s.resize g width height).1.buf_index = s.buf_index := by
  by_cases hne : s.camera.width = width ∧ s.camera.height = height
  · simp [Impl.resize, hne]
  · rw [resize_rest s g width height hne]
    exact ⟨rfl, rfl, rfl⟩

theorem start_tree (s : Impl) (g : Gpu) : (s.start g).1.tree = s.tree :=
  (start_idempotent s g).2.2.1

/-- The flag `started_` is never reset by a call. -/
theorem call_started (W W1 : World) (c : Call) (h : W.call c = some W1)
    (hs : W.impl_.started_ = true) : W1.impl_.started_ = true := by
  cases c with
  | start =>
    simp only [World.call, Option.some.injEq] at h
    subst h
    exact start_started _ _
  | set tree =>
    simp only [World.call, Option.some.injEq] at h
    subst h
    exact start_started _ _
  | clear =>
    simp only [World.call, Option.some.injEq] at h
    subst h
    exact hs
  | resize width height =>
    simp only [World.call, Option.some.injEq] at h
    subst h
    exact (resize_tree_started _ _ _ _).2.1.trans hs
  | render =>
    simp only [World.call, VolumeRenderer.render, Option.map_eq_some'] at h
    obtain ⟨r, hr, rfl⟩ := h
    obtain ⟨hlt, hc | ⟨tree, ht, hst, hc⟩⟩ := render_cases W.impl_ r hr
    · subst hc; exact hs
    · subst hc; exact hs

theorem run_started (calls : List Call) : ∀ (W W1 : World), World.run calls W = some W1 →
    W.impl_.started_ = true → W1.impl_.started_ = true := by
  induction calls with
  | nil =>
    intro W W1 h hs
    simp only [World.run, Option.some.injEq] at h
    subst h
    exact hs
  | cons c cs ih =>
    intro W W1 h hs
    simp only [World.run, Option.bind_eq_some] at h
    obtain ⟨W2, h2, h3⟩ := h
    exact ih W2 W1 h3 (call_started W W2 c h2 hs)

/-- A bound octree implies `started_`, over one call. -/
theorem call_bound_started (W W1 : World) (c : Call) (h : W.call c = some W1)
    (hI : W.impl_.tree ≠ none → W.impl_.started_ = true) :
    W1.impl_.tree ≠ none → W1.impl_.started_ = true := by
  cases c with
  | start =>
    simp only [World.call, Option.some.injEq] at h
    subst h
    intro _
    exact start_started _ _
  | set tree =>
    simp only [World.call, Option.some.injEq] at h
    subst h
    intro _
    exact start_started _ _
  | clear =>
    simp only [World.call, Option.some.injEq] at h
    subst h
    intro hne
    exact absurd rfl hne
  | resize width height =>
    simp only [World.call, Option.some.injEq] at h
    subst h
    intro hne
    have e := resize_tree_started W.impl_ W.gpu width height
    exact e.2.1.trans (hI (by rw [← e.1]; exact hne))
  | render =>
    simp only [World.call, VolumeRenderer.render, Option.map_eq_some'] at h
    obtain ⟨r, hr, rfl⟩ := h
    obtain ⟨hlt, hc | ⟨tree, ht, hst, hc⟩⟩ := render_cases W.impl_ r hr
    · subst hc; exact hI
    · subst hc; exact fun _ => hst

theorem run_bound_started (calls : List Call) : ∀ (W W1 : World),
    World.run calls W = some W1 →
    (W.impl_.tree ≠ none → W.impl_.started_ = true) →
    W1.impl_.tree ≠ none → W1.impl_.started_ = true := by
  induction calls with
  | nil =>
    intro W W1 h hI
    simp only [World.run, Option.some.injEq] at h
    subst h
    exact hI
  | cons c cs ih =>
    intro W W1 h hI
    simp only [World.run, Option.bind_eq_some] at h
    obtain ⟨W2, h2, h3⟩ := h
    exact ih W2 W1 h3 (call_bound_started W W2 c h2 hI)

/-- C16: in every state reached by calls on a freshly constructed renderer
(the public `set`, `clear`, `resize`, `render`, and `start` as well), a bound
octree implies `started_`; once `started_` is set, no further sequence of
calls resets it; so the guard `tree == nullptr || !started_` of `render()`
holds exactly when no octree is bound, and `render()` returns after the clears
exactly then and issues the full frame exactly when an octree is bound. -/
theorem bound_implies_started (camera : Camera) (options : RenderOptions)
    (meshes : List Mesh) (u : Indeterminate) (g : Gpu) (calls : List Call) (W : World)
    (hreach : World.run calls (VolumeRenderer.new camera options meshes u g) = some W) :
    (∀ tree, W.impl_.tree = some tree → W.impl_.started_ = true) ∧
    (W.impl_.started_ = true → ∀ (calls2 : List Call) (W2 : World),
      World.run calls2 W = some W2 → W2.impl_.started_ = true) ∧
    ((W.impl_.tree = none ∨ (!W.impl_.started_) = true) ↔ W.impl_.tree = none) ∧
    ∃ hlt : W.impl_.buf_index < 2,
      (W.impl_.tree = none →
        W.impl_.render = some (W.impl_,
          clearOps (W.impl_.fb ⟨W.impl_.buf_index, hlt⟩)
            W.impl_.options.background_brightness)) ∧
      (∀ tree, W.impl_.tree = some tree →
        W.impl_.render = some
          ({ W.impl_ with camera := W.impl_.camera._update,
                          buf_index := W.impl_.buf_index ^^^ 1 },
           frameOps W.impl_ tree ⟨W.impl_.buf_index, hlt⟩)) := by
  have hT : W.impl_.tree ≠ none → W.impl_.started_ = true :=
    run_bound_started calls _ W hreach (fun hne => absurd rfl hne)
  have hlt : W.impl_.buf_index < 2 :=
    (inv_run calls _ W (inv_new camera options meshes u g) hreach).2.2.2
  refine ⟨?_, ?_, ?_, hlt, ?_, ?_⟩
  · intro tree ht
    exact hT (by rw [ht]; exact Option.some_ne_none tree)
  · intro hs calls2 W2 h2
    exact run_started calls2 W W2 h2 hs
  · constructor
    · rintro (h | h)
      · exact h
      · by_contra hne
        rw [hT hne] at h
        exact absurd h (by decide)
    · exact Or.inl
  · intro ht
    exact render_unbound W.impl_ hlt ht
  · intro tree ht
    exact render_bound W.impl_ tree hlt ht (hT (by rw [ht]; exact Option.some_ne_none tree))

theorem bound_implies_started_witness :
    World.run [Call.start, Call.resize 800 600, Call.set 7, Call.render]
        (VolumeRenderer.new { width := 256, height := 256 } { background_brightness := 1 / 2 } []
          exampleIndeterminate exampleGpu) =
      some exampleRendered ∧
    ((∀ tree, exampleRendered.impl_.tree = some tree → exampleRendered.impl_.started_ = true) ∧
    (exampleRendered.impl_.started_ = true → ∀ (calls2 : List Call) (W2 : World),
      World.run calls2 exampleRendered = some W2 → W2.impl_.started_ = true) ∧
    ((exampleRendered.impl_.tree = none ∨ (!exampleRendered.impl_.started_) = true) ↔
      exampleRendered.impl_.tree = none) ∧
    ∃ hlt : exampleRendered.impl_.buf_index < 2,
      (exampleRendered.impl_.tree = none →
        exampleRendered.impl_.render = some (exampleRendered.impl_,
          clearOps (exampleRendered.impl_.fb ⟨exampleRendered.impl_.buf_index, hlt⟩)
            exampleRendered.impl_.options.background_brightness)) ∧
      (∀ tree, exampleRendered.impl_.tree = some tree →
        exampleRendered.impl_.render = some
          ({ exampleRendered.impl_ with
               camera := exampleRendered.impl_.camera._update,
               buf_index := exampleRendered.impl_.buf_index ^^^ 1 },
           frameOps exampleRendered.impl_ tree ⟨exampleRendered.impl_.buf_index, hlt⟩))) :=
  ⟨exampleRendered_run,
   bound_implies_started { width := 256, height := 256 } { background_brightness := 1 / 2 } []
     exampleIndeterminate exampleGpu [Call.start, Call.resize 800 600, Call.set 7, Call.render]
     exampleRendered exampleRendered_run⟩

/-! ### `set` and `clear` -/

theorem call_unbound (W W1 : World) (c : Call) (h : W.call c = some W1)
    (hc : ∀ t, c ≠ Call.set t) (ht : W.impl_.tree = none) (hb : W.impl_.buf_index < 2) :
    W1.impl_.tree = none ∧ W1.impl_.buf_index < 2 := by
  cases c with
  | start =>
    simp only [World.call, Option.some.injEq] at h
    subst h
    exact ⟨(start_tree _ _).trans ht, by
      show (W.impl_.start W.gpu).1.buf_index < 2
      rw [(start_idempotent W.impl_ W.gpu).2.1]; exact hb⟩
  | set tree => exact absurd rfl (hc tree)
  | clear =>
    simp only [World.call, Option.some.injEq] at h
    subst h
    exact ⟨rfl, hb⟩
  | resize width height =>
    simp only [World.call, Option.some.injEq] at h
    subst h
    have e := resize_tree_started W.impl_ W.gpu width height
    exact ⟨e.1.trans ht, by
      show (W.impl_.resize W.gpu width height).1.buf_index < 2
      rw [e.2.2]; exact hb⟩
  | render =>
    simp only [World.call, VolumeRenderer.render, Option.map_eq_some'] at h
    obtain ⟨r, hr, rfl⟩ := h
    rw [render_unbound W.impl_ hb ht] at hr
    have e := Option.some.inj hr
    subst e
    exact ⟨ht, hb⟩

theorem run_unbound (calls : List Call) : ∀ (W W1 : World), World.run calls W = some W1 →
    (∀ c ∈ calls, ∀ t, c ≠ Call.set t) → W.impl_.tree = none → W.impl_.buf_index < 2 →
    W1.impl_.tree = none ∧ W1.impl_.buf_index < 2 := by
  induction calls with
  | nil =>
    intro W W1 h _ ht hb
    simp only [World.run, Option.some.injEq] at h
    subst h
    exact ⟨ht, hb⟩
  | cons c cs ih =>
    intro W W1 h hc ht hb
    simp only [World.run, Option.bind_eq_some] at h
    obtain ⟨W2, h2, h3⟩ := h
    obtain ⟨ht2, hb2⟩ := call_unbound W W2 c h2 (hc c (List.mem_cons_self _ _)) ht hb
    exact ih W2 W1 h3 (fun c1 hc1 => hc c1 (List.mem_cons_of_mem _ hc1)) ht2 hb2

/-- C13 as stated fails: `set(tree)` after `clear()` does not change only the
reference when `start()` has not run yet.  On a freshly constructed renderer,
`clear()` then `set(7)` runs `start()`: thirteen calls are issued and
`started_`, the stream and the object names change. -/
theorem set_after_clear_runs_start :
    exampleCleared.impl_.started_ = false ∧
    exampleCleared.log = [] ∧
    (VolumeRenderer.set exampleCleared 7).impl_.started_ = true ∧
    (VolumeRenderer.set exampleCleared 7).log.length = 13 ∧
    (VolumeRenderer.set exampleCleared 7).impl_.stream ≠ exampleCleared.impl_.stream ∧
    (VolumeRenderer.set exampleCleared 7).impl_.fb 0 ≠ exampleCleared.impl_.fb 0 := by
  refine ⟨rfl, rfl, rfl, rfl, ?_, ?_⟩ <;> decide

/-- C13, amended: `clear()` issues no call, frees nothing and changes nothing
but the octree reference, which becomes absent; as long as no `set` follows,
through any calls of `start`, `clear`, `resize` and `render`, the reference
stays absent and every `render()` returns with only the clears issued (no
kernel launch) and the state unchanged; and on a renderer on which `start()`
has run, `set(tree)` after `clear()` issues no call and changes only the
reference. -/
theorem clear_only_unbinds (W : World) (tree : N3Tree) (hs : W.impl_.started_ = true)
    (hb : W.impl_.buf_index < 2) :
    (VolumeRenderer.clear W).log = W.log ∧
    (VolumeRenderer.clear W).gpu = W.gpu ∧
    (VolumeRenderer.clear W).impl_ = { W.impl_ with tree := none } ∧
    (∀ (calls : List Call) (W2 : World), (∀ c ∈ calls, ∀ t, c ≠ Call.set t) →
      World.run calls (VolumeRenderer.clear W) = some W2 →
      W2.impl_.tree = none ∧
      ∃ hlt : W2.impl_.buf_index < 2,
        W2.impl_.render = some (W2.impl_,
          clearOps (W2.impl_.fb ⟨W2.impl_.buf_index, hlt⟩)
            W2.impl_.options.background_brightness) ∧
        (clearOps (W2.impl_.fb ⟨W2.impl_.buf_index, hlt⟩)
            W2.impl_.options.background_brightness).countP Op.isLaunch = 0) ∧
    (VolumeRenderer.set (VolumeRenderer.clear W) tree).log = W.log ∧
    (VolumeRenderer.set (VolumeRenderer.clear W) tree).gpu = W.gpu ∧
    (VolumeRenderer.set (VolumeRenderer.clear W) tree).impl_ =
      { W.impl_ with tree := some tree } := by
  have hst : Impl.start { W.impl_ with tree := none } W.gpu =
      ({ W.impl_ with tree := none }, W.gpu, []) := start_of_started _ _ hs
  refine ⟨rfl, rfl, rfl, ?_, ?_, ?_, ?_⟩
  · intro calls W2 hc hrun
    obtain ⟨ht2, hb2⟩ := run_unbound calls _ W2 hrun hc rfl hb
    exact ⟨ht2, hb2, render_unbound W2.impl_ hb2 ht2, by simp [clearOps, Op.isLaunch]⟩
  · simp [VolumeRenderer.set, VolumeRenderer.clear, World.start, hst]
  · simp [VolumeRenderer.set, VolumeRenderer.clear, World.start, hst]
  · simp [VolumeRenderer.set, VolumeRenderer.clear, World.start, hst]

theorem clear_only_unbinds_witness :
    exampleWorld.impl_.started_ = true ∧ exampleWorld.impl_.buf_index < 2 ∧
    ((VolumeRenderer.clear exampleWorld).log = exampleWorld.log ∧
    (VolumeRenderer.clear exampleWorld).gpu = exampleWorld.gpu ∧
    (VolumeRenderer.clear exampleWorld).impl_ = { exampleWorld.impl_ with tree := none } ∧
    (∀ (calls : List Call) (W2 : World), (∀ c ∈ calls, ∀ t, c ≠ Call.set t) →
      World.run calls (VolumeRenderer.clear exampleWorld) = some W2 →
      W2.impl_.tree = none ∧
      ∃ hlt : W2.impl_.buf_index < 2,
        W2.impl_.render = some (W2.impl_,
          clearOps (W2.impl_.fb ⟨W2.impl_.buf_index, hlt⟩)
            W2.impl_.options.background_brightness) ∧
        (clearOps (W2.impl_.fb ⟨W2.impl_.buf_index, hlt⟩)
            W2.impl_.options.background_brightness).countP Op.isLaunch = 0) ∧
    (VolumeRenderer.set (VolumeRenderer.clear exampleWorld) 9).log = exampleWorld.log ∧
    (VolumeRenderer.set (VolumeRenderer.clear exampleWorld) 9).gpu = exampleWorld.gpu ∧
    (VolumeRenderer.set (VolumeRenderer.clear exampleWorld) 9).impl_ =
      { exampleWorld.impl_ with tree := some 9 }) :=
  ⟨rfl, by decide, clear_only_unbinds exampleWorld 9 rfl (by decide)⟩

/-! ### States reached after `start()` -/

theorem resize_gpu_storage (s : Impl) (g : Gpu) (width height : Int)
    (hne : ¬ (s.camera.width = width ∧ s.camera.height = height)) (n : Nat)
    (h1 : ∀ i : Fin 2, s.rb i = n + i.val)
    (h2 : ∀ i : Fin 2, s.depth_rb i = n + 2 + i.val)
    (h3 : ∀ i : Fin 2, s.depth_buf_rb i = n + 4 + i.val) (i : Fin 2) :
    (s.resize g width height).2.1.storage (s.rb i) =
      some ⟨GLenum.GL_RGBA8, width, height⟩ ∧
    (s.resize g width height).2.1.storage (s.depth_rb i) =
      some ⟨GLenum.GL_R32F, width, height⟩ ∧
    (s.resize g width height).2.1.storage (s.depth_buf_rb i) =
      some ⟨GLenum.GL_DEPTH_COMPONENT32F, width, height⟩ := by
  unfold Impl.resize
  rw [if_neg hne]
  simp only [resize_loop_eq, getArrays, resizeBody, Gpu.registerImage, Gpu.renderbufferStorage]
  fin_cases i
  · simp [Function.update, h1, h2, h3]
    have e1 : ¬ (n = n + 4 + 1) := by omega
    have e2 : ¬ (n = n + 2 + 1) := by omega
    rw [if_neg e1, if_neg e2]
  · simp [Function.update, h1, h2, h3]

theorem liveAfter_of_no_binding (ops : List Op)
    (h : ∀ op ∈ ops, op.isRegister = false ∧ op.isUnregister = false) :
    ∀ live, liveAfter ops live = live := by
  induction ops with
  | nil => intro live; rfl
  | cons op ops ih =>
    intro live
    have h1 := h op (List.mem_cons_self _ _)
    have h2 := ih fun o ho => h o (List.mem_cons_of_mem _ ho)
    cases op <;> simp_all [liveAfter, Op.isRegister, Op.isUnregister]

theorem filter_append_quiet (p : Op → Bool) (log ops : List Op)
    (h : ∀ op ∈ ops, p op = false) : (log ++ ops).filter p = log.filter p := by
  rw [List.filter_append]
  have e : ops.filter p = [] := by
    rw [List.filter_eq_nil_iff]
    intro op hop
    rw [h op hop]
    exact Bool.false_ne_true
  rw [e, List.append_nil]

theorem clearOps_no_get (fbi : GLuint) (b : GLfloat) :
    ∀ op ∈ clearOps fbi b, op.isGetMappedArray = false := by
  intro op hop
  simp only [clearOps, List.mem_cons, List.mem_singleton, List.not_mem_nil, or_false] at hop
  rcases hop with h | h | h | h <;> subst h <;> rfl

theorem frameOps_no_get (s : Impl) (tree : N3Tree) (i : Fin 2) :
    ∀ op ∈ frameOps s tree i, op.isGetMappedArray = false := by
  intro op hop
  simp only [frameOps, List.mem_append, List.mem_cons, List.mem_map, List.mem_singleton,
    List.not_mem_nil, or_false] at hop
  rcases hop with ((h1 | h1) | ⟨m, _, h1⟩) | h1
  · exact clearOps_no_get _ _ op h1
  · rcases h1 with h1 | h1 | h1 <;> subst h1 <;> rfl
  · subst h1; rfl
  · rcases h1 with h1 | h1 | h1 | h1 | h1 | h1 <;> subst h1 <;> rfl

/-- The predicate `Sized` only reads the tables, the names, the camera, the driver's storage
and the registrations and get-mapped-array calls of the log. -/
theorem sized_congr (W W1 : World) (hS : Sized W)
    (h1 : W1.impl_.cgr = W.impl_.cgr) (h2 : W1.impl_.ca = W.impl_.ca)
    (h3 : W1.impl_.rb = W.impl_.rb) (h4 : W1.impl_.depth_rb = W.impl_.depth_rb)
    (h5 : W1.impl_.depth_buf_rb = W.impl_.depth_buf_rb)
    (h6 : W1.impl_.camera = W.impl_.camera) (h7 : W1.gpu = W.gpu)
    (h8 : W1.log.filter Op.isRegister = W.log.filter Op.isRegister)
    (h9 : W1.log.filter Op.isGetMappedArray = W.log.filter Op.isGetMappedArray) :
    Sized W1 := by
  unfold Sized at hS ⊢
  rw [h1, h2, h3, h4, h5, h6, h7, h8, h9]
  exact hS

theorem bindings_none (cgr : Fin 4 → cudaGraphicsResource_t) (h : ∀ j, cgr j = none) :
    bindings cgr = [] := by
  simp [bindings, List.ofFn_succ, h]

theorem bindings_some (cgr : Fin 4 → cudaGraphicsResource_t)
    (h : ∀ j, (cgr j).isSome = true) : bindings cgr = [cgr 0, cgr 1, cgr 2, cgr 3] := by
  obtain ⟨r0, e0⟩ := Option.isSome_iff_exists.mp (h 0)
  obtain ⟨r1, e1⟩ := Option.isSome_iff_exists.mp (h 1)
  obtain ⟨r2, e2⟩ := Option.isSome_iff_exists.mp (h 2)
  obtain ⟨r3, e3⟩ := Option.isSome_iff_exists.mp (h 3)
  have e1s : cgr (Fin.succ 0) = some r1 := e1
  have e2s : cgr (Fin.succ (Fin.succ 0)) = some r2 := e2
  have e3s : cgr (Fin.succ (Fin.succ (Fin.succ 0))) = some r3 := e3
  have e3t : cgr (Fin.succ 2) = some r3 := e3
  simp [bindings, List.ofFn_succ, List.filter_cons, e0, e1, e2, e3, e1s, e2s, e3s, e3t]

/-- The state right after the first `start()`. -/
theorem ready_start_new (camera : Camera) (options : RenderOptions) (meshes : List Mesh)
    (u : Indeterminate) (g : Gpu) :
    Ready (VolumeRenderer.new camera options meshes u g).start := by
  have hst := start_of_not_started (Impl.new camera options meshes u) g rfl
  refine ⟨start_started _ _, ?_, ⟨g.nextName, ?_, ?_, ?_, ?_⟩, ?_, ?_, Or.inl ?_⟩
  · simp only [World.start, VolumeRenderer.new, hst]
    show 0 < 2
    decide
  · intro i; simp [World.start, VolumeRenderer.new, hst]
  · intro i; simp [World.start, VolumeRenderer.new, hst]
  · intro i; simp [World.start, VolumeRenderer.new, hst]
  · intro i; simp [World.start, VolumeRenderer.new, hst]
  · intro i op hop
    simp only [World.start, VolumeRenderer.new, hst, List.nil_append] at hop ⊢
    fin_cases i
    · exact List.mem_append_left _ (List.mem_append_right _ hop)
    · exact List.mem_append_right _ hop
  · simp only [World.start, VolumeRenderer.new, hst, List.nil_append]
    have e : bindings (Impl.new camera options meshes u).cgr = [] :=
      bindings_none _ (fun _ => rfl)
    rw [e]
    simp [liveAfter, attachOps]
  · intro j
    simp only [World.start, VolumeRenderer.new, hst]
    rfl

theorem ready_start (W : World) (hR : Ready W) : W.start = W := by
  simp [World.start, start_of_started _ _ hR.1]

theorem ready_render (W W1 : World) (hR : Ready W) (h : VolumeRenderer.render W = some W1) :
    Ready W1 := by
  obtain ⟨hs, hb, hn, ha, hl, hz⟩ := hR
  simp only [VolumeRenderer.render, Option.map_eq_some'] at h
  obtain ⟨r, hr, rfl⟩ := h
  obtain ⟨hlt, hc | ⟨tree, ht, hst, hc⟩⟩ := render_cases W.impl_ r hr
  · subst hc
    have hq := clearOps_quiet (W.impl_.fb ⟨W.impl_.buf_index, hlt⟩)
      W.impl_.options.background_brightness
    refine ⟨hs, hb, hn, fun i op hop => List.mem_append_left _ (ha i op hop), ?_, ?_⟩
    · show liveAfter (W.log ++ _) [] = _
      rw [liveAfter_append, hl]
      exact liveAfter_of_no_binding _ (fun op hop => ⟨(hq op hop).1, (hq op hop).2.1⟩) _
    · rcases hz with hz | hz
      · exact Or.inl hz
      · refine Or.inr (sized_congr W _ hz rfl rfl rfl rfl rfl rfl rfl ?_ ?_)
        · exact filter_append_quiet _ _ _ fun op hop => (hq op hop).1
        · exact filter_append_quiet _ _ _ (clearOps_no_get _ _)
  · subst hc
    have hq := frameOps_quiet W.impl_ tree ⟨W.impl_.buf_index, hlt⟩
    refine ⟨hs, ?_, hn, fun i op hop => List.mem_append_left _ (ha i op hop), ?_, ?_⟩
    · show W.impl_.buf_index ^^^ 1 < 2
      rw [xor_one _ hlt]
      omega
    · show liveAfter (W.log ++ _) [] = _
      rw [liveAfter_append, hl]
      exact liveAfter_of_no_binding _ (fun op hop => ⟨(hq op hop).1, (hq op hop).2.1⟩) _
    · rcases hz with hz | hz
      · exact Or.inl hz
      · refine Or.inr (sized_congr W _ hz rfl rfl rfl rfl rfl rfl rfl ?_ ?_)
        · exact filter_append_quiet _ _ _ fun op hop => (hq op hop).1
        · exact filter_append_quiet _ _ _ (frameOps_no_get _ _ _)

theorem unregisterAll_filters (cgr : Fin 4 → cudaGraphicsResource_t) :
    (unregisterAll cgr).filter Op.isRegister = [] ∧
    (unregisterAll cgr).filter Op.isGetMappedArray = [] := by
  constructor <;>
  · rw [List.filter_eq_nil_iff]
    intro op hop
    obtain ⟨r, rfl⟩ := mem_unregisterAll cgr op hop
    exact Bool.false_ne_true

theorem resize_filters (s : Impl) (g : Gpu) (width height : Int)
    (hne : ¬ (s.camera.width = width ∧ s.camera.height = height)) :
    (s.resize g width height).2.2.filter Op.isRegister =
      [ Op.cudaGraphicsGLRegisterImage ((s.resize g width height).1.cgr 0) (s.rb 0)
          GLenum.GL_RENDERBUFFER,
        Op.cudaGraphicsGLRegisterImage ((s.resize g width height).1.cgr 1) (s.depth_rb 0)
          GLenum.GL_RENDERBUFFER,
        Op.cudaGraphicsGLRegisterImage ((s.resize g width height).1.cgr 2) (s.rb 1)
          GLenum.GL_RENDERBUFFER,
        Op.cudaGraphicsGLRegisterImage ((s.resize g width height).1.cgr 3) (s.depth_rb 1)
          GLenum.GL_RENDERBUFFER ] ∧
    (s.resize g width height).2.2.filter Op.isGetMappedArray =
      [ Op.cudaGraphicsSubResourceGetMappedArray ((s.resize g width height).1.ca 0)
          ((s.resize g width height).1.cgr 0),
        Op.cudaGraphicsSubResourceGetMappedArray ((s.resize g width height).1.ca 1)
          ((s.resize g width height).1.cgr 1),
        Op.cudaGraphicsSubResourceGetMappedArray ((s.resize g width height).1.ca 2)
          ((s.resize g width height).1.cgr 2),
        Op.cudaGraphicsSubResourceGetMappedArray ((s.resize g width height).1.ca 3)
          ((s.resize g width height).1.cgr 3) ] := by
  have hu := unregisterAll_filters s.cgr
  rw [resize_ops s g width height hne, finRange_four]
  constructor
  · simp only [List.filter_append, hu.1]
    simp [setOps, List.filter_cons, Op.isRegister]
    exact ⟨rfl, rfl, rfl, rfl⟩
  · simp only [List.filter_append, hu.2]
    simp [setOps, List.filter_cons, Op.isGetMappedArray]

theorem resize_liveAfter (s : Impl) (g : Gpu) (width height : Int)
    (hne : ¬ (s.camera.width = width ∧ s.camera.height = height)) :
    liveAfter (s.resize g width height).2.2 (bindings s.cgr) =
      bindings (s.resize g width height).1.cgr := by
  rw [bindings_some _ (resize_cgr_isSome s g width height hne),
    resize_ops s g width height hne, finRange_four, unregisterAll_eq]
  simp only [List.append_assoc]
  rw [liveAfter_append, liveAfter_unregister_all]
  simp [setOps, liveAfter]
  exact ⟨rfl, rfl, rfl, rfl⟩

/-- A size-changing `resize` on a `Ready` renderer leaves the tables `Sized`. -/
theorem sized_resize (W : World) (width height : Int) (hR : Ready W)
    (hne : ¬ (W.impl_.camera.width = width ∧ W.impl_.camera.height = height)) :
    Sized (VolumeRenderer.resize W width height) := by
  obtain ⟨hs, hb, ⟨n, n1, n2, n3, n4⟩, ha, hl, hz⟩ := hR
  have hrest := resize_rest W.impl_ W.gpu width height hne
  have hi : (VolumeRenderer.resize W width height).impl_ =
      (W.impl_.resize W.gpu width height).1 := rfl
  have hg : (VolumeRenderer.resize W width height).gpu =
      (W.impl_.resize W.gpu width height).2.1 := rfl
  have hlog : (VolumeRenderer.resize W width height).log =
      W.log ++ (W.impl_.resize W.gpu width height).2.2 := rfl
  have hrb : (W.impl_.resize W.gpu width height).1.rb = W.impl_.rb := by rw [hrest]
  have hdrb : (W.impl_.resize W.gpu width height).1.depth_rb = W.impl_.depth_rb := by
    rw [hrest]
  have hdbrb : (W.impl_.resize W.gpu width height).1.depth_buf_rb = W.impl_.depth_buf_rb := by
    rw [hrest]
  have hcam : (W.impl_.resize W.gpu width height).1.camera =
      { width := width, height := height } := by rw [hrest]
  have hca : ∀ j, (W.impl_.resize W.gpu width height).1.ca j =
      getMappedArray ((W.impl_.resize W.gpu width height).1.cgr j) := by
    intro j; rw [hrest]
  obtain ⟨f1, f2⟩ := resize_filters W.impl_ W.gpu width height hne
  refine ⟨?_, ⟨W.log.filter Op.isRegister, ?_⟩, ⟨W.log.filter Op.isGetMappedArray, ?_⟩⟩
  · intro i
    obtain ⟨r0, r1, c0, c1, i0, i1, -, -, s0, s1⟩ :=
      resize_cgr W.impl_ W.gpu width height hne i
    obtain ⟨g0, g1, g2⟩ := resize_gpu_storage W.impl_ W.gpu width height hne n n1 n2 n3 i
    have d1 : W.impl_.rb i ≠ W.impl_.depth_rb i := by
      rw [n1 i, n2 i]; intro h; have h' : n + i.val = n + 2 + i.val := h; omega
    have d2 : W.impl_.rb i ≠ W.impl_.depth_buf_rb i := by
      rw [n1 i, n3 i]; intro h; have h' : n + i.val = n + 4 + i.val := h; omega
    have d3 : W.impl_.depth_rb i ≠ W.impl_.depth_buf_rb i := by
      rw [n2 i, n3 i]; intro h; have h' : n + 2 + i.val = n + 4 + i.val := h; omega
    refine ⟨r0, r1, ?_, ?_, ?_, ?_, ?_, ?_, ?_, ?_, ?_, ?_, ?_⟩
    · rw [hi]; exact c0
    · rw [hi]; exact c1
    · rw [hi, hca, c0]; rfl
    · rw [hi, hca, c1]; rfl
    · rw [hi, hrb]; exact i0
    · rw [hi, hdrb]; exact i1
    · rw [hi, hg, hrb, g0]; exact s0 d1 d2
    · rw [hi, hg, hdrb, g1]; exact s1 d3
    · rw [hi, hg, hrb, hcam]; exact g0
    · rw [hi, hg, hdrb, hcam]; exact g1
    · rw [hi, hg, hdbrb, hcam]; exact g2
  · rw [hlog, List.filter_append, f1, hi, hrb, hdrb]
  · rw [hlog, List.filter_append, f2, hi]

theorem ready_resize (W : World) (width height : Int) (hR : Ready W) :
    Ready (VolumeRenderer.resize W width height) := by
  by_cases hne : W.impl_.camera.width = width ∧ W.impl_.camera.height = height
  · have e : W.impl_.resize W.gpu width height = (W.impl_, W.gpu, []) := by
      simp [Impl.resize, hne]
    have e1 : VolumeRenderer.resize W width height = W := by
      simp [VolumeRenderer.resize, e]
    rw [e1]
    exact hR
  · have hz := sized_resize W width height hR hne
    obtain ⟨hs, hb, hn, ha, hl, -⟩ := hR
    have hrest := resize_rest W.impl_ W.gpu width height hne
    have hi : (VolumeRenderer.resize W width height).impl_ =
        (W.impl_.resize W.gpu width height).1 := rfl
    refine ⟨?_, ?_, ?_, ?_, ?_, Or.inr hz⟩
    · rw [hi, hrest]; exact hs
    · rw [hi, hrest]; exact hb
    · rw [hi, hrest]; exact hn
    · rw [hi, hrest]
      intro i op hop
      exact List.mem_append_left _ (ha i op hop)
    · show liveAfter (W.log ++ _) [] = _
      rw [liveAfter_append, hl]
      exact resize_liveAfter W.impl_ W.gpu width height hne

theorem ready_call (W W1 : World) (c : Call) (hR : Ready W) (h : W.call c = some W1) :
    Ready W1 := by
  cases c with
  | start =>
    simp only [World.call, Option.some.injEq] at h
    subst h
    rw [ready_start W hR]
    exact hR
  | set tree =>
    simp only [World.call, Option.some.injEq] at h
    subst h
    simp only [VolumeRenderer.set, ready_start W hR]
    exact hR
  | clear =>
    simp only [World.call, Option.some.injEq] at h
    subst h
    exact hR
  | resize width height =>
    simp only [World.call, Option.some.injEq] at h
    subst h
    exact ready_resize W width height hR
  | render => exact ready_render W W1 hR h

theorem ready_run (calls : List Call) : ∀ (W W1 : World), Ready W →
    World.run calls W = some W1 → Ready W1 := by
  induction calls with
  | nil =>
    intro W W1 hR h
    simp only [World.run, Option.some.injEq] at h
    subst h
    exact hR
  | cons c cs ih =>
    intro W W1 hR h
    simp only [World.run, Option.bind_eq_some] at h
    obtain ⟨W2, h2, h3⟩ := h
    exact ih W2 W1 (ready_call W W2 c hR h2) h3

theorem sized_render (W W1 : World) (hz : Sized W) (h : VolumeRenderer.render W = some W1) :
    Sized W1 := by
  simp only [VolumeRenderer.render, Option.map_eq_some'] at h
  obtain ⟨r, hr, rfl⟩ := h
  obtain ⟨hlt, hc | ⟨tree, ht, hst, hc⟩⟩ := render_cases W.impl_ r hr
  · subst hc
    refine sized_congr W _ hz rfl rfl rfl rfl rfl rfl rfl ?_ ?_
    · exact filter_append_quiet _ _ _ fun op hop => (clearOps_quiet _ _ op hop).1
    · exact filter_append_quiet _ _ _ (clearOps_no_get _ _)
  · subst hc
    refine sized_congr W _ hz rfl rfl rfl rfl rfl rfl rfl ?_ ?_
    · exact filter_append_quiet _ _ _ fun op hop => (frameOps_quiet _ _ _ op hop).1
    · exact filter_append_quiet _ _ _ (frameOps_no_get _ _ _)

theorem sized_call (W W1 : World) (c : Call) (hR : Ready W) (hz : Sized W)
    (h : W.call c = some W1) : Sized W1 := by
  cases c with
  | start =>
    simp only [World.call, Option.some.injEq] at h
    subst h
    rw [ready_start W hR]
    exact hz
  | set tree =>
    simp only [World.call, Option.some.injEq] at h
    subst h
    simp only [VolumeRenderer.set, ready_start W hR]
    exact hz
  | clear =>
    simp only [World.call, Option.some.injEq] at h
    subst h
    exact hz
  | resize width height =>
    simp only [World.call, Option.some.injEq] at h
    subst h
    by_cases hne : W.impl_.camera.width = width ∧ W.impl_.camera.height = height
    · have e : W.impl_.resize W.gpu width height = (W.impl_, W.gpu, []) := by
        simp [Impl.resize, hne]
      have e1 : VolumeRenderer.resize W width height = W := by
        simp [VolumeRenderer.resize, e]
      rw [e1]
      exact hz
    · exact sized_resize W width height hR hne
  | render => exact sized_render W W1 hz h

/-- Once the tables are `Sized`, they stay so through every call. -/
theorem sized_run (calls : List Call) : ∀ (W W1 : World), Ready W → Sized W →
    World.run calls W = some W1 → Sized W1 := by
  induction calls with
  | nil =>
    intro W W1 _ hz h
    simp only [World.run, Option.some.injEq] at h
    subst h
    exact hz
  | cons c cs ih =>
    intro W W1 hR hz h
    simp only [World.run, Option.bind_eq_some] at h
    obtain ⟨W2, h2, h3⟩ := h
    exact ih W2 W1 (ready_call W W2 c hR h2) (sized_call W W2 c hR hz h2) h3

/-! ### Surface sizes -/

/-- C11 as stated fails: directly after `start()` the surfaces have no storage
(size 0 x 0) while the camera is 256 x 256, and a `resize(256, 256)`, skipped as
a no-op, leaves them so. -/
theorem surfaces_unsized_after_start :
    exampleStartedWorld.impl_.started_ = true ∧
    exampleStartedWorld.impl_.camera = { width := 256, height := 256 } ∧
    exampleStartedWorld.gpu.dims (exampleStartedWorld.impl_.rb 0) = (0, 0) ∧
    (VolumeRenderer.resize exampleStartedWorld 256 256).log = exampleStartedWorld.log ∧
    (VolumeRenderer.resize exampleStartedWorld 256 256).impl_.camera =
      { width := 256, height := 256 } ∧
    (VolumeRenderer.resize exampleStartedWorld 256 256).gpu.dims
      ((VolumeRenderer.resize exampleStartedWorld 256 256).impl_.rb 0) = (0, 0) := by
  refine ⟨rfl, rfl, rfl, rfl, rfl, rfl⟩

/-- C11, amended: in every state reached, by any sequence of `start`, `set`,
`clear`, `resize` and `render` calls, after a size-changing `resize` that
followed `start()`, all six surfaces (three per Surface Set) have the
renderer's current size (camera.width, camera.height), so both sets have
identical dimensions; this includes states after a later `resize` that is
skipped as a no-op. -/
theorem sets_sized (camera : Camera) (options : RenderOptions) (meshes : List Mesh)
    (u : Indeterminate) (g : Gpu) (calls1 calls2 : List Call) (W1 W2 : World)
    (width height : Int)
    (h1 : World.run calls1 (VolumeRenderer.new camera options meshes u g).start = some W1)
    (hne : ¬ (W1.impl_.camera.width = width ∧ W1.impl_.camera.height = height))
    (h2 : World.run calls2 (VolumeRenderer.resize W1 width height) = some W2) :
    ∀ i : Fin 2,
      W2.gpu.dims (W2.impl_.rb i) = (W2.impl_.camera.width, W2.impl_.camera.height) ∧
      W2.gpu.dims (W2.impl_.depth_rb i) = (W2.impl_.camera.width, W2.impl_.camera.height) ∧
      W2.gpu.dims (W2.impl_.depth_buf_rb i) =
        (W2.impl_.camera.width, W2.impl_.camera.height) := by
  have hR1 := ready_run calls1 _ W1 (ready_start_new camera options meshes u g) h1
  have hz := sized_run calls2 _ W2 (ready_resize W1 width height hR1)
    (sized_resize W1 width height hR1 hne) h2
  intro i
  obtain ⟨r0, r1, -, -, -, -, -, -, -, -, g0, g1, g2⟩ := hz.1 i
  simp only [Gpu.dims, g0, g1, g2, and_self]

theorem sets_sized_witness :
    World.run [] (VolumeRenderer.new { width := 256, height := 256 }
        { background_brightness := 1 / 2 } [] exampleIndeterminate exampleGpu).start =
      some exampleStartedWorld ∧
    ¬ (exampleStartedWorld.impl_.camera.width = 800 ∧
       exampleStartedWorld.impl_.camera.height = 600) ∧
    World.run [Call.set 7] (VolumeRenderer.resize exampleStartedWorld 800 600) =
      some exampleWorld ∧
    ∀ i : Fin 2,
      exampleWorld.gpu.dims (exampleWorld.impl_.rb i) = (exampleWorld.impl_.camera.width, exampleWorld.impl_.camera.height) ∧
      exampleWorld.gpu.dims (exampleWorld.impl_.depth_rb i) = (exampleWorld.impl_.camera.width, exampleWorld.impl_.camera.height) ∧
      exampleWorld.gpu.dims (exampleWorld.impl_.depth_buf_rb i) =
        (exampleWorld.impl_.camera.width, exampleWorld.impl_.camera.height) :=
  ⟨rfl, by decide, rfl,
   sets_sized { width := 256, height := 256 } { background_brightness := 1 / 2 } []
     exampleIndeterminate exampleGpu [] [Call.set 7] exampleStartedWorld exampleWorld 800 600
     rfl (by decide) rfl⟩


/-! ### One Surface Set per frame -/

theorem sized_slot (W : World) (hz : Sized W) (j : Fin 4) :
    ∃ r : GraphicsResource, W.impl_.cgr j = some r ∧ W.impl_.ca j = some ⟨r⟩ ∧
      r.storage = W.gpu.storage r.image := by
  obtain ⟨a0, a1, ca0, ca1, aa0, aa1, ia0, ia1, sa0, sa1, -⟩ := hz.1 0
  obtain ⟨b0, b1, cb0, cb1, ab0, ab1, ib0, ib1, sb0, sb1, -⟩ := hz.1 1
  fin_cases j
  · exact ⟨a0, ca0, aa0, by rw [ia0]; exact sa0⟩
  · exact ⟨a1, ca1, aa1, by rw [ia1]; exact sa1⟩
  · exact ⟨b0, cb0, ab0, by rw [ib0]; exact sb0⟩
  · exact ⟨b1, cb1, ab1, by rw [ib1]; exact sb1⟩

/-- C15: once a size-changing `resize` has run on a started renderer, in every
later state reached by `set`, `clear`, `render` and `resize` calls (and
`start`): every entry of the binding table is a non-null binding that is live
in the log, registered with the storage its image still has; the live bindings
are exactly the four entries; entry `j` of the array table is the array of
binding `j`; the four most recent register and get-mapped-array calls of the
log are the ones that produced the tables; hence a `render()` with an octree
bound maps two live bindings (one map, one launch) and launches on the arrays
of the colour and depth-surrogate renderbuffers of the active set, whose
storage is the current one, of the camera's size. -/
theorem bindings_current (camera : Camera) (options : RenderOptions) (meshes : List Mesh)
    (u : Indeterminate) (g : Gpu) (calls1 calls2 : List Call) (W1 W2 : World)
    (width height : Int)
    (h1 : World.run calls1 (VolumeRenderer.new camera options meshes u g).start = some W1)
    (hne : ¬ (W1.impl_.camera.width = width ∧ W1.impl_.camera.height = height))
    (h2 : World.run calls2 (VolumeRenderer.resize W1 width height) = some W2) :
    (∀ j : Fin 4, ∃ r : GraphicsResource,
      W2.impl_.cgr j = some r ∧ W2.impl_.ca j = some ⟨r⟩ ∧
      some r ∈ liveAfter W2.log [] ∧ r.storage = W2.gpu.storage r.image) ∧
    liveAfter W2.log [] = [W2.impl_.cgr 0, W2.impl_.cgr 1, W2.impl_.cgr 2, W2.impl_.cgr 3] ∧
    (∃ earlier : List Op, W2.log.filter Op.isRegister = earlier ++
      [ Op.cudaGraphicsGLRegisterImage (W2.impl_.cgr 0) (W2.impl_.rb 0) GLenum.GL_RENDERBUFFER,
        Op.cudaGraphicsGLRegisterImage (W2.impl_.cgr 1) (W2.impl_.depth_rb 0)
          GLenum.GL_RENDERBUFFER,
        Op.cudaGraphicsGLRegisterImage (W2.impl_.cgr 2) (W2.impl_.rb 1) GLenum.GL_RENDERBUFFER,
        Op.cudaGraphicsGLRegisterImage (W2.impl_.cgr 3) (W2.impl_.depth_rb 1)
          GLenum.GL_RENDERBUFFER ]) ∧
    (∃ earlier : List Op, W2.log.filter Op.isGetMappedArray = earlier ++
      [ Op.cudaGraphicsSubResourceGetMappedArray (W2.impl_.ca 0) (W2.impl_.cgr 0),
        Op.cudaGraphicsSubResourceGetMappedArray (W2.impl_.ca 1) (W2.impl_.cgr 1),
        Op.cudaGraphicsSubResourceGetMappedArray (W2.impl_.ca 2) (W2.impl_.cgr 2),
        Op.cudaGraphicsSubResourceGetMappedArray (W2.impl_.ca 3) (W2.impl_.cgr 3) ]) ∧
    (∀ tree, W2.impl_.tree = some tree →
      ∃ (hlt : W2.impl_.buf_index < 2) (r0 r1 : GraphicsResource),
        W2.impl_.render = some
          ({ W2.impl_ with
               camera := W2.impl_.camera._update,
               buf_index := W2.impl_.buf_index ^^^ 1 },
           frameOps W2.impl_ tree ⟨W2.impl_.buf_index, hlt⟩) ∧
        Op.cudaGraphicsMapResources 2 [some r0, some r1] W2.impl_.stream ∈
          frameOps W2.impl_ tree ⟨W2.impl_.buf_index, hlt⟩ ∧
        Op.launch_renderer tree W2.impl_.camera._update W2.impl_.options
            (some ⟨r0⟩) (some ⟨r1⟩) W2.impl_.stream ∈
          frameOps W2.impl_ tree ⟨W2.impl_.buf_index, hlt⟩ ∧
        (frameOps W2.impl_ tree ⟨W2.impl_.buf_index, hlt⟩).countP Op.isMap = 1 ∧
        (frameOps W2.impl_ tree ⟨W2.impl_.buf_index, hlt⟩).countP Op.isLaunch = 1 ∧
        some r0 ∈ liveAfter W2.log [] ∧ some r1 ∈ liveAfter W2.log [] ∧
        r0.image = W2.impl_.rb ⟨W2.impl_.buf_index, hlt⟩ ∧
        r1.image = W2.impl_.depth_rb ⟨W2.impl_.buf_index, hlt⟩ ∧
        r0.storage = W2.gpu.storage r0.image ∧
        r1.storage = W2.gpu.storage r1.image ∧
        r0.storage =
          some ⟨GLenum.GL_RGBA8, W2.impl_.camera.width, W2.impl_.camera.height⟩ ∧
        r1.storage =
          some ⟨GLenum.GL_R32F, W2.impl_.camera.width, W2.impl_.camera.height⟩) := by
  have hR1 := ready_run calls1 _ W1 (ready_start_new camera options meshes u g) h1
  have hRr := ready_resize W1 width height hR1
  have hz := sized_run calls2 _ W2 hRr (sized_resize W1 width height hR1 hne) h2
  obtain ⟨hs, hb, hn, ha, hl, -⟩ := ready_run calls2 _ W2 hRr h2
  have hsome : ∀ j, (W2.impl_.cgr j).isSome = true := by
    intro j
    obtain ⟨r, hr, -⟩ := sized_slot W2 hz j
    rw [hr]; rfl
  have hlive : liveAfter W2.log [] =
      [W2.impl_.cgr 0, W2.impl_.cgr 1, W2.impl_.cgr 2, W2.impl_.cgr 3] := by
    rw [hl, bindings_some _ hsome]
  have hmem : ∀ j, W2.impl_.cgr j ∈ liveAfter W2.log [] := by
    intro j
    rw [hlive]
    fin_cases j <;> simp
  refine ⟨?_, hlive, hz.2.1, hz.2.2, ?_⟩
  · intro j
    obtain ⟨r, hr, har, hst⟩ := sized_slot W2 hz j
    exact ⟨r, hr, har, by rw [← hr]; exact hmem j, hst⟩
  · intro tree ht
    obtain ⟨r0, r1, c0, c1, a0, a1, i0, i1, s0, s1, g0, g1, -⟩ :=
      hz.1 ⟨W2.impl_.buf_index, hb⟩
    refine ⟨hb, r0, r1, render_bound W2.impl_ tree hb ht hs, ?_, ?_, ?_, ?_, ?_, ?_,
      i0, i1, ?_, ?_, ?_, ?_⟩
    · simp [frameOps, c0, c1]
    · simp [frameOps, a0, a1]
    · simp [frameOps, clearOps, List.countP_cons, List.countP_append, Op.isMap,
        List.countP_eq_zero]
    · simp [frameOps, clearOps, List.countP_cons, List.countP_append, Op.isLaunch,
        List.countP_eq_zero]
    · rw [← c0]; exact hmem _
    · rw [← c1]; exact hmem _
    · rw [i0]; exact s0
    · rw [i1]; exact s1
    · rw [s0]; exact g0
    · rw [s1]; exact g1

theorem bindings_current_witness :
    World.run [] (VolumeRenderer.new { width := 256, height := 256 }
        { background_brightness := 1 / 2 } [] exampleIndeterminate exampleGpu).start =
      some exampleStartedWorld ∧
    ¬ (exampleStartedWorld.impl_.camera.width = 800 ∧
       exampleStartedWorld.impl_.camera.height = 600) ∧
    World.run [Call.set 7] (VolumeRenderer.resize exampleStartedWorld 800 600) =
      some exampleWorld ∧
    (
    (∀ j : Fin 4, ∃ r : GraphicsResource,
      exampleWorld.impl_.cgr j = some r ∧ exampleWorld.impl_.ca j = some ⟨r⟩ ∧
      some r ∈ liveAfter exampleWorld.log [] ∧ r.storage = exampleWorld.gpu.storage r.image) ∧
    liveAfter exampleWorld.log [] = [exampleWorld.impl_.cgr 0, exampleWorld.impl_.cgr 1, exampleWorld.impl_.cgr 2, exampleWorld.impl_.cgr 3] ∧
    (∃ earlier : List Op, exampleWorld.log.filter Op.isRegister = earlier ++
      [ Op.cudaGraphicsGLRegisterImage (exampleWorld.impl_.cgr 0) (exampleWorld.impl_.rb 0) GLenum.GL_RENDERBUFFER,
        Op.cudaGraphicsGLRegisterImage (exampleWorld.impl_.cgr 1) (exampleWorld.impl_.depth_rb 0)
          GLenum.GL_RENDERBUFFER,
        Op.cudaGraphicsGLRegisterImage (exampleWorld.impl_.cgr 2) (exampleWorld.impl_.rb 1) GLenum.GL_RENDERBUFFER,
        Op.cudaGraphicsGLRegisterImage (exampleWorld.impl_.cgr 3) (exampleWorld.impl_.depth_rb 1)
          GLenum.GL_RENDERBUFFER ]) ∧
    (∃ earlier : List Op, exampleWorld.log.filter Op.isGetMappedArray = earlier ++
      [ Op.cudaGraphicsSubResourceGetMappedArray (exampleWorld.impl_.ca 0) (exampleWorld.impl_.cgr 0),
        Op.cudaGraphicsSubResourceGetMappedArray (exampleWorld.impl_.ca 1) (exampleWorld.impl_.cgr 1),
        Op.cudaGraphicsSubResourceGetMappedArray (exampleWorld.impl_.ca 2) (exampleWorld.impl_.cgr 2),
        Op.cudaGraphicsSubResourceGetMappedArray (exampleWorld.impl_.ca 3) (exampleWorld.impl_.cgr 3) ]) ∧
    (∀ tree, exampleWorld.impl_.tree = some tree →
      ∃ (hlt : exampleWorld.impl_.buf_index < 2) (r0 r1 : GraphicsResource),
        exampleWorld.impl_.render = some
          ({ exampleWorld.impl_ with
               camera := exampleWorld.impl_.camera._update,
               buf_index := exampleWorld.impl_.buf_index ^^^ 1 },
           frameOps exampleWorld.impl_ tree ⟨exampleWorld.impl_.buf_index, hlt⟩) ∧
        Op.cudaGraphicsMapResources 2 [some r0, some r1] exampleWorld.impl_.stream ∈
          frameOps exampleWorld.impl_ tree ⟨exampleWorld.impl_.buf_index, hlt⟩ ∧
        Op.launch_renderer tree exampleWorld.impl_.camera._update exampleWorld.impl_.options
            (some ⟨r0⟩) (some ⟨r1⟩) exampleWorld.impl_.stream ∈
          frameOps exampleWorld.impl_ tree ⟨exampleWorld.impl_.buf_index, hlt⟩ ∧
        (frameOps exampleWorld.impl_ tree ⟨exampleWorld.impl_.buf_index, hlt⟩).countP Op.isMap = 1 ∧
        (frameOps exampleWorld.impl_ tree ⟨exampleWorld.impl_.buf_index, hlt⟩).countP Op.isLaunch = 1 ∧
        some r0 ∈ liveAfter exampleWorld.log [] ∧ some r1 ∈ liveAfter exampleWorld.log [] ∧
        r0.image = exampleWorld.impl_.rb ⟨exampleWorld.impl_.buf_index, hlt⟩ ∧
        r1.image = exampleWorld.impl_.depth_rb ⟨exampleWorld.impl_.buf_index, hlt⟩ ∧
        r0.storage = exampleWorld.gpu.storage r0.image ∧
        r1.storage = exampleWorld.gpu.storage r1.image ∧
        r0.storage =
          some ⟨GLenum.GL_RGBA8, exampleWorld.impl_.camera.width, exampleWorld.impl_.camera.height⟩ ∧
        r1.storage =
          some ⟨GLenum.GL_R32F, exampleWorld.impl_.camera.width, exampleWorld.impl_.camera.height⟩)) :=
  ⟨rfl, by decide, rfl,
   bindings_current { width := 256, height := 256 } { background_brightness := 1 / 2 } []
     exampleIndeterminate exampleGpu [] [Call.set 7] exampleStartedWorld exampleWorld 800 600
     rfl (by decide) rfl⟩

/-! ### Failing device calls -/

/-- The calls issued stop at the first fail-fast call that reports a failure;
a failure reported by an earlier call that is not fail-fast changes nothing. -/
theorem issued_first_failure (fails : Nat → Bool) :
    ∀ (ops : List Op) (k0 k : Nat) (op : Op), ops[k]? = some op → op.failsFast = true →
      fails (k0 + k) = true →
      (∀ j o, j < k → ops[j]? = some o → o.failsFast = true → fails (k0 + j) = false) →
      issued fails k0 ops = (ops.take (k + 1), false) := by
  intro ops
  induction ops with
  | nil => intro k0 k op h; simp at h
  | cons a ops ih =>
    intro k0 k op h hc hf hfirst
    cases k with
    | zero =>
      simp only [List.getElem?_cons_zero, Option.some.injEq] at h
      subst h
      have hf0 : fails k0 = true := hf
      simp [issued, hc, hf0]
    | succ k =>
      simp only [List.getElem?_cons_succ] at h
      have h0 : (a.failsFast && fails k0) = false := by
        cases hfa : a.failsFast
        · rfl
        · have h1 : fails k0 = false := hfirst 0 a (by omega) (List.getElem?_cons_zero) hfa
          rw [h1]
          rfl
      have ih1 := ih (k0 + 1) k op h hc (by rw [← hf]; congr 1; omega)
        (fun j o hj hjo hfo => by
          rw [← hfirst (j + 1) o (by omega) (by simpa using hjo) hfo]; congr 1; omega)
      simp [issued, h0, ih1]

theorem issued_no_failure (fails : Nat → Bool) (h : ∀ j, fails j = false) :
    ∀ (ops : List Op) (k0 : Nat), issued fails k0 ops = (ops, true) := by
  intro ops
  induction ops with
  | nil => intro k0; rfl
  | cons a ops ih => intro k0; simp [issued, h, ih]

/-- In a list split as `pre ++ a :: post` where only `a` satisfies `q`, a
position that satisfies `q` is the position of `a`. -/
theorem index_of_only (q : Op → Bool) (pre post : List Op) (a op : Op) (k : Nat)
    (hpre : ∀ o ∈ pre, q o = false) (hpost : ∀ o ∈ post, q o = false)
    (h : (pre ++ a :: post)[k]? = some op) (hq : q op = true) : k = pre.length := by
  rcases Nat.lt_trichotomy k pre.length with hlt | heq | hgt
  · rw [List.getElem?_append_left hlt] at h
    rw [hpre op (List.getElem?_mem h)] at hq
    cases hq
  · exact heq
  · rw [List.getElem?_append_right (by omega)] at h
    obtain ⟨m, hm⟩ : ∃ m, k - pre.length = m + 1 := ⟨k - pre.length - 1, by omega⟩
    rw [hm, List.getElem?_cons_succ] at h
    rw [hpost op (List.getElem?_mem h)] at hq
    cases hq

theorem take_split (pre post : List Op) (a : Op) :
    (pre ++ a :: post).take (pre.length + 1) = pre ++ [a] := by
  induction pre with
  | nil => rfl
  | cons b pre ih => simp [ih]

/-- The calls of a frame up to the map. -/
theorem frameOps_split_map (s : Impl) (tree : N3Tree) (i : Fin 2) :
    frameOps s tree i =
      (clearOps (s.fb i) s.options.background_brightness ++
        [ Op.camera_update, Op.glDepthMask true,
          Op.glBindFramebuffer GLenum.GL_FRAMEBUFFER (s.fb i) ] ++
        s.meshes.map Op.mesh_draw ++ [Op.glBindFramebuffer GLenum.GL_FRAMEBUFFER 0]) ++
      Op.cudaGraphicsMapResources 2 [s.cgr (slot0 i), s.cgr (slot1 i)] s.stream ::
      [ Op.launch_renderer tree s.camera._update s.options (s.ca (slot0 i)) (s.ca (slot1 i))
          s.stream,
        Op.cudaGraphicsUnmapResources 2 [s.cgr (slot0 i), s.cgr (slot1 i)] s.stream,
        Op.glNamedFramebufferReadBuffer (s.fb i) GLenum.GL_COLOR_ATTACHMENT0,
        Op.glBlitNamedFramebuffer (s.fb i) 0 0 0 s.camera._update.width s.camera._update.height
          0 s.camera._update.height s.camera._update.width 0
          GLenum.GL_COLOR_BUFFER_BIT GLenum.GL_NEAREST ] := by
  simp [frameOps]

/-- The calls of a frame up to the unmap. -/
theorem frameOps_split_unmap (s : Impl) (tree : N3Tree) (i : Fin 2) :
    frameOps s tree i =
      (clearOps (s.fb i) s.options.background_brightness ++
        [ Op.camera_update, Op.glDepthMask true,
          Op.glBindFramebuffer GLenum.GL_FRAMEBUFFER (s.fb i) ] ++
        s.meshes.map Op.mesh_draw ++
        [ Op.glBindFramebuffer GLenum.GL_FRAMEBUFFER 0,
          Op.cudaGraphicsMapResources 2 [s.cgr (slot0 i), s.cgr (slot1 i)] s.stream,
          Op.launch_renderer tree s.camera._update s.options (s.ca (slot0 i))
            (s.ca (slot1 i)) s.stream ]) ++
      Op.cudaGraphicsUnmapResources 2 [s.cgr (slot0 i), s.cgr (slot1 i)] s.stream ::
      [ Op.glNamedFramebufferReadBuffer (s.fb i) GLenum.GL_COLOR_ATTACHMENT0,
        Op.glBlitNamedFramebuffer (s.fb i) 0 0 0 s.camera._update.width s.camera._update.height
          0 s.camera._update.height s.camera._update.width 0
          GLenum.GL_COLOR_BUFFER_BIT GLenum.GL_NEAREST ] := by
  simp [frameOps]

/-- What precedes the map in a frame: no map, unmap, launch or blit. -/
theorem frame_head_plain (s : Impl) (i : Fin 2) :
    ∀ o ∈ clearOps (s.fb i) s.options.background_brightness ++
        [ Op.camera_update, Op.glDepthMask true,
          Op.glBindFramebuffer GLenum.GL_FRAMEBUFFER (s.fb i) ] ++
        s.meshes.map Op.mesh_draw ++ [Op.glBindFramebuffer GLenum.GL_FRAMEBUFFER 0],
      o.isMap = false ∧ o.isUnmap = false ∧ o.isLaunch = false ∧ o.isBlit = false ∧
      o.failsFast = false := by
  intro o ho
  simp only [clearOps, List.mem_append, List.mem_cons, List.mem_map, List.mem_singleton,
    List.not_mem_nil, or_false] at ho
  rcases ho with ((h1 | h1) | ⟨m, _, h1⟩) | h1
  · rcases h1 with h1 | h1 | h1 | h1 <;> subst h1 <;> exact ⟨rfl, rfl, rfl, rfl, rfl⟩
  · rcases h1 with h1 | h1 | h1 <;> subst h1 <;> exact ⟨rfl, rfl, rfl, rfl, rfl⟩
  · subst h1; exact ⟨rfl, rfl, rfl, rfl, rfl⟩
  · subst h1; exact ⟨rfl, rfl, rfl, rfl, rfl⟩

/-- The calls of a frame up to the kernel launch. -/
theorem frameOps_split_launch (s : Impl) (tree : N3Tree) (i : Fin 2) :
    frameOps s tree i =
      (clearOps (s.fb i) s.options.background_brightness ++
        [ Op.camera_update, Op.glDepthMask true,
          Op.glBindFramebuffer GLenum.GL_FRAMEBUFFER (s.fb i) ] ++
        s.meshes.map Op.mesh_draw ++
        [ Op.glBindFramebuffer GLenum.GL_FRAMEBUFFER 0,
          Op.cudaGraphicsMapResources 2 [s.cgr (slot0 i), s.cgr (slot1 i)] s.stream ]) ++
      Op.launch_renderer tree s.camera._update s.options (s.ca (slot0 i)) (s.ca (slot1 i))
          s.stream ::
      [ Op.cudaGraphicsUnmapResources 2 [s.cgr (slot0 i), s.cgr (slot1 i)] s.stream,
        Op.glNamedFramebufferReadBuffer (s.fb i) GLenum.GL_COLOR_ATTACHMENT0,
        Op.glBlitNamedFramebuffer (s.fb i) 0 0 0 s.camera._update.width s.camera._update.height
          0 s.camera._update.height s.camera._update.width 0
          GLenum.GL_COLOR_BUFFER_BIT GLenum.GL_NEAREST ] := by
  simp [frameOps]

/-- What precedes the launch in a frame: no launch, unmap or blit. -/
theorem frame_to_map_plain (s : Impl) (i : Fin 2) :
    ∀ o ∈ clearOps (s.fb i) s.options.background_brightness ++
        [ Op.camera_update, Op.glDepthMask true,
          Op.glBindFramebuffer GLenum.GL_FRAMEBUFFER (s.fb i) ] ++
        s.meshes.map Op.mesh_draw ++
        [ Op.glBindFramebuffer GLenum.GL_FRAMEBUFFER 0,
          Op.cudaGraphicsMapResources 2 [s.cgr (slot0 i), s.cgr (slot1 i)] s.stream ],
      o.isLaunch = false ∧ o.isUnmap = false ∧ o.isBlit = false := by
  intro o ho
  rcases List.mem_append.mp ho with h1 | h1
  · have h2 := frame_head_plain s i o (List.mem_append_left _ h1)
    exact ⟨h2.2.2.1, h2.2.1, h2.2.2.2.1⟩
  · simp only [List.mem_cons, List.mem_singleton, List.not_mem_nil, or_false] at h1
    rcases h1 with h1 | h1 <;> subst h1 <;> exact ⟨rfl, rfl, rfl⟩

/-- What precedes the unmap in a frame: no unmap or blit. -/
theorem frame_to_launch_plain (s : Impl) (tree : N3Tree) (i : Fin 2) :
    ∀ o ∈ clearOps (s.fb i) s.options.background_brightness ++
        [ Op.camera_update, Op.glDepthMask true,
          Op.glBindFramebuffer GLenum.GL_FRAMEBUFFER (s.fb i) ] ++
        s.meshes.map Op.mesh_draw ++
        [ Op.glBindFramebuffer GLenum.GL_FRAMEBUFFER 0,
          Op.cudaGraphicsMapResources 2 [s.cgr (slot0 i), s.cgr (slot1 i)] s.stream,
          Op.launch_renderer tree s.camera._update s.options (s.ca (slot0 i))
            (s.ca (slot1 i)) s.stream ],
      o.isUnmap = false ∧ o.isBlit = false := by
  intro o ho
  rcases List.mem_append.mp ho with h1 | h1
  · have h2 := frame_head_plain s i o (List.mem_append_left _ h1)
    exact ⟨h2.2.1, h2.2.2.2.1⟩
  · simp only [List.mem_cons, List.mem_singleton, List.not_mem_nil, or_false] at h1
    rcases h1 with h1 | h1 | h1 <;> subst h1 <;> exact ⟨rfl, rfl⟩

/-- On the scenario renderer, when the kernel launch (call number 9 of the
frame) is the first call to report a failure, `render()` stops there: ten
calls are issued, the launch last, neither the unmap nor the blit among them,
and there is no state after the call. -/
theorem render_launch_failure_stops :
    ((frameOps exampleReady 7 0)[9]?).map Op.isLaunch = some true ∧
    exampleReady.renderChecked (fun j => j == 9) =
      some ((frameOps exampleReady 7 0).take 10, none) ∧
    (frameOps exampleReady 7 0).length = 13 ∧
    ((frameOps exampleReady 7 0).take 10).countP Op.isUnmap = 0 ∧
    ((frameOps exampleReady 7 0).take 10).countP Op.isBlit = 0 := by
  refine ⟨rfl, ?_, rfl, rfl, rfl⟩
  simp only [Impl.renderChecked]
  rw [render_bound exampleReady 7 (by decide) rfl rfl]
  rfl

/-- C12: every unregister, register, map, get-mapped-array, kernel-launch and
unmap call is fail-fast.  When call number `k` of `resize()` or `render()` is
such a call, reports a failure, and no fail-fast call before it did, the
operation stops at it: the calls issued are exactly those up to and including
the failing one, and there is no state after the call (the index is never
toggled).  In `render()` no launch and no blit follow a failed map, no unmap
and no blit follow a failed launch, and no blit follows a failed unmap.  With
no failure the calls and the state are those of `resize()` and `render()`. -/
theorem checked_calls_fail_fast (s : Impl) (g : Gpu) (width height : Int)
    (fails : Nat → Bool) (k : Nat) (hf : fails k = true) :
    (∀ op : Op, op.isUnregister = true ∨ op.isRegister = true ∨ op.isMap = true ∨
        op.isGetMappedArray = true ∨ op.isLaunch = true ∨ op.isUnmap = true →
      op.failsFast = true) ∧
    (∀ op : Op, (Impl.resize s g width height).2.2[k]? = some op → op.failsFast = true →
      (∀ j o, j < k → (Impl.resize s g width height).2.2[j]? = some o →
        o.failsFast = true → fails j = false) →
      Impl.resizeChecked s g width height fails =
        ((Impl.resize s g width height).2.2.take (k + 1), none)) ∧
    (∀ (r : Impl × List Op) (op : Op), Impl.render s = some r → r.2[k]? = some op →
      op.failsFast = true →
      (∀ j o, j < k → r.2[j]? = some o → o.failsFast = true → fails j = false) →
      Impl.renderChecked s fails = some (r.2.take (k + 1), none) ∧
      (op.isMap = true → ∀ o ∈ r.2.take (k + 1), o.isLaunch = false ∧ o.isBlit = false) ∧
      (op.isLaunch = true → ∀ o ∈ r.2.take (k + 1), o.isUnmap = false ∧ o.isBlit = false) ∧
      (op.isUnmap = true → ∀ o ∈ r.2.take (k + 1), o.isBlit = false)) ∧
    (∀ quiet : Nat → Bool, (∀ j, quiet j = false) →
      Impl.resizeChecked s g width height quiet =
        ((Impl.resize s g width height).2.2,
         some ((Impl.resize s g width height).1, (Impl.resize s g width height).2.1)) ∧
      Impl.renderChecked s quiet = (Impl.render s).map fun r => (r.2, some r.1)) := by
  have hf0 : fails (0 + k) = true := by rw [Nat.zero_add]; exact hf
  refine ⟨?_, ?_, ?_, ?_⟩
  · intro op h
    cases op <;> simp_all [Op.isUnregister, Op.isRegister, Op.isMap, Op.isGetMappedArray,
      Op.isUnmap, Op.isLaunch, Op.isChecked, Op.failsFast]
  · intro op hk hc hfirst
    have hfirst0 : ∀ j o, j < k → (Impl.resize s g width height).2.2[j]? = some o →
        o.failsFast = true → fails (0 + j) = false := by
      intro j o hj hjo hfo; rw [Nat.zero_add]; exact hfirst j o hj hjo hfo
    simp only [Impl.resizeChecked,
      issued_first_failure fails _ 0 k op hk hc hf0 hfirst0]
    rfl
  · intro r op hr hk hc hfirst
    have hfirst0 : ∀ j o, j < k → r.2[j]? = some o →
        o.failsFast = true → fails (0 + j) = false := by
      intro j o hj hjo hfo; rw [Nat.zero_add]; exact hfirst j o hj hjo hfo
    have hi := issued_first_failure fails r.2 0 k op hk hc hf0 hfirst0
    refine ⟨?_, ?_, ?_, ?_⟩
    · simp only [Impl.renderChecked, hr, Option.map_some', hi]
      rfl
    · intro hm o ho
      obtain ⟨hlt, hcase | ⟨tree, ht, hs, hcase⟩⟩ := render_cases s r hr
      · exfalso
        subst hcase
        have hmem := List.getElem?_mem hk
        have := (frame_head_plain s ⟨s.buf_index, hlt⟩ op
          (List.mem_append_left _ (List.mem_append_left _ (List.mem_append_left _ hmem)))).1
        rw [this] at hm
        cases hm
      · subst hcase
        simp only at hk ho
        rw [frameOps_split_map] at hk ho
        have hkl := index_of_only Op.isMap _ _ _ op k
          (fun o ho => (frame_head_plain s ⟨s.buf_index, hlt⟩ o ho).1)
          (by simp [Op.isMap]) hk hm
        rw [hkl, take_split] at ho
        rcases List.mem_append.mp ho with h1 | h1
        · have h2 := frame_head_plain s ⟨s.buf_index, hlt⟩ o h1
          exact ⟨h2.2.2.1, h2.2.2.2.1⟩
        · rw [List.mem_singleton.mp h1]
          exact ⟨rfl, rfl⟩
    · intro hm o ho
      obtain ⟨hlt, hcase | ⟨tree, ht, hs, hcase⟩⟩ := render_cases s r hr
      · exfalso
        subst hcase
        have hmem := List.getElem?_mem hk
        have := (frame_head_plain s ⟨s.buf_index, hlt⟩ op
          (List.mem_append_left _ (List.mem_append_left _ (List.mem_append_left _ hmem)))).2.2.1
        rw [this] at hm
        cases hm
      · subst hcase
        simp only at hk ho
        rw [frameOps_split_launch] at hk ho
        have hpre := frame_to_map_plain s ⟨s.buf_index, hlt⟩
        have hkl := index_of_only Op.isLaunch _ _ _ op k (fun o ho => (hpre o ho).1)
          (by simp [Op.isLaunch]) hk hm
        rw [hkl, take_split] at ho
        rcases List.mem_append.mp ho with h1 | h1
        · exact (hpre o h1).2
        · rw [List.mem_singleton.mp h1]
          exact ⟨rfl, rfl⟩
    · intro hm o ho
      obtain ⟨hlt, hcase | ⟨tree, ht, hs, hcase⟩⟩ := render_cases s r hr
      · exfalso
        subst hcase
        have hmem := List.getElem?_mem hk
        have := (frame_head_plain s ⟨s.buf_index, hlt⟩ op
          (List.mem_append_left _ (List.mem_append_left _ (List.mem_append_left _ hmem)))).2.1
        rw [this] at hm
        cases hm
      · subst hcase
        simp only at hk ho
        rw [frameOps_split_unmap] at hk ho
        have hpre := frame_to_launch_plain s tree ⟨s.buf_index, hlt⟩
        have hkl := index_of_only Op.isUnmap _ _ _ op k (fun o ho => (hpre o ho).1)
          (by simp [Op.isUnmap]) hk hm
        rw [hkl, take_split] at ho
        rcases List.mem_append.mp ho with h1 | h1
        · exact (hpre o h1).2
        · rw [List.mem_singleton.mp h1]
          rfl
  · intro quiet hq
    constructor
    · simp only [Impl.resizeChecked, issued_no_failure quiet hq]
      rfl
    · simp only [Impl.renderChecked, issued_no_failure quiet hq]
      rfl

theorem checked_calls_fail_fast_witness :
    (fun j => j == 9) 9 = true ∧
    ((∀ op : Op, op.isUnregister = true ∨ op.isRegister = true ∨ op.isMap = true ∨
        op.isGetMappedArray = true ∨ op.isLaunch = true ∨ op.isUnmap = true →
      op.failsFast = true) ∧
    (∀ op : Op, (Impl.resize exampleReady exampleGpu 640 480).2.2[9]? = some op →
      op.failsFast = true →
      (∀ j o, j < 9 → (Impl.resize exampleReady exampleGpu 640 480).2.2[j]? = some o →
        o.failsFast = true → (fun j => j == 9) j = false) →
      Impl.resizeChecked exampleReady exampleGpu 640 480 (fun j => j == 9) =
        ((Impl.resize exampleReady exampleGpu 640 480).2.2.take (9 + 1), none)) ∧
    (∀ (r : Impl × List Op) (op : Op), Impl.render exampleReady = some r →
      r.2[9]? = some op → op.failsFast = true →
      (∀ j o, j < 9 → r.2[j]? = some o → o.failsFast = true →
        (fun j => j == 9) j = false) →
      Impl.renderChecked exampleReady (fun j => j == 9) = some (r.2.take (9 + 1), none) ∧
      (op.isMap = true → ∀ o ∈ r.2.take (9 + 1), o.isLaunch = false ∧ o.isBlit = false) ∧
      (op.isLaunch = true → ∀ o ∈ r.2.take (9 + 1), o.isUnmap = false ∧ o.isBlit = false) ∧
      (op.isUnmap = true → ∀ o ∈ r.2.take (9 + 1), o.isBlit = false)) ∧
    (∀ quiet : Nat → Bool, (∀ j, quiet j = false) →
      Impl.resizeChecked exampleReady exampleGpu 640 480 quiet =
        ((Impl.resize exampleReady exampleGpu 640 480).2.2,
         some ((Impl.resize exampleReady exampleGpu 640 480).1,
               (Impl.resize exampleReady exampleGpu 640 480).2.1)) ∧
      Impl.renderChecked exampleReady quiet =
        (Impl.render exampleReady).map fun r => (r.2, some r.1))) :=
  ⟨rfl, checked_calls_fail_fast exampleReady exampleGpu 640 480 (fun j => j == 9) 9 rfl⟩

end volrend
